import Mathlib

/-!
# Trust-establishment core of opni-monitoring

A shallow embedding of the bootstrap server (`pkg/bootstrap/server.go`), the
custom-resource token and keyring stores (`pkg/storage/crds`), the token
conversion helpers (`pkg/tokens/conversion.go`) and the in-memory test stores
(`pkg/test/mock_helpers.go`), followed by theorems about them.

Conventions
* Go strings are Lean strings; `[]byte` is `Bytes`.
* `int64` values are `Int`; arithmetic that can overflow is wrapped by `wrapInt64`.
* A Go `error` result is `Option Err` (none is nil) or `Except Err α`.
* A Go `map[string]T` is an association list read with `mapGet`, written with `mapSet`.
* Store interfaces are records of functions over an explicit store state.
-/

namespace Opni

/-! ## Errors -/

/-- The error values the modelled code creates or tests for. -/
inductive Err where
  /-- The sentinel `storage.ErrNotFound`. -/
  | ErrNotFound
  /-- A Kubernetes API status error with reason NotFound. -/
  | k8sNotFound (name : String)
  /-- A Kubernetes API status error with reason AlreadyExists. -/
  | k8sAlreadyExists (name : String)
  /-- A Kubernetes API status error with reason Conflict. -/
  | k8sConflict (name : String)
  /-- The result of `fmt.Errorf` with a `%w` verb. -/
  | wrapped (msg : String) (inner : Err)
  /-- Any other error. -/
  | other (msg : String)
  deriving DecidableEq, Repr

/-- Go `errors.Is`: the error or one of the errors it wraps equals the target. -/
def errorsIs : Err → Err → Bool
  | .wrapped msg inner, target =>
    if Err.wrapped msg inner = target then true else errorsIs inner target
  | e, target => decide (e = target)

/-- The predicate `k8serrors.IsNotFound`. -/
def IsNotFound : Err → Bool
  | .k8sNotFound _ => true
  | _ => false

/-- The predicate `k8serrors.IsConflict`. -/
def IsConflict : Err → Bool
  | .k8sConflict _ => true
  | _ => false

/-! ## Bytes, strings and maps -/

abbrev Bytes := List (Fin 256)

/-- Go `unicode.IsSpace`. -/
def isSpace (c : Char) : Bool :=
  let n := c.toNat
  n = 9 || n = 10 || n = 11 || n = 12 || n = 13 || n = 32 || n = 0x85 || n = 0xA0 ||
  n = 0x1680 || (0x2000 ≤ n && n ≤ 0x200A) || n = 0x2028 || n = 0x2029 || n = 0x202F ||
  n = 0x205F || n = 0x3000

/-- Go `strings.TrimSpace`. -/
def TrimSpace (s : String) : String :=
  String.mk (((s.data.dropWhile isSpace).reverse.dropWhile isSpace).reverse)

/-- Remove a leading `p` from `s` when present, on character lists. -/
def stripLeading : List Char → List Char → Option (List Char)
  | [], s => some s
  | _ :: _, [] => none
  | p :: ps, c :: cs => if p = c then stripLeading ps cs else none

/-- Go `strings.TrimPrefix`. -/
def TrimPrefix (s : String) (p : String) : String :=
  match stripLeading p.data s.data with
  | some rest => String.mk rest
  | none => s

/-- Read a Go map: the value stored under `k`, if any. -/
def mapGet {β : Type} : List (String × β) → String → Option β
  | [], _ => none
  | (k', v) :: rest, k => if k' = k then some v else mapGet rest k

/-- Write a Go map: `m[k] = v`. -/
def mapSet {β : Type} : List (String × β) → String → β → List (String × β)
  | [], k, v => [(k, v)]
  | (k', v') :: rest, k, v =>
    if k' = k then (k, v) :: rest else (k', v') :: mapSet rest k v

/-- The keys of a Go map. -/
def mapKeys {β : Type} (m : List (String × β)) : List String := m.map Prod.fst

/-- Go `int64` conversion of a mathematical integer (two's complement wrap). -/
def wrapInt64 (x : Int) : Int := (x + 2 ^ 63) % 2 ^ 64 - 2 ^ 63

/-! ## Hex encoding (`encoding/hex`) -/

/-- The digit `hextable[n]` for `n < 16`. -/
def hexDigit (n : Nat) : Char :=
  if n < 10 then Char.ofNat (48 + n) else Char.ofNat (87 + n)

/-- Go `hex.EncodeToString`. -/
def hexEncode : Bytes → List Char
  | [] => []
  | b :: bs => hexDigit (b.val / 16) :: hexDigit (b.val % 16) :: hexEncode bs

/-- The table `reverseHexTable`: the value of a hex digit, none for any other character. -/
def fromHexChar (c : Char) : Option Nat :=
  let n := c.toNat
  if 48 ≤ n ∧ n ≤ 57 then some (n - 48)
  else if 97 ≤ n ∧ n ≤ 102 then some (n - 87)
  else if 65 ≤ n ∧ n ≤ 70 then some (n - 55)
  else none

/-- The error `hex.InvalidByteError`. -/
def errInvalidByte (c : Char) : Err := .other ("encoding/hex: invalid byte: " ++ c.toString)

/-- The error `hex.ErrLength`. -/
def errLength : Err := .other "encoding/hex: odd length hex string"

/-- Go `hex.DecodeString` on the characters of the string. -/
def hexDecode : List Char → Except Err Bytes
  | [] => .ok []
  | [c] =>
    match fromHexChar c with
    | none => .error (errInvalidByte c)
    | some _ => .error errLength
  | p :: q :: rest =>
    match fromHexChar p with
    | none => .error (errInvalidByte p)
    | some a =>
      match fromHexChar q with
      | none => .error (errInvalidByte q)
      | some b =>
        match hexDecode rest with
        | .ok bs => .ok (Fin.ofNat (a * 16 + b) :: bs)
        | .error e => .error e

/-! ## Core data (`pkg/core`) -/

abbrev Labels := List (String × String)

structure BootstrapTokenMetadata where
  LeaseID : Int
  Ttl : Int
  UsageCount : Int
  Labels : Labels
  Capabilities : List String
  deriving DecidableEq, Repr

/-- The persisted `core.BootstrapToken`; stored tokens carry their metadata. -/
structure BootstrapToken where
  TokenID : String
  Secret : String
  Metadata : BootstrapTokenMetadata
  deriving DecidableEq, Repr

structure Cluster where
  Id : String
  Labels : Labels
  deriving DecidableEq, Repr

/-- The nil-safe getter `GetTokenID` on a possibly nil token pointer. -/
def GetTokenID : Option BootstrapToken → String
  | none => ""
  | some t => t.TokenID

/-- The nil-safe getter `GetSecret` on a possibly nil token pointer. -/
def GetSecret : Option BootstrapToken → String
  | none => ""
  | some t => t.Secret

/-! ## Tokens (`pkg/tokens`) -/

structure Token where
  ID : Bytes
  Secret : Bytes
  deriving DecidableEq, Repr

/-- Modelled from the spec: `Token.HexID`, the hex form of the token id, which is the
lookup key in the token store (the method is declared outside the listed sources). -/
def Token.HexID (t : Token) : String := String.mk (hexEncode t.ID)

/-- Modelled from the spec: `Token.HexSecret`, the hex form of the secret. -/
def Token.HexSecret (t : Token) : String := String.mk (hexEncode t.Secret)

/-- Modelled from the spec: `Token.Reference`, the store reference of a token, whose id
is the hex token id. -/
def Token.Reference (t : Token) : String := t.HexID

/-- The conversion `tokens.FromBootstrapToken`. -/
def FromBootstrapToken (t : Option BootstrapToken) : Except Err Token :=
  let tokenID := GetTokenID t
  let tokenSecret := GetSecret t
  match hexDecode tokenID.data with
  | .error e => .error e
  | .ok decodedID =>
    match hexDecode tokenSecret.data with
    | .error e => .error e
    | .ok decodedSecret => .ok { ID := decodedID, Secret := decodedSecret }

/-- The conversion `Token.ToBootstrapToken`. -/
def Token.ToBootstrapToken (t : Token) : BootstrapToken :=
  { TokenID := t.HexID
    Secret := t.HexSecret
    Metadata := { LeaseID := 0, Ttl := 0, UsageCount := 0, Labels := [], Capabilities := [] } }

/-! ## Keyrings (`pkg/keyring`) -/

inductive Key where
  | SharedKeys (clientKey serverKey : Bytes)
  | CACert (data : Bytes)
  | PKPKey (fingerprint : Bytes)
  deriving DecidableEq, Repr

structure Keyring where
  Keys : List Key
  deriving DecidableEq, Repr

/-! ## Store interfaces (`pkg/storage/stores.go`)

Each interface is a record of functions over a store state `σ`. A read returns a
value or an error; a write returns the Go `error` together with the state it leaves. Only
the methods the bootstrap server calls are listed. -/

structure KeyringStore (σ : Type) where
  Put : Keyring → σ → Option Err × σ
  Get : σ → Except Err Keyring

structure TokenStore (σ : Type) where
  GetToken : String → σ → Except Err BootstrapToken
  ListTokens : σ → Except Err (List (Option BootstrapToken))
  IncrementUsageCount : String → σ → Option Err × σ

structure ClusterStore (σ : Type) where
  GetCluster : String → σ → Except Err Cluster
  CreateCluster : Cluster → σ → Option Err × σ
  KeyringStore : String → σ → Except Err (KeyringStore σ)

/-! ## Bootstrap server (`pkg/bootstrap/server.go`) -/

structure EphemeralKeyPair where
  PrivateKey : Bytes
  PublicKey : Bytes
  deriving DecidableEq, Repr

inductive PeerType where
  | PeerTypeClient
  | PeerTypeServer
  deriving DecidableEq, Repr

structure PeerPublicKey where
  PublicKey : Bytes
  PeerType : PeerType
  deriving DecidableEq, Repr

structure BootstrapAuthRequest where
  ClientID : String
  ClientPubKey : Bytes
  deriving DecidableEq, Repr

/-- The library functions the handlers call (jwx, the token codec, fiber, ecdh and
keyring): they are parameters of the model. -/
structure Library where
  /-- The call `jws.Verify` with EdDSA against the certificate's public key: the payload. -/
  jwsVerify : String → Except Err String
  /-- The call `tokens.ParseJSON`. -/
  ParseJSON : String → Except Err Token
  /-- The call `Token.SignDetached` with the certificate's private key. -/
  SignDetached : Token → Except Err Bytes
  /-- The call `c.BodyParser` into a `BootstrapAuthRequest`. -/
  BodyParser : String → Except Err BootstrapAuthRequest
  /-- The key pair drawn by `ecdh.NewEphemeralKeyPair`. -/
  NewEphemeralKeyPair : EphemeralKeyPair
  /-- The call `ecdh.DeriveSharedSecret`. -/
  DeriveSharedSecret : EphemeralKeyPair → PeerPublicKey → Except Err Bytes
  /-- The composition `keyring.New (keyring.NewSharedKeys secret)`. -/
  NewKeyring : Bytes → Keyring

/-- The server configuration: its stores, and the library it runs against. -/
structure ServerConfig (σ : Type) extends Library where
  TokenStore : TokenStore σ
  ClusterStore : ClusterStore σ

structure Request where
  Path : String
  Headers : List (String × String)
  Body : String
  deriving DecidableEq, Repr

/-- The fiber accessor `c.Get`: the value of a header, the empty string when absent. -/
def Request.Get (c : Request) (key : String) : String :=
  (mapGet c.Headers key).getD ""

inductive ResponseBody where
  /-- The body left by `c.SendStatus`. -/
  | statusMessage
  /-- The body set by `SendString`. -/
  | text (s : String)
  /-- The JSON form of `BootstrapJoinResponse`. -/
  | joinResponse (Signatures : List (String × Bytes))
  /-- The JSON form of `BootstrapAuthResponse`. -/
  | authResponse (ServerPubKey : Bytes)
  /-- The JSON form of `BootstrapLoggingResponse`. -/
  | loggingResponse (Username Password : String)
  deriving DecidableEq, Repr

inductive Result where
  | response (Status : Nat) (Body : ResponseBody)
  | panicked (msg : String)
  deriving DecidableEq, Repr

/-- The status code of a response; none when the handler panicked. -/
def Result.status : Result → Option Nat
  | .response st _ => some st
  | .panicked _ => none

def StatusOK : Nat := 200
def StatusBadRequest : Nat := 400
def StatusUnauthorized : Nat := 401
def StatusNotFound : Nat := 404
def StatusMethodNotAllowed : Nat := 405
def StatusConflict : Nat := 409
def StatusInternalServerError : Nat := 500

/-- The fiber call `c.SendStatus`. -/
def SendStatus (code : Nat) : Result := .response code .statusMessage

/-- A call a handler makes on one of its collaborators. -/
inductive Call where
  | ListTokens
  | GetToken (ref : String)
  | GetCluster (ref : String)
  | CreateCluster (cluster : Cluster)
  | IncrementUsageCount (ref : String)
  | KeyringStore (ref : String)
  | KeyringPut (ref : String) (kr : Keyring)
  | SignDetached (token : Token)
  deriving DecidableEq, Repr

/-- A call and whether it returned without error. -/
structure Event where
  call : Call
  ok : Bool
  deriving DecidableEq, Repr

/-- The outcome of running a handler: the response, the store state it leaves and the
calls it made, in program order. -/
structure Run (σ : Type) where
  result : Result
  state : σ
  trace : List Event

/-- The loop of `bootstrapJoinResponse` over the listed tokens, from the signatures
collected so far. -/
def signTokens {σ : Type} (h : ServerConfig σ) :
    List (Option BootstrapToken) → List (String × Bytes) →
      Except Err (List (String × Bytes)) × List Event
  | [], signatures => (.ok signatures, [])
  | token :: rest, signatures =>
    match FromBootstrapToken token with
    | .error err => (.error err, [])
    | .ok rawToken =>
      match h.SignDetached rawToken with
      | .error err =>
        (.error (.wrapped "error signing token" err), [⟨.SignDetached rawToken, false⟩])
      | .ok sig =>
        let r := signTokens h rest (mapSet signatures rawToken.HexID sig)
        (r.1, ⟨.SignDetached rawToken, true⟩ :: r.2)

/-- The method `ServerConfig.bootstrapJoinResponse`: the signatures map or an error. -/
def bootstrapJoinResponse {σ : Type} (h : ServerConfig σ) (s : σ) :
    Except Err (List (String × Bytes)) × List Event :=
  match h.TokenStore.ListTokens s with
  | .error err => (.error err, [⟨.ListTokens, false⟩])
  | .ok tokenList =>
    let r := signTokens h tokenList []
    (r.1, ⟨.ListTokens, true⟩ :: r.2)

/-- The method `ServerConfig.handleBootstrapJoin`. -/
def handleBootstrapJoin {σ : Type} (h : ServerConfig σ) (c : Request) (s : σ) : Run σ :=
  let authHeader := TrimSpace (c.Get "Authorization")
  if authHeader = "" then
    match bootstrapJoinResponse h s with
    | (.error _, tr) => ⟨SendStatus StatusInternalServerError, s, tr⟩
    | (.ok Signatures, tr) =>
      if Signatures.length = 0 then
        ⟨SendStatus StatusMethodNotAllowed, s, tr⟩
      else
        ⟨.response StatusOK (.joinResponse Signatures), s, tr⟩
  else
    ⟨SendStatus StatusBadRequest, s, []⟩

/-- The method `ServerConfig.handleBootstrapAuth`. -/
def handleBootstrapAuth {σ : Type} (h : ServerConfig σ) (c : Request) (s : σ) : Run σ :=
  let authHeader := TrimSpace (c.Get "Authorization")
  if TrimSpace authHeader = "" then
    ⟨SendStatus StatusUnauthorized, s, []⟩
  else
    let bearerToken := TrimSpace (TrimPrefix authHeader "Bearer")
    match h.jwsVerify bearerToken with
    | .error _ => ⟨SendStatus StatusUnauthorized, s, []⟩
    | .ok payload =>
    match h.ParseJSON payload with
    | .error _ => ⟨.panicked "bug: jws.Verify returned a malformed token", s, []⟩
    | .ok token =>
    match h.TokenStore.GetToken token.Reference s with
    | .error err =>
      if errorsIs err .ErrNotFound then
        ⟨SendStatus StatusUnauthorized, s, [⟨.GetToken token.Reference, false⟩]⟩
      else
        ⟨SendStatus StatusInternalServerError, s, [⟨.GetToken token.Reference, false⟩]⟩
    | .ok bootstrapToken =>
    match h.BodyParser c.Body with
    | .error _ =>
      ⟨.response StatusBadRequest (.text "Invalid request body"), s,
        [⟨.GetToken token.Reference, true⟩]⟩
    | .ok clientReq =>
    match h.ClusterStore.GetCluster clientReq.ClientID s with
    | .ok _ =>
      ⟨.response StatusConflict (.text "ID already in use"), s,
        [⟨.GetToken token.Reference, true⟩, ⟨.GetCluster clientReq.ClientID, true⟩]⟩
    | .error err =>
    let tr0 : List Event :=
      [⟨.GetToken token.Reference, true⟩, ⟨.GetCluster clientReq.ClientID, false⟩]
    if !errorsIs err .ErrNotFound then
      ⟨SendStatus StatusInternalServerError, s, tr0⟩
    else
      let ekp := h.NewEphemeralKeyPair
      match h.DeriveSharedSecret ekp
        { PublicKey := clientReq.ClientPubKey, PeerType := .PeerTypeClient } with
      | .error _ => ⟨SendStatus StatusInternalServerError, s, tr0⟩
      | .ok sharedSecret =>
      let kr := h.NewKeyring sharedSecret
      let newCluster : Cluster :=
        { Id := clientReq.ClientID, Labels := bootstrapToken.Metadata.Labels }
      match h.ClusterStore.CreateCluster newCluster s with
      | (some _, s1) =>
        ⟨SendStatus StatusInternalServerError, s1, tr0 ++ [⟨.CreateCluster newCluster, false⟩]⟩
      | (none, s1) =>
      match h.TokenStore.IncrementUsageCount token.Reference s1 with
      | (some _, s2) =>
        ⟨SendStatus StatusInternalServerError, s2,
          tr0 ++ [⟨.CreateCluster newCluster, true⟩,
            ⟨.IncrementUsageCount token.Reference, false⟩]⟩
      | (none, s2) =>
      match h.ClusterStore.KeyringStore newCluster.Id s2 with
      | .error _ =>
        ⟨SendStatus StatusInternalServerError, s2,
          tr0 ++ [⟨.CreateCluster newCluster, true⟩,
            ⟨.IncrementUsageCount token.Reference, true⟩,
            ⟨.KeyringStore newCluster.Id, false⟩]⟩
      | .ok krStore =>
      match krStore.Put kr s2 with
      | (some _, s3) =>
        ⟨SendStatus StatusInternalServerError, s3,
          tr0 ++ [⟨.CreateCluster newCluster, true⟩,
            ⟨.IncrementUsageCount token.Reference, true⟩,
            ⟨.KeyringStore newCluster.Id, true⟩,
            ⟨.KeyringPut newCluster.Id kr, false⟩]⟩
      | (none, s3) =>
        ⟨.response StatusOK (.authResponse ekp.PublicKey), s3,
          tr0 ++ [⟨.CreateCluster newCluster, true⟩,
            ⟨.IncrementUsageCount token.Reference, true⟩,
            ⟨.KeyringStore newCluster.Id, true⟩,
            ⟨.KeyringPut newCluster.Id kr, true⟩]⟩

/-! ## In-memory test stores (`pkg/test/mock_helpers.go`) -/

/-- The maps held by the test stores: `tks` of the token store, `clusters` of the
cluster store, and the keyrings of the keyring-store broker, each kept under the key
the broker and its stores compute, the concatenation of the namespace and the id. -/
structure MemStore where
  tks : List (String × BootstrapToken)
  clusters : List (String × Cluster)
  keyrings : List (String × Keyring)
  deriving DecidableEq, Repr

/-- The `GetToken` expectation of `NewTestTokenStore`. -/
def testGetToken (ref : String) (s : MemStore) : Except Err BootstrapToken :=
  match mapGet s.tks ref with
  | none => .error .ErrNotFound
  | some t => .ok t

/-- The `ListTokens` expectation of `NewTestTokenStore`. -/
def testListTokens (s : MemStore) : Except Err (List (Option BootstrapToken)) :=
  .ok (s.tks.map fun kv => some kv.2)

/-- The `UpdateToken` expectation of `NewTestTokenStore`. -/
def testUpdateToken (ref : String) (mutator : BootstrapToken → BootstrapToken)
    (s : MemStore) : Except Err BootstrapToken × MemStore :=
  match mapGet s.tks ref with
  | none => (.error .ErrNotFound, s)
  | some token =>
    let cloned := mutator token
    (.ok cloned, { s with tks := mapSet s.tks ref cloned })

/-- Modelled from the spec: the mutator of `IncrementUsageCount`, which adds one to the
usage count of a token and leaves its other fields as they are. -/
def incrementUsage (t : BootstrapToken) : BootstrapToken :=
  { t with Metadata := { t.Metadata with UsageCount := t.Metadata.UsageCount + 1 } }

/-- Modelled from the spec: `IncrementUsageCount`, the atomic increment of a token's
usage count by one, here an `UpdateToken` of the test token store (the method is called
by the server and declared outside the listed sources). -/
def testIncrementUsageCount (ref : String) (s : MemStore) : Option Err × MemStore :=
  match testUpdateToken ref incrementUsage s with
  | (.error err, s1) => (some err, s1)
  | (.ok _, s1) => (none, s1)

/-- The `GetCluster` expectation of `NewTestClusterStore`. -/
def testGetCluster (ref : String) (s : MemStore) : Except Err Cluster :=
  match mapGet s.clusters ref with
  | none => .error .ErrNotFound
  | some c => .ok c

/-- The `CreateCluster` expectation of `NewTestClusterStore`. -/
def testCreateCluster (cluster : Cluster) (s : MemStore) : Option Err × MemStore :=
  (none, { s with clusters := mapSet s.clusters cluster.Id cluster })

/-- The store built by `NewTestKeyringStore` for a namespace and a reference. -/
def NewTestKeyringStore (pfx : String) (ref : String) : KeyringStore MemStore where
  Put := fun keyring s => (none, { s with keyrings := mapSet s.keyrings (pfx ++ ref) keyring })
  Get := fun s =>
    match mapGet s.keyrings (pfx ++ ref) with
    | none => .error .ErrNotFound
    | some keyring => .ok keyring

/-- The default handler of `NewTestKeyringStoreBroker`: the store kept under the
concatenation of the namespace and the id. A store that is found was built for a pair
with the same concatenation, so it reads and writes the same entry as a fresh one. -/
def NewTestKeyringStoreBroker (pfx : String) (ref : String) (_ : MemStore) :
    Except Err (KeyringStore MemStore) :=
  .ok (NewTestKeyringStore pfx ref)

/-- The token store of the tests. -/
def NewTestTokenStore : TokenStore MemStore where
  GetToken := testGetToken
  ListTokens := testListTokens
  IncrementUsageCount := testIncrementUsageCount

/-- Modelled from the spec: the cluster store's `KeyringStore` method, which the server
calls with the cluster reference alone and which is declared outside the listed sources;
each cluster owns one keyring, kept under the namespace gateway-internal and keyed by
the cluster id. -/
def testClusterKeyringStore (ref : String) (s : MemStore) : Except Err (KeyringStore MemStore) :=
  NewTestKeyringStoreBroker "gateway-internal" ref s

/-- The cluster store of the tests. -/
def NewTestClusterStore : ClusterStore MemStore where
  GetCluster := testGetCluster
  CreateCluster := testCreateCluster
  KeyringStore := testClusterKeyringStore

/-! ### Failing stores

The interfaces let every method return an error. `Faults` chooses, per method, an error
to return instead of running the method; a failed call leaves the state as it was. -/

structure Faults where
  GetToken : Option Err := none
  ListTokens : Option Err := none
  IncrementUsageCount : Option Err := none
  GetCluster : Option Err := none
  CreateCluster : Option Err := none
  KeyringStore : Option Err := none
  KeyringPut : Option Err := none
  deriving DecidableEq, Repr

/-- A read that fails with the chosen error, if any. -/
def failRead {σ α : Type} (fault : Option Err) (f : σ → Except Err α) (s : σ) :
    Except Err α :=
  match fault with
  | some err => .error err
  | none => f s

/-- A write that fails with the chosen error, if any, leaving the state unchanged. -/
def failWrite {σ : Type} (fault : Option Err) (f : σ → Option Err × σ) (s : σ) :
    Option Err × σ :=
  match fault with
  | some err => (some err, s)
  | none => f s

/-- A token store with injected failures. -/
def faultyTokenStore {σ : Type} (f : Faults) (ts : TokenStore σ) : TokenStore σ where
  GetToken := fun ref => failRead f.GetToken (ts.GetToken ref)
  ListTokens := failRead f.ListTokens ts.ListTokens
  IncrementUsageCount := fun ref => failWrite f.IncrementUsageCount (ts.IncrementUsageCount ref)

/-- A keyring store with injected failures. -/
def faultyKeyringStore {σ : Type} (f : Faults) (ks : KeyringStore σ) : KeyringStore σ where
  Put := fun kr => failWrite f.KeyringPut (ks.Put kr)
  Get := ks.Get

/-- A cluster store with injected failures. -/
def faultyClusterStore {σ : Type} (f : Faults) (cs : ClusterStore σ) : ClusterStore σ where
  GetCluster := fun ref => failRead f.GetCluster (cs.GetCluster ref)
  CreateCluster := fun c => failWrite f.CreateCluster (cs.CreateCluster c)
  KeyringStore := fun ref s =>
    match failRead f.KeyringStore (cs.KeyringStore ref) s with
    | .error err => .error err
    | .ok ks => .ok (faultyKeyringStore f ks)

/-- A server over the test stores, with injected failures. -/
def testServer (f : Faults) (l : Library) : ServerConfig MemStore :=
  { l with
    TokenStore := faultyTokenStore f NewTestTokenStore
    ClusterStore := faultyClusterStore f NewTestClusterStore }

/-! ## Kubernetes API objects and client

The custom-resource stores talk to the API server through a controller-runtime client.
The model is a reachable API server holding the objects of each kind in a list; `Get`,
`Create`, `Update` and `List` return what the API returns on that list. -/

/-- An API object: its metadata and its content, the `Spec` of a `v1beta1.BootstrapToken`
or the `Data` of a `v1beta1.Keyring`. -/
structure Object (α : Type) where
  Name : String
  Namespace : String
  /-- Seconds since the epoch. -/
  CreationTimestamp : Int
  ResourceVersion : Nat
  Content : α
  deriving DecidableEq, Repr

/-- The call `client.Get`: the object with the given namespace and name. -/
def clientGet {α : Type} : List (Object α) → String → String → Except Err (Object α)
  | [], _, name => .error (.k8sNotFound name)
  | o :: rest, ns, name =>
    if o.Namespace = ns ∧ o.Name = name then .ok o else clientGet rest ns name

/-- Replace the object that has the namespace and name of `n` by `n`. -/
def replaceObject {α : Type} : List (Object α) → Object α → List (Object α)
  | [], _ => []
  | o :: rest, n =>
    if o.Namespace = n.Namespace ∧ o.Name = n.Name then n :: rest
    else o :: replaceObject rest n

/-- The call `client.Create` at time `now`: fails when the object exists. -/
def clientCreate {α : Type} (objs : List (Object α)) (now : Int) (obj : Object α) :
    Option Err × List (Object α) :=
  match clientGet objs obj.Namespace obj.Name with
  | .ok _ => (some (.k8sAlreadyExists obj.Name), objs)
  | .error _ => (none, objs ++ [{ obj with CreationTimestamp := now, ResourceVersion := 1 }])

/-- The call `client.Update`: fails when the object is absent, and with a conflict when
the resource version it carries is not the stored one. -/
def clientUpdate {α : Type} (objs : List (Object α)) (obj : Object α) :
    Option Err × List (Object α) :=
  match clientGet objs obj.Namespace obj.Name with
  | .error err => (some err, objs)
  | .ok cur =>
    if obj.ResourceVersion ≠ 0 ∧ obj.ResourceVersion ≠ cur.ResourceVersion then
      (some (.k8sConflict obj.Name), objs)
    else
      (none, replaceObject objs
        { obj with
          CreationTimestamp := cur.CreationTimestamp
          ResourceVersion := cur.ResourceVersion + 1 })

/-- The call `client.List` with `client.InNamespace`. -/
def clientList {α : Type} (objs : List (Object α)) (ns : String) : List (Object α) :=
  objs.filter fun o => o.Namespace = ns

/-- The objects held by the API server. -/
structure ApiServer where
  BootstrapTokens : List (Object BootstrapToken)
  Keyrings : List (Object Bytes)
  deriving DecidableEq, Repr

/-- Go `retry.OnError` with a backoff of `steps` steps: run `fn` until it succeeds, fails
with an error that is not retriable, or the steps are used up; then the last error. -/
def retryOnError {σ : Type} (retriable : Err → Bool) (fn : σ → Option Err × σ) :
    Nat → Option Err → σ → Option Err × σ
  | 0, lastErr, s => (lastErr, s)
  | steps + 1, _, s =>
    match fn s with
    | (none, s1) => (none, s1)
    | (some err, s1) =>
      if retriable err then retryOnError retriable fn steps (some err) s1
      else (some err, s1)

/-! ## Custom-resource token store (`pkg/storage/crds/token_store.go`) -/

/-- The store's options: the namespace of its objects, and the number of steps of
`defaultBackoff` (declared outside the listed sources). -/
structure CRDStore where
  Namespace : String
  defaultBackoffSteps : Nat
  deriving DecidableEq, Repr

/-- The function `patchTTL` at time `now`. -/
def patchTTL (now : Int) (token : Object BootstrapToken) : Object BootstrapToken :=
  let created := token.CreationTimestamp
  let ttl := token.Content.Metadata.Ttl
  let newTtl := wrapInt64 (ttl - wrapInt64 (now - created))
  let newTtl := if newTtl < 0 then 0 else newTtl
  { token with
    Content := { token.Content with Metadata := { token.Content.Metadata with Ttl := newTtl } } }

/-- The method `CRDStore.GetToken` at time `now`. The deletion of an expired token runs
in the background and is not part of the call. -/
def CRDStore.GetToken (c : CRDStore) (now : Int) (ref : String) (api : ApiServer) :
    Except Err BootstrapToken :=
  match clientGet api.BootstrapTokens c.Namespace ref with
  | .error err =>
    if IsNotFound err then .error .ErrNotFound else .error err
  | .ok token =>
    let token := patchTTL now token
    if token.Content.Metadata.Ttl ≤ 0 then
      .error (.k8sNotFound token.Name)
    else
      .ok token.Content

/-- The method `CRDStore.ListTokens` at time `now`: a slice with one entry per listed
object, nil where the loop skips the object. -/
def CRDStore.ListTokens (c : CRDStore) (now : Int) (api : ApiServer) :
    Except Err (List (Option BootstrapToken)) :=
  let list := clientList api.BootstrapTokens c.Namespace
  .ok (list.map fun item =>
    let item := patchTTL now item
    if item.Content.Metadata.Ttl ≤ 0 then none else some item.Content)

/-- The closure `UpdateToken` retries: read, mutate a copy, write; it also records the
mutated token. -/
def updateTokenAttempt (c : CRDStore) (ref : String)
    (mutator : BootstrapToken → BootstrapToken) (s : ApiServer × Option BootstrapToken) :
    Option Err × (ApiServer × Option BootstrapToken) :=
  match clientGet s.1.BootstrapTokens c.Namespace ref with
  | .error err => (some err, s)
  | .ok existing =>
    let clone := { existing with Content := mutator existing.Content }
    let r := clientUpdate s.1.BootstrapTokens clone
    (r.1, ({ s.1 with BootstrapTokens := r.2 }, some clone.Content))

/-- The method `CRDStore.UpdateToken`: the token it returns is nil when no attempt ran. -/
def CRDStore.UpdateToken (c : CRDStore) (ref : String)
    (mutator : BootstrapToken → BootstrapToken) (api : ApiServer) :
    Except Err (Option BootstrapToken) × ApiServer :=
  match retryOnError IsConflict (updateTokenAttempt c ref mutator) c.defaultBackoffSteps none
    (api, none) with
  | (some err, s) =>
    if IsNotFound err then (.error .ErrNotFound, s.1) else (.error err, s.1)
  | (none, s) => (.ok s.2, s.1)

/-- Modelled from the spec: `IncrementUsageCount` on the custom-resource store, the
atomic increment of a token's usage count by one through `UpdateToken`. -/
def CRDStore.IncrementUsageCount (c : CRDStore) (ref : String) (api : ApiServer) :
    Option Err × ApiServer :=
  match c.UpdateToken ref incrementUsage api with
  | (.error err, api1) => (some err, api1)
  | (.ok _, api1) => (none, api1)

/-- The custom-resource store as a token store, read at time `now`. -/
def CRDStore.TokenStore (c : CRDStore) (now : Int) : TokenStore ApiServer where
  GetToken := c.GetToken now
  ListTokens := c.ListTokens now
  IncrementUsageCount := c.IncrementUsageCount

/-! ## Custom-resource keyring store (`pkg/storage/crds/keyring_store.go`) -/

/-- The keyring codec, `Keyring.Marshal` and `keyring.Unmarshal`: parameters of the
model. -/
structure KeyringCodec where
  Marshal : Keyring → Except Err Bytes
  Unmarshal : Bytes → Except Err Keyring

/-- The type `crdKeyringStore`: the store options, the reference id and the field
named prefix in the source. -/
structure crdKeyringStore where
  Namespace : String
  defaultBackoffSteps : Nat
  ref : String
  pfx : String
  deriving DecidableEq, Repr

/-- The closure `Put` retries: read the object, set its data, write it. -/
def putAttempt (ks : crdKeyringStore) (data : Bytes) (api : ApiServer) :
    Option Err × ApiServer :=
  match clientGet api.Keyrings ks.Namespace ks.ref with
  | .error err => (some err, api)
  | .ok kr =>
    let r := clientUpdate api.Keyrings { kr with Content := data }
    (r.1, { api with Keyrings := r.2 })

/-- The method `crdKeyringStore.Put` at time `now`. -/
def crdKeyringStore.Put (ks : crdKeyringStore) (codec : KeyringCodec) (now : Int)
    (keyring : Keyring) (api : ApiServer) : Option Err × ApiServer :=
  match codec.Marshal keyring with
  | .error err => (some err, api)
  | .ok data =>
    match clientGet api.Keyrings ks.Namespace ks.ref with
    | .error err =>
      if !IsNotFound err then (some err, api)
      else
        let kr : Object Bytes :=
          { Name := ks.ref, Namespace := ks.Namespace, CreationTimestamp := 0,
            ResourceVersion := 0, Content := data }
        let r := clientCreate api.Keyrings now kr
        (r.1, { api with Keyrings := r.2 })
    | .ok _ =>
      retryOnError IsConflict (putAttempt ks data) ks.defaultBackoffSteps none api

/-- The method `crdKeyringStore.Get`. -/
def crdKeyringStore.Get (ks : crdKeyringStore) (codec : KeyringCodec) (api : ApiServer) :
    Except Err Keyring :=
  match clientGet api.Keyrings ks.Namespace ks.ref with
  | .error err =>
    if IsNotFound err then .error .ErrNotFound else .error err
  | .ok kr => codec.Unmarshal kr.Content

/-- Modelled from the spec: `CRDStore.KeyringStore`, the broker method that returns the
single-object keyring store for a prefix and a reference; it hands the store its
options, the reference and the prefix (the method is declared outside the listed
sources). -/
def CRDStore.KeyringStore (c : CRDStore) (pfx : String) (ref : String) : crdKeyringStore :=
  { Namespace := c.Namespace, defaultBackoffSteps := c.defaultBackoffSteps,
    ref := ref, pfx := pfx }

/-! ## Servers over mixed stores -/

/-- A token store acting on the first component of a pair of states. -/
def TokenStore.onFst {σ τ : Type} (ts : TokenStore σ) : TokenStore (σ × τ) where
  GetToken := fun ref s => ts.GetToken ref s.1
  ListTokens := fun s => ts.ListTokens s.1
  IncrementUsageCount := fun ref s =>
    let r := ts.IncrementUsageCount ref s.1
    (r.1, (r.2, s.2))

/-- A keyring store acting on the second component of a pair of states. -/
def KeyringStore.onSnd {σ τ : Type} (ks : KeyringStore τ) : KeyringStore (σ × τ) where
  Put := fun kr s =>
    let r := ks.Put kr s.2
    (r.1, (s.1, r.2))
  Get := fun s => ks.Get s.2

/-- A cluster store acting on the second component of a pair of states. -/
def ClusterStore.onSnd {σ τ : Type} (cs : ClusterStore τ) : ClusterStore (σ × τ) where
  GetCluster := fun ref s => cs.GetCluster ref s.2
  CreateCluster := fun c s =>
    let r := cs.CreateCluster c s.2
    (r.1, (s.1, r.2))
  KeyringStore := fun ref s =>
    match cs.KeyringStore ref s.2 with
    | .error err => .error err
    | .ok ks => .ok ks.onSnd

/-- A server whose token store is the custom-resource store read at time `now` and whose
cluster store is the test cluster store. -/
def crdServer (c : CRDStore) (now : Int) (l : Library) : ServerConfig (ApiServer × MemStore) :=
  { l with
    TokenStore := (c.TokenStore now).onFst
    ClusterStore := NewTestClusterStore.onSnd }

/-- The kinds of durable write the auth handler makes. -/
inductive WriteKind where
  | createCluster
  | incrementUsageCount
  | keyringPut
  deriving DecidableEq, Repr

/-- The kind of a call that is a durable write, with whether it succeeded. -/
def writeOf (e : Event) : Option (WriteKind × Bool) :=
  match e.call with
  | .CreateCluster _ => some (.createCluster, e.ok)
  | .IncrementUsageCount _ => some (.incrementUsageCount, e.ok)
  | .KeyringPut _ _ => some (.keyringPut, e.ok)
  | _ => none

/-- The durable writes among the calls of a run, in program order. -/
def writeLog (tr : List Event) : List (WriteKind × Bool) := tr.filterMap writeOf

/-! ## Sample inputs -/

/-- A library with fixed answers: the bearer good verifies, every payload parses to one
token, the body is the client id. -/
def sampleLibrary : Library where
  jwsVerify := fun b => if b = "good" then .ok "payload" else .error (.other "bad signature")
  ParseJSON := fun _ => .ok { ID := [0xab], Secret := [0x01] }
  SignDetached := fun t => .ok t.Secret
  BodyParser := fun b =>
    if b = "" then .error (.other "empty body") else .ok { ClientID := b, ClientPubKey := [1] }
  NewEphemeralKeyPair := { PrivateKey := [2], PublicKey := [3] }
  DeriveSharedSecret := fun _ _ => .ok [9]
  NewKeyring := fun secret => { Keys := [.SharedKeys secret secret] }

/-- A token with id ab, a time to live of one minute and no use so far. -/
def sampleToken : BootstrapToken :=
  { TokenID := "ab", Secret := "01",
    Metadata := { LeaseID := -1, Ttl := 60, UsageCount := 0, Labels := [("env", "dev")],
                  Capabilities := [] } }

/-- A test store holding the sample token and nothing else. -/
def sampleStore : MemStore := { tks := [("ab", sampleToken)], clusters := [], keyrings := [] }

/-- The sample store after agent-1 has enrolled. -/
def enrolledStore : MemStore :=
  { tks := [("ab", sampleToken)],
    clusters := [("agent-1", { Id := "agent-1", Labels := [("env", "dev")] })],
    keyrings := [] }

/-- An auth request of agent-1 carrying the bearer that verifies. -/
def sampleAuthRequest : Request :=
  { Path := "/bootstrap/auth", Headers := [("Authorization", "Bearer good")], Body := "agent-1" }

/-- A join request without headers. -/
def sampleJoinRequest : Request := { Path := "/bootstrap/join", Headers := [], Body := "" }

/-- A join request carrying an Authorization header with an empty value. -/
def emptyAuthJoinRequest : Request :=
  { Path := "/bootstrap/join", Headers := [("Authorization", "")], Body := "" }

/-- A custom-resource store in the namespace opni whose backoff has five steps. -/
def sampleCRDStore : CRDStore := { Namespace := "opni", defaultBackoffSteps := 5 }

/-- An API server holding one token object created at time 0 with a time to live of one
second, and one created at time 0 with a time to live of one hour. -/
def sampleApiServer : ApiServer :=
  { BootstrapTokens :=
      [{ Name := "ab", Namespace := "opni", CreationTimestamp := 0, ResourceVersion := 1,
         Content := { sampleToken with Metadata := { sampleToken.Metadata with Ttl := 1 } } },
       { Name := "cd", Namespace := "opni", CreationTimestamp := 0, ResourceVersion := 1,
         Content := { sampleToken with
           TokenID := "cd", Metadata := { sampleToken.Metadata with Ttl := 3600 } } }],
    Keyrings := [] }

/-- An API server without objects. -/
def emptyApiServer : ApiServer := { BootstrapTokens := [], Keyrings := [] }

/-- A codec that writes each key as one tagged frame and reads the frames back. -/
def sampleCodec : KeyringCodec where
  Marshal := fun kr =>
    .ok (kr.Keys.flatMap fun k =>
      match k with
      | .SharedKeys ck sk => 1 :: Fin.ofNat ck.length :: (ck ++ sk)
      | .CACert d => 2 :: Fin.ofNat d.length :: d
      | .PKPKey d => 3 :: Fin.ofNat d.length :: d)
  Unmarshal := fun data =>
    match data with
    | [] => .ok { Keys := [] }
    | 2 :: _ :: d => .ok { Keys := [.CACert d] }
    | 3 :: _ :: d => .ok { Keys := [.PKPKey d] }
    | _ => .error (.other "keyring: cannot decode")

/-- A keyring holding one certificate. -/
def sampleKeyring : Keyring := { Keys := [.CACert [7, 7]] }

/-- A second keyring holding another certificate. -/
def otherKeyring : Keyring := { Keys := [.CACert [8]] }

/-- No injected failure. -/
def noFaults : Faults := {}

/-- The failure of the keyring put alone. -/
def putFails : Faults := { KeyringPut := some (.other "keyring store unavailable") }

/-- The failure of the token listing alone. -/
def listFails : Faults := { ListTokens := some (.other "token store unavailable") }

/-- An auth request without an Authorization header. -/
def anonymousAuthRequest : Request := { Path := "/bootstrap/auth", Headers := [], Body := "agent-1" }

/-- The run of the sample auth request on the sample store when the keyring put fails. -/
def putFailureRun : Run MemStore :=
  handleBootstrapAuth (testServer putFails sampleLibrary) sampleAuthRequest sampleStore

/-- A test store holding nothing. -/
def emptyStore : MemStore := { tks := [], clusters := [], keyrings := [] }

/-- A put through the store the test broker returns for a namespace and a reference. -/
def testBrokerPut (pfx ref : String) (kr : Keyring) (s : MemStore) : Option Err × MemStore :=
  match NewTestKeyringStoreBroker pfx ref s with
  | .error err => (some err, s)
  | .ok ks => ks.Put kr s

/-- A get through the store the test broker returns for a namespace and a reference. -/
def testBrokerGet (pfx ref : String) (s : MemStore) : Except Err Keyring :=
  match NewTestKeyringStoreBroker pfx ref s with
  | .error err => .error err
  | .ok ks => ks.Get s

/-- The run of the sample auth request on the sample store. -/
def sampleRun : Run MemStore :=
  handleBootstrapAuth (testServer noFaults sampleLibrary) sampleAuthRequest sampleStore

/-- The live token of the sample API server as read at time 2. -/
def liveTokenAt2 : BootstrapToken :=
  { sampleToken with TokenID := "cd", Metadata := { sampleToken.Metadata with Ttl := 3598 } }

/-! ## Concurrent writers to a token

`UpdateToken` retries when its write meets a conflict, which takes another client
writing the same object between the read and the write of an attempt. A schedule lists,
for the attempts in order, what the other clients do to the API server at that point. -/

/-- Another client writing the content `x` to the token under `ref`, which gives the
object a new resource version. -/
def concurrentUpdate (c : CRDStore) (ref : String) (x : BootstrapToken) (api : ApiServer) :
    ApiServer :=
  match clientGet api.BootstrapTokens c.Namespace ref with
  | .error _ => api
  | .ok cur =>
    { api with BootstrapTokens := (clientUpdate api.BootstrapTokens { cur with Content := x }).2 }

/-- The closure `UpdateToken` retries, with the head of the schedule acting between its
read and its write. -/
def updateTokenAttemptUnder (c : CRDStore) (ref : String)
    (mutator : BootstrapToken → BootstrapToken)
    (s : (ApiServer × Option BootstrapToken) × List (ApiServer → ApiServer)) :
    Option Err × ((ApiServer × Option BootstrapToken) × List (ApiServer → ApiServer)) :=
  match clientGet s.1.1.BootstrapTokens c.Namespace ref with
  | .error err => (some err, s)
  | .ok existing =>
    let clone := { existing with Content := mutator existing.Content }
    let api1 :=
      match s.2 with
      | [] => s.1.1
      | w :: _ => w s.1.1
    let r := clientUpdate api1.BootstrapTokens clone
    (r.1, (({ api1 with BootstrapTokens := r.2 }, some clone.Content), s.2.tail))

/-- The method `CRDStore.UpdateToken` run under a schedule of concurrent writers. -/
def CRDStore.UpdateTokenUnder (c : CRDStore) (schedule : List (ApiServer → ApiServer))
    (ref : String) (mutator : BootstrapToken → BootstrapToken) (api : ApiServer) :
    Except Err (Option BootstrapToken) × ApiServer :=
  match retryOnError IsConflict (updateTokenAttemptUnder c ref mutator) c.defaultBackoffSteps
    none ((api, none), schedule) with
  | (some err, s) =>
    if IsNotFound err then (.error .ErrNotFound, s.1.1) else (.error err, s.1.1)
  | (none, s) => (.ok s.1.2, s.1.1)

/-- The content a token has after the writes `xs` were made to it in order. -/
def lastWritten (x : BootstrapToken) (xs : List BootstrapToken) : BootstrapToken :=
  xs.foldl (fun _ y => y) x

/-! ## Token creation -/

/-- The conversion `int64(ttl.Seconds())` of a `time.Duration`, an `int64` count of
nanoseconds: its whole seconds, truncated toward zero. The rounding of the intermediate
`float64` is not modelled; it can differ only for durations of several months that lie
within a nanosecond of a full second. -/
def durationSeconds (ttl : Int) : Int := Int.tdiv ttl 1000000000

/-- The method `CRDStore.CreateToken` at time `now`, for the token drawn by
`tokens.NewToken` and the labels and capabilities of the create options. The labels
the source also copies to the object metadata are not part of the model of objects. -/
def CRDStore.CreateToken (c : CRDStore) (newToken : Token) (now : Int) (ttl : Int)
    (labels : Labels) (capabilities : List String) (api : ApiServer) :
    Except Err BootstrapToken × ApiServer :=
  let token : BootstrapToken :=
    { newToken.ToBootstrapToken with
      Metadata :=
        { LeaseID := -1
          Ttl := durationSeconds ttl
          UsageCount := 0
          Labels := labels
          Capabilities := capabilities } }
  let r := clientCreate api.BootstrapTokens now
    { Name := token.TokenID, Namespace := c.Namespace, CreationTimestamp := 0,
      ResourceVersion := 0, Content := token }
  match r.1 with
  | some err => (.error err, { api with BootstrapTokens := r.2 })
  | none => (.ok token, { api with BootstrapTokens := r.2 })

/-- The `CreateToken` expectation of `NewTestTokenStore`, for the token drawn by
`tokens.NewToken` and the id of the lease the lease store hands out. -/
def testCreateToken (newToken : Token) (leaseID : Int) (ttl : Int) (labels : Labels)
    (capabilities : List String) (s : MemStore) : Except Err BootstrapToken × MemStore :=
  let t : BootstrapToken :=
    { newToken.ToBootstrapToken with
      Metadata :=
        { LeaseID := leaseID
          Ttl := ttl
          UsageCount := 0
          Labels := labels
          Capabilities := capabilities } }
  (.ok t, { s with tks := mapSet s.tks t.TokenID t })

/-- One minute as a `time.Duration`. -/
def oneMinute : Int := 60000000000

/-- A token as `tokens.NewToken` may draw it. -/
def drawnToken : Token := { ID := [0xab], Secret := [0x01] }

/-! ## Agent bootstrap (`pkg/agent/agent.go`) -/

/-- The bootstrapper of the agent: what its two methods return when called. -/
structure Bootstrapper where
  Bootstrap : Except Err Keyring
  Finalize : Option Err

/-- A call `Agent.bootstrap` makes on the keyring store or the bootstrapper. -/
inductive AgentCall where
  | Get
  | Bootstrap
  | Put (keyring : Keyring)
  | Finalize
  deriving DecidableEq, Repr

/-- A call and whether it returned without error. -/
structure AgentEvent where
  call : AgentCall
  ok : Bool
  deriving DecidableEq, Repr

/-- The outcome of `Agent.bootstrap`: what it returns, the state of the keyring store
it leaves and the calls it made, in program order. -/
structure AgentRun (σ : Type) where
  result : Except Err Keyring
  state : σ
  trace : List AgentEvent

/-- The method `Agent.loadKeyring`. -/
def loadKeyring {σ : Type} (keyringStore : KeyringStore σ) (s : σ) :
    Except Err Keyring × List AgentEvent :=
  match keyringStore.Get s with
  | .error err => (.error (.wrapped "error loading keyring" err), [⟨.Get, false⟩])
  | .ok kr => (.ok kr, [⟨.Get, true⟩])

/-- The loop of `Agent.bootstrap` that puts the new keyring until a put succeeds, run
for at most `fuel` puts: the state and the puts made, or none when every one of the
`fuel` puts failed and the loop is still running. -/
def persistKeyring {σ : Type} (keyringStore : KeyringStore σ) (newKeyring : Keyring) :
    Nat → σ → Option (σ × List AgentEvent)
  | 0, _ => none
  | fuel + 1, s =>
    match keyringStore.Put newKeyring s with
    | (some _, s1) =>
      match persistKeyring keyringStore newKeyring fuel s1 with
      | none => none
      | some (s2, tr) => some (s2, ⟨.Put newKeyring, false⟩ :: tr)
    | (none, s1) => some (s1, [⟨.Put newKeyring, true⟩])

/-- The end of `Agent.bootstrap`: the finalization step, whose error is logged, and the
load of the keyring. -/
def finishBootstrap {σ : Type} (keyringStore : KeyringStore σ) (bootstrapper : Bootstrapper)
    (s : σ) (tr : List AgentEvent) : AgentRun σ :=
  let r := loadKeyring keyringStore s
  ⟨r.1, s, tr ++ [⟨.Finalize, bootstrapper.Finalize.isNone⟩] ++ r.2⟩

/-- The method `Agent.bootstrap`, its put loop run for at most `fuel` puts: none when
the loop is still running after them. -/
def Agent.bootstrap {σ : Type} (keyringStore : KeyringStore σ) (bootstrapper : Bootstrapper)
    (fuel : Nat) (s : σ) : Option (AgentRun σ) :=
  match keyringStore.Get s with
  | .error err =>
    if errorsIs err .ErrNotFound then
      match bootstrapper.Bootstrap with
      | .error err1 =>
        some ⟨.error (.wrapped "bootstrap failed" err1), s,
          [⟨.Get, false⟩, ⟨.Bootstrap, false⟩]⟩
      | .ok newKeyring =>
        match persistKeyring keyringStore newKeyring fuel s with
        | none => none
        | some (s1, tr) =>
          some (finishBootstrap keyringStore bootstrapper s1
            ([⟨.Get, false⟩, ⟨.Bootstrap, true⟩] ++ tr))
    else
      some ⟨.error (.wrapped "error loading keyring" err), s, [⟨.Get, false⟩]⟩
  | .ok _ => some (finishBootstrap keyringStore bootstrapper s [⟨.Get, true⟩])

/-- The state after `n` puts of a keyring that all fail; none when one of them
succeeds. -/
def afterFailedPuts {σ : Type} (keyringStore : KeyringStore σ) (keyring : Keyring) :
    Nat → σ → Option σ
  | 0, s => some s
  | n + 1, s =>
    match keyringStore.Put keyring s with
    | (some _, s1) => afterFailedPuts keyringStore keyring n s1
    | (none, _) => none

/-- The number of calls of one kind in a trace. -/
def countCalls (call : AgentCall) (tr : List AgentEvent) : Nat :=
  (tr.filter fun e => e.call = call).length

/-- A keyring store whose puts fail while its counter is positive: the state is the
counter and the keyring held. -/
def flakyKeyringStore : KeyringStore (Nat × Option Keyring) where
  Put := fun kr s =>
    if s.1 = 0 then (none, (0, some kr))
    else (some (.other "keyring store unavailable"), (s.1 - 1, s.2))
  Get := fun s =>
    match s.2 with
    | none => .error .ErrNotFound
    | some kr => .ok kr

/-- A keyring store that cannot be read. -/
def brokenKeyringStore : KeyringStore Unit where
  Put := fun _ s => (some (.other "keyring store unavailable"), s)
  Get := fun _ => .error (.other "keyring store unavailable")

/-- A bootstrapper that returns the sample keyring and finalizes without error. -/
def sampleBootstrapper : Bootstrapper := { Bootstrap := .ok sampleKeyring, Finalize := none }

/-- A bootstrapper whose bootstrap fails. -/
def failingBootstrapper : Bootstrapper :=
  { Bootstrap := .error (.other "server does not recognize this token"), Finalize := none }

/-! ## Logging bootstrap (`pkg/bootstrap/server.go`) -/

/-- The type `core.LoggingCluster`; the labels are a Go map, none being the nil map. -/
structure LoggingCluster where
  Id : String
  Name : String
  OpensearchUserID : String
  Labels : Option Labels
  deriving DecidableEq, Repr

structure OpensearchUser where
  Id : String
  Secret : String
  deriving DecidableEq, Repr

structure BootstrapLoggingRequest where
  ClientID : String
  ClientName : String
  deriving DecidableEq, Repr

/-- What a call that can end in a runtime panic does: it returns or it panics. -/
inductive Outcome (α : Type) where
  | returned (a : α)
  | panicked (msg : String)

/-- The interface `storage.OpensearchUserStore`, declared outside the listed sources,
with the method the server calls. -/
structure OpensearchUserStore (σ : Type) where
  Put : OpensearchUser → σ → Option Err × σ

/-- The interface `storage.LoggingClusterStore`, declared outside the listed sources,
with the methods the server calls. -/
structure LoggingClusterStore (σ : Type) where
  GetCluster : String → σ → Except Err LoggingCluster
  OpensearchUserStore : σ → Except Err (OpensearchUserStore σ)
  CreateCluster : LoggingCluster → σ → Outcome (Option Err × σ)

/-- The server configuration as the logging handler uses it: in the source the logging
cluster store is a field of `ServerConfig`. The body parser is `c.BodyParser` into a
`BootstrapLoggingRequest`. -/
structure LoggingServerConfig (σ : Type) extends ServerConfig σ where
  LoggingClusterStore : LoggingClusterStore σ
  LoggingBodyParser : String → Except Err BootstrapLoggingRequest

/-- The reads of `rand.Reader` still to come, in order: the number a read yields, or
none for a read that fails. -/
abbrev RandReader := List (Option Nat)

/-- The call `rand.Int(rand.Reader, max)`: a number below `max`, or an error. -/
def randInt (max : Nat) : RandReader → Except Err Nat × RandReader
  | [] => (.error (.other "rand: no more reads"), [])
  | none :: rest => (.error (.other "rand: read failed"), rest)
  | some raw :: rest => (.ok (raw % max), rest)

/-- The constant `letters` of `generateRandomString`. -/
def letters : String := "0123456789BCDFGHJKLMNPQRSTVWXZbcdfghjklmnpqrstvwxz"

/-- The loop of `generateRandomString` for `n` more characters: the characters, an
error of the random source, or a panic when the index is out of range. -/
def generateRandomChars : Nat → RandReader → Outcome (Except Err (List Char)) × RandReader
  | 0, r => (.returned (.ok []), r)
  | n + 1, r =>
    match randInt letters.length r with
    | (.error err, r1) => (.returned (.error err), r1)
    | (.ok num, r1) =>
      match letters.data[num]? with
      | none => (.panicked "index out of range", r1)
      | some ch =>
        match generateRandomChars n r1 with
        | (.returned (.ok chars), r2) => (.returned (.ok (ch :: chars)), r2)
        | other => other

/-- The function `generateRandomString`. -/
def generateRandomString (n : Nat) (r : RandReader) : Outcome (Except Err String) × RandReader :=
  match generateRandomChars n r with
  | (.returned (.ok chars), r1) => (.returned (.ok (String.mk chars)), r1)
  | (.returned (.error err), r1) => (.returned (.error err), r1)
  | (.panicked msg, r1) => (.panicked msg, r1)

/-- A call the logging handler makes on one of its stores. -/
inductive LoggingCall where
  | GetToken (ref : String)
  | GetCluster (ref : String)
  | OpensearchUserStore
  | Put (user : OpensearchUser)
  | CreateCluster (cluster : LoggingCluster)
  deriving DecidableEq, Repr

/-- The outcome of running the logging handler: the response, the store state it leaves
and the calls it made with whether each returned without error, in program order. -/
structure LoggingRun (σ : Type) where
  result : Result
  state : σ
  trace : List (LoggingCall × Bool)

/-- The method `ServerConfig.handleBootstrapLogging`, reading its random numbers from
`rnd`. -/
def handleBootstrapLogging {σ : Type} (h : LoggingServerConfig σ) (rnd : RandReader)
    (c : Request) (s : σ) : LoggingRun σ :=
  let authHeader := TrimSpace (c.Get "Authorization")
  if TrimSpace authHeader = "" then
    ⟨SendStatus StatusUnauthorized, s, []⟩
  else
    let bearerToken := TrimSpace (TrimPrefix authHeader "Bearer")
    match h.jwsVerify bearerToken with
    | .error _ => ⟨SendStatus StatusUnauthorized, s, []⟩
    | .ok payload =>
    match h.ParseJSON payload with
    | .error _ => ⟨.panicked "bug: jws.Verify returned a malformed token", s, []⟩
    | .ok token =>
    match h.TokenStore.GetToken token.Reference s with
    | .error err =>
      if errorsIs err .ErrNotFound then
        ⟨SendStatus StatusUnauthorized, s, [(.GetToken token.Reference, false)]⟩
      else
        ⟨SendStatus StatusInternalServerError, s, [(.GetToken token.Reference, false)]⟩
    | .ok _ =>
    match h.LoggingBodyParser c.Body with
    | .error _ =>
      ⟨.response StatusBadRequest (.text "Invalid request body"), s,
        [(.GetToken token.Reference, true)]⟩
    | .ok clientReq =>
    match h.LoggingClusterStore.GetCluster clientReq.ClientID s with
    | .ok _ =>
      ⟨.response StatusConflict (.text "ID already in use"), s,
        [(.GetToken token.Reference, true), (.GetCluster clientReq.ClientID, true)]⟩
    | .error err =>
    let tr0 : List (LoggingCall × Bool) :=
      [(.GetToken token.Reference, true), (.GetCluster clientReq.ClientID, false)]
    if !errorsIs err .ErrNotFound then
      ⟨SendStatus StatusInternalServerError, s, tr0⟩
    else
      match generateRandomString 6 rnd with
      | (.panicked msg, _) => ⟨.panicked msg, s, tr0⟩
      | (.returned (.error _), _) => ⟨SendStatus StatusInternalServerError, s, tr0⟩
      | (.returned (.ok userSuffix), rnd1) =>
      let user := "index-" ++ userSuffix
      match generateRandomString 20 rnd1 with
      | (.panicked msg, _) => ⟨.panicked msg, s, tr0⟩
      | (.returned (.error _), _) => ⟨SendStatus StatusInternalServerError, s, tr0⟩
      | (.returned (.ok password), _) =>
      match h.LoggingClusterStore.OpensearchUserStore s with
      | .error _ =>
        ⟨SendStatus StatusInternalServerError, s, tr0 ++ [(.OpensearchUserStore, false)]⟩
      | .ok osUserStore =>
      let osUser : OpensearchUser := { Id := user, Secret := password }
      match osUserStore.Put osUser s with
      | (some _, s1) =>
        ⟨SendStatus StatusInternalServerError, s1,
          tr0 ++ [(.OpensearchUserStore, true), (.Put osUser, false)]⟩
      | (none, s1) =>
      let cluster : LoggingCluster :=
        { Id := clientReq.ClientID, Name := clientReq.ClientName, OpensearchUserID := user,
          Labels := none }
      match h.LoggingClusterStore.CreateCluster cluster s1 with
      | .panicked msg =>
        ⟨.panicked msg, s1, tr0 ++ [(.OpensearchUserStore, true), (.Put osUser, true)]⟩
      | .returned (some _, s2) =>
        ⟨SendStatus StatusInternalServerError, s2,
          tr0 ++ [(.OpensearchUserStore, true), (.Put osUser, true),
            (.CreateCluster cluster, false)]⟩
      | .returned (none, s2) =>
        ⟨.response StatusOK (.loggingResponse user password), s2,
          tr0 ++ [(.OpensearchUserStore, true), (.Put osUser, true),
            (.CreateCluster cluster, true)]⟩

/-! ## Kubernetes logging-cluster store (`pkg/storage/kubernetes`) -/

/-- The spec of an `opniv2beta1.LoggingCluster`: the reference to the OpenSearch
cluster (name and namespace), the name of the index user secret when the reference is
set, and the friendly name. -/
structure LoggingClusterSpec where
  OpensearchClusterRef : Option (String × String)
  IndexUserSecret : Option String
  FriendlyName : String
  deriving DecidableEq, Repr

/-- The labels and the spec of an `opniv2beta1.LoggingCluster` object. -/
structure LoggingClusterData where
  Labels : Labels
  Spec : LoggingClusterSpec
  deriving DecidableEq, Repr

/-- The objects of the API server the Kubernetes store works on: logging clusters, and
secrets with their data. -/
structure KubeApi where
  LoggingClusters : List (Object LoggingClusterData)
  Secrets : List (Object (List (String × String)))
  deriving DecidableEq, Repr

/-- The type `KubernetesStore`: its system namespace, and the label key
`resources.OpniClusterID`, a constant declared outside the listed sources. -/
structure KubernetesStore where
  systemNamespace : String
  OpniClusterID : String
  deriving DecidableEq, Repr

/-- The constant `opensearchClusterName`. -/
def opensearchClusterName : String := "opni-logging"

/-- The function `stripIDLabel`. -/
def stripIDLabel (k : KubernetesStore) (labels : Labels) : Labels :=
  labels.filter fun kv => kv.1 ≠ k.OpniClusterID

/-- The function `derefLocalObjectName`. -/
def derefLocalObjectName (objectRef : Option String) (defaultName : String) : String :=
  match objectRef with
  | none => defaultName
  | some name => name

/-- The method `KubernetesStore.CreateCluster` at time `now`; `suffix` is what the API
server appends to the generated name. Writing the id label to a nil labels map is a
runtime panic. -/
def KubernetesStore.CreateCluster (k : KubernetesStore) (now : Int) (suffix : String)
    (cluster : LoggingCluster) (api : KubeApi) : Outcome (Option Err × KubeApi) :=
  match cluster.Labels with
  | none => .panicked "assignment to entry in nil map"
  | some labels =>
    let labels := mapSet labels k.OpniClusterID cluster.Id
    let loggingCluster : Object LoggingClusterData :=
      { Name := "downstream-" ++ suffix
        Namespace := k.systemNamespace
        CreationTimestamp := 0
        ResourceVersion := 0
        Content :=
          { Labels := labels
            Spec :=
              { OpensearchClusterRef := some (opensearchClusterName, k.systemNamespace)
                IndexUserSecret := some cluster.OpensearchUserID
                FriendlyName := cluster.Name } } }
    let r := clientCreate api.LoggingClusters now loggingCluster
    match r.1 with
    | some err => .returned (some (.wrapped "failed to create cluster" err), api)
    | none => .returned (none, { api with LoggingClusters := r.2 })

/-- The call `client.List` in a namespace with `client.MatchingLabels` of one pair. -/
def listMatchingLabel (objs : List (Object LoggingClusterData)) (ns key value : String) :
    List (Object LoggingClusterData) :=
  (clientList objs ns).filter fun o => mapGet o.Content.Labels key = some value

/-- The error `fmt.Errorf` builds when a lookup does not fetch exactly one cluster. -/
def errFetched (n : Nat) : Err := .other ("fetched " ++ toString n ++ " clusters, expected 1")

/-- The method `KubernetesStore.GetCluster`. -/
def KubernetesStore.GetCluster (k : KubernetesStore) (ref : String) (api : KubeApi) :
    Except Err LoggingCluster :=
  let items := listMatchingLabel api.LoggingClusters k.systemNamespace k.OpniClusterID ref
  match items with
  | [cluster] =>
    .ok { Id := ref
          Name := cluster.Name
          OpensearchUserID := derefLocalObjectName cluster.Content.Spec.IndexUserSecret ""
          Labels := some (stripIDLabel k cluster.Content.Labels) }
  | _ => .error (errFetched items.length)

/-- The types `core.LabelSelectorRequirement` and `core.LabelSelector`. -/
structure LabelSelectorRequirement where
  Key : String
  Operator : String
  Values : List String
  deriving DecidableEq, Repr

structure LabelSelector where
  MatchLabels : Labels
  MatchExpressions : List LabelSelectorRequirement
  deriving DecidableEq, Repr

/-- The call `labels.NewRequirement` of the Kubernetes library, a parameter of the
model: for a key, an operator and values, the test the requirement makes on a label
set, or an error. -/
abbrev NewRequirement := String → String → List String → Except Err (Labels → Bool)

/-- The method `Selector.Add` of the Kubernetes library: it returns a new selector with
the requirement added and leaves the selector it is called on as it was. -/
def selectorAdd (k8sSelector : List (Labels → Bool)) (req : Labels → Bool) :
    List (Labels → Bool) :=
  k8sSelector ++ [req]

/-- The loop of `ListClusters` over the match expressions. The source calls
`k8sSelector.Add` and drops what it returns, so the selector stays as it was. -/
def convertSelector (newRequirement : NewRequirement) :
    List LabelSelectorRequirement → List (Labels → Bool) → Except Err (List (Labels → Bool))
  | [], k8sSelector => .ok k8sSelector
  | selector :: rest, k8sSelector =>
    match newRequirement selector.Key selector.Operator selector.Values with
    | .error err => .error (.wrapped "error converting selector" err)
    | .ok req =>
      let _dropped := selectorAdd k8sSelector req
      convertSelector newRequirement rest k8sSelector

/-- The method `KubernetesStore.ListClusters`; none is the nil selector. The match
options are an enumeration the method does not read. -/
def KubernetesStore.ListClusters (k : KubernetesStore) (newRequirement : NewRequirement)
    (matchLabels : Option LabelSelector) (_matchOptions : Nat) (api : KubeApi) :
    Except Err (List LoggingCluster) :=
  let converted : Except Err (List (Labels → Bool)) :=
    match matchLabels with
    | none => .ok []
    | some sel => convertSelector newRequirement sel.MatchExpressions []
  match converted with
  | .error err => .error err
  | .ok k8sSelector =>
    let items := (clientList api.LoggingClusters k.systemNamespace).filter fun o =>
      k8sSelector.all fun req => req o.Content.Labels
    .ok (items.map fun loggingCluster =>
      { Id := (mapGet loggingCluster.Content.Labels k.OpniClusterID).getD ""
        Name := loggingCluster.Content.Spec.FriendlyName
        OpensearchUserID :=
          derefLocalObjectName loggingCluster.Content.Spec.IndexUserSecret ""
        Labels := some (stripIDLabel k loggingCluster.Content.Labels) })

/-- The method `opensearchUserStore.Put` at time `now`. -/
def opensearchUserStorePut (ns : String) (now : Int) (user : OpensearchUser) (api : KubeApi) :
    Option Err × KubeApi :=
  let indexUserSecret : Object (List (String × String)) :=
    { Name := user.Id, Namespace := ns, CreationTimestamp := 0, ResourceVersion := 0,
      Content := [("password", user.Secret)] }
  let r := clientCreate api.Secrets now indexUserSecret
  match r.1 with
  | none => (none, { api with Secrets := r.2 })
  | some (.k8sAlreadyExists _) =>
    match clientGet api.Secrets ns user.Id with
    | .error err => (some err, api)
    | .ok stored =>
      let r1 := clientUpdate api.Secrets
        { stored with Content := mapSet stored.Content "password" user.Secret }
      (r1.1, { api with Secrets := r1.2 })
  | some err => (some err, api)

/-- The method `KubernetesStore.OpensearchUserStore`. -/
def KubernetesStore.OpensearchUserStore (k : KubernetesStore) (now : Int) :
    OpensearchUserStore KubeApi where
  Put := opensearchUserStorePut k.systemNamespace now

/-- The Kubernetes store as a logging-cluster store, at time `now` and with the suffix
the API server gives the next generated name. -/
def KubernetesStore.LoggingClusterStore (k : KubernetesStore) (now : Int) (suffix : String) :
    LoggingClusterStore KubeApi where
  GetCluster := k.GetCluster
  OpensearchUserStore := fun _ => .ok (k.OpensearchUserStore now)
  CreateCluster := k.CreateCluster now suffix

/-! ## Servers with a logging-cluster store -/

/-- A cluster store acting on the first component of a pair of states. -/
def ClusterStore.onFst {σ τ : Type} (cs : ClusterStore σ) : ClusterStore (σ × τ) where
  GetCluster := fun ref s => cs.GetCluster ref s.1
  CreateCluster := fun c s =>
    let r := cs.CreateCluster c s.1
    (r.1, (r.2, s.2))
  KeyringStore := fun ref s =>
    match cs.KeyringStore ref s.1 with
    | .error err => .error err
    | .ok ks =>
      .ok { Put := fun kr s1 =>
              let r := ks.Put kr s1.1
              (r.1, (r.2, s1.2))
            Get := fun s1 => ks.Get s1.1 }

/-- A logging-cluster store acting on the second component of a pair of states. -/
def LoggingClusterStore.onSnd {σ τ : Type} (ls : LoggingClusterStore τ) :
    LoggingClusterStore (σ × τ) where
  GetCluster := fun ref s => ls.GetCluster ref s.2
  OpensearchUserStore := fun s =>
    match ls.OpensearchUserStore s.2 with
    | .error err => .error err
    | .ok us =>
      .ok { Put := fun user s1 =>
              let r := us.Put user s1.2
              (r.1, (s1.1, r.2)) }
  CreateCluster := fun c s =>
    match ls.CreateCluster c s.2 with
    | .panicked msg => .panicked msg
    | .returned r => .returned (r.1, (s.1, r.2))

/-- A server over the test token and cluster stores and a given logging-cluster
store. -/
def loggingServer {τ : Type} (l : Library)
    (bodyParser : String → Except Err BootstrapLoggingRequest) (ls : LoggingClusterStore τ) :
    LoggingServerConfig (MemStore × τ) :=
  { l with
    TokenStore := NewTestTokenStore.onFst
    ClusterStore := NewTestClusterStore.onFst
    LoggingClusterStore := ls.onSnd
    LoggingBodyParser := bodyParser }

/-- A logging-cluster store that keeps its clusters and users in maps and answers
`storage.ErrNotFound` for an id it does not hold. -/
structure MemLogging where
  clusters : List (String × LoggingCluster)
  users : List (String × String)
  deriving DecidableEq, Repr

def memLoggingStore : LoggingClusterStore MemLogging where
  GetCluster := fun ref s =>
    match mapGet s.clusters ref with
    | none => .error .ErrNotFound
    | some c => .ok c
  OpensearchUserStore := fun _ =>
    .ok { Put := fun user s => (none, { s with users := mapSet s.users user.Id user.Secret }) }
  CreateCluster := fun c s => .returned (none, { s with clusters := mapSet s.clusters c.Id c })

/-! ## Sample inputs for the logging endpoint -/

/-- A body parser that reads the body as the client id. -/
def sampleLoggingBodyParser (body : String) : Except Err BootstrapLoggingRequest :=
  if body = "" then .error (.other "empty body")
  else .ok { ClientID := body, ClientName := "downstream" }

/-- A logging request of agent-1 carrying the bearer that verifies. -/
def sampleLoggingRequest : Request :=
  { Path := "/bootstrap/logging", Headers := [("Authorization", "Bearer good")],
    Body := "agent-1" }

/-- Twenty-six reads of the random source yielding 0, 1, 2 and so on. -/
def sampleRandReader : RandReader := (List.range 26).map some

/-- A Kubernetes store in the namespace opni. -/
def sampleKubernetesStore : KubernetesStore :=
  { systemNamespace := "opni", OpniClusterID := "opni.io/cluster-id" }

/-- An API server without logging clusters or secrets. -/
def emptyKubeApi : KubeApi := { LoggingClusters := [], Secrets := [] }

/-- A logging cluster with id agent-1 and one label. -/
def sampleLoggingCluster : LoggingCluster :=
  { Id := "agent-1", Name := "first", OpensearchUserID := "index-000000",
    Labels := some [("env", "dev")] }

/-- A logging cluster with the same id, another name and other labels. -/
def secondLoggingCluster : LoggingCluster :=
  { Id := "agent-1", Name := "second", OpensearchUserID := "index-111111",
    Labels := some [("env", "prod")] }

/-- The API server after the sample logging cluster was created. -/
def oneClusterKubeApi : KubeApi :=
  { LoggingClusters :=
      [{ Name := "downstream-aaaaa", Namespace := "opni", CreationTimestamp := 0,
         ResourceVersion := 1,
         Content :=
           { Labels := [("env", "dev"), ("opni.io/cluster-id", "agent-1")]
             Spec := { OpensearchClusterRef := some ("opni-logging", "opni")
                       IndexUserSecret := some "index-000000"
                       FriendlyName := "first" } } }],
    Secrets := [] }

/-- The requirements of the Kubernetes library for its set and existence operators,
without its checks of the syntax of keys and values. -/
def sampleNewRequirement : NewRequirement := fun key op vals =>
  if op = "in" then
    if vals = [] then .error (.other "for 'in', 'notin' operators, values set can't be empty")
    else .ok fun labels =>
      match mapGet labels key with
      | none => false
      | some v => decide (v ∈ vals)
  else if op = "notin" then
    if vals = [] then .error (.other "for 'in', 'notin' operators, values set can't be empty")
    else .ok fun labels =>
      match mapGet labels key with
      | none => true
      | some v => decide (v ∉ vals)
  else if op = "exists" then
    if vals = [] then .ok fun labels => (mapGet labels key).isSome
    else .error (.other "values set must be empty for exists and does not exist")
  else if op = "!" then
    if vals = [] then .ok fun labels => (mapGet labels key).isNone
    else .error (.other "values set must be empty for exists and does not exist")
  else .error (.other "operator is not recognized")

/-- A selector asking for the label env to be prod through its match labels. -/
def prodMatchLabels : LabelSelector := { MatchLabels := [("env", "prod")], MatchExpressions := [] }

/-- A selector asking for the label env to be prod through a match expression. -/
def prodMatchExpression : LabelSelector :=
  { MatchLabels := [], MatchExpressions := [{ Key := "env", Operator := "in", Values := ["prod"] }] }

/-- A cluster of the test cluster store with id agent-1. -/
def firstCluster : Cluster := { Id := "agent-1", Labels := [("env", "dev")] }

/-- A cluster with the same id and other labels. -/
def secondCluster : Cluster := { Id := "agent-1", Labels := [("env", "prod")] }

/-- What a create that returned gave back; for a create that panicked, an error and the
API server as it was. -/
def createdApi (api : KubeApi) : Outcome (Option Err × KubeApi) → Option Err × KubeApi
  | .returned r => r
  | .panicked msg => (some (.other msg), api)

/-! ## Rule sender (`pkg/agent/rules.go`)

The sender goroutine of `streamRulesToGateway` and the channel `pending` of capacity
one that feeds it, as a machine driven by what happens around it: the main loop's send
on `pending` completing, the POST in flight being answered, the retry timer firing and
the context being cancelled. -/

/-- A snapshot of the rule groups: its YAML documents. -/
abbrev Snapshot := List Bytes

inductive SenderEvent where
  /-- The send `pending <- yamlDocs` of the main loop completes. -/
  | send (docs : Snapshot)
  /-- The POST in flight returns without error and with status 202. -/
  | accepted
  /-- The POST in flight returns an error or another status. -/
  | rejected
  /-- The timer of five seconds fires. -/
  | timer
  /-- The context is cancelled. -/
  | done
  deriving DecidableEq, Repr

/-- Where the sender goroutine stands. -/
inductive SenderPhase where
  /-- In the outer select, waiting for a snapshot. -/
  | waiting
  /-- In the loop over the documents of `docs`, the POST of the head of `rest` in
  flight. -/
  | posting (docs : Snapshot) (rest : List Bytes)
  /-- In the select that follows a failed POST. -/
  | backoff (docs : Snapshot)
  /-- The goroutine has returned. -/
  | stopped
  deriving DecidableEq, Repr

/-- What the sender and the channel do, as it can be observed. -/
inductive SenderAction where
  /-- A snapshot was put on `pending`. -/
  | arrived (docs : Snapshot)
  /-- The sender received a snapshot from `pending`. -/
  | took (docs : Snapshot)
  /-- A document was posted, with whether the gateway accepted it. -/
  | posted (doc : Bytes) (ok : Bool)
  /-- The sender logged that the snapshot was sent successfully. -/
  | sent (docs : Snapshot)
  deriving DecidableEq, Repr

structure SenderState where
  phase : SenderPhase
  /-- The buffer of the channel `pending`. -/
  buffer : Option Snapshot
  log : List SenderAction
  deriving DecidableEq, Repr

/-- The sender at the label RETRY with the snapshot `docs` and nothing to receive after
it: a snapshot without documents is logged as sent at once. -/
def retryLast (docs : Snapshot) (log : List SenderAction) : SenderState :=
  if docs = [] then ⟨.waiting, none, log ++ [.sent docs]⟩
  else ⟨.posting docs docs, none, log⟩

/-- The sender in the outer select: it receives the buffered snapshot, if any. -/
def outerSelect (buffer : Option Snapshot) (log : List SenderAction) : SenderState :=
  match buffer with
  | none => ⟨.waiting, none, log⟩
  | some docs => retryLast docs (log ++ [.took docs])

/-- The sender at the label RETRY with the snapshot `docs`. -/
def retry (docs : Snapshot) (buffer : Option Snapshot) (log : List SenderAction) :
    SenderState :=
  if docs = [] then outerSelect buffer (log ++ [.sent docs])
  else ⟨.posting docs docs, buffer, log⟩

/-- One event of the sender goroutine and its channel. An event that cannot happen in
the state (a send while the buffer is full, an answer without a POST in flight, a timer
outside the backoff) leaves the state as it is. -/
def senderStep (st : SenderState) : SenderEvent → SenderState
  | .send docs =>
    match st.buffer with
    | some _ => st
    | none =>
      match st.phase with
      | .waiting => retry docs none (st.log ++ [.arrived docs, .took docs])
      | .backoff _ => retry docs none (st.log ++ [.arrived docs, .took docs])
      | .posting _ _ => { st with buffer := some docs, log := st.log ++ [.arrived docs] }
      | .stopped => st
  | .accepted =>
    match st.phase with
    | .posting docs (doc :: rest) =>
      if rest = [] then
        outerSelect st.buffer (st.log ++ [.posted doc true, .sent docs])
      else
        { st with phase := .posting docs rest, log := st.log ++ [.posted doc true] }
    | _ => st
  | .rejected =>
    match st.phase with
    | .posting docs (doc :: _) =>
      match st.buffer with
      | some newer => retry newer none (st.log ++ [.posted doc false, .took newer])
      | none => { st with phase := .backoff docs, log := st.log ++ [.posted doc false] }
    | _ => st
  | .timer =>
    match st.phase with
    | .backoff docs => retry docs st.buffer st.log
    | _ => st
  | .done =>
    match st.phase with
    | .stopped => st
    | _ => { st with phase := .stopped }

/-- The sender over a sequence of events. -/
def runSender (st : SenderState) (events : List SenderEvent) : SenderState :=
  events.foldl senderStep st

/-- The sender when `streamRulesToGateway` starts it. -/
def senderStart : SenderState := ⟨.waiting, none, []⟩

/-- The snapshots logged as sent, in order. -/
def sentSnapshots : List SenderAction → List Snapshot
  | [] => []
  | .sent docs :: rest => docs :: sentSnapshots rest
  | _ :: rest => sentSnapshots rest

/-- Whether every snapshot logged as sent is the one the sender received last, and was
received after the previous one was logged as sent; `current` is the snapshot received
last and not yet sent. -/
def sentAreLastTaken : Option Snapshot → List SenderAction → Bool
  | _, [] => true
  | _, .took docs :: rest => sentAreLastTaken (some docs) rest
  | current, .sent docs :: rest => decide (current = some docs) && sentAreLastTaken none rest
  | current, _ :: rest => sentAreLastTaken current rest

/-- The events of a snapshot preempting a failing upload: the POST in flight is
rejected and the snapshot is sent on `pending`. -/
def preemptions (newer : List Snapshot) : List SenderEvent :=
  newer.flatMap fun docs => [.rejected, .send docs]

/-- Three snapshots of one document each. -/
def snapshotA : Snapshot := [[1]]
def snapshotB : Snapshot := [[2]]
def snapshotC : Snapshot := [[3]]

/-- The upload of A fails, B arrives during the backoff and C while B is being posted;
then the gateway accepts every POST. -/
def twoArrivals : List SenderEvent :=
  [.send snapshotA, .rejected, .send snapshotB, .send snapshotC, .accepted, .accepted]

/-- The snapshot the sender received last and has not logged as sent, after the actions
of a log; `current` is that snapshot before them. -/
def lastTaken : Option Snapshot → List SenderAction → Option Snapshot
  | current, [] => current
  | _, .took docs :: rest => lastTaken (some docs) rest
  | _, .sent _ :: rest => lastTaken none rest
  | current, _ :: rest => lastTaken current rest

/-- The snapshot the sender is uploading in a phase. -/
def uploading : SenderPhase → Option Snapshot
  | .posting docs _ => some docs
  | .backoff docs => some docs
  | _ => none

/-- How a snapshot preempts a failing upload: after `failedRetries` rounds of a rejected
POST and the timer, it is sent on `pending` either while a POST that is then rejected
is in flight (`duringPost`) or during the backoff after a rejected POST. -/
structure Preemption where
  failedRetries : Nat
  duringPost : Bool
  docs : Snapshot
  deriving DecidableEq, Repr

def Preemption.events (p : Preemption) : List SenderEvent :=
  (List.replicate p.failedRetries [SenderEvent.rejected, SenderEvent.timer]).flatten ++
    (if p.duringPost then [.send p.docs, .rejected] else [.rejected, .send p.docs])

/-- The events of an upload of `first` that snapshots preempt one after the other,
until the gateway accepts every document of the last one. -/
def preemptedUpload (first : Snapshot) (newer : List Preemption) : List SenderEvent :=
  SenderEvent.send first :: newer.flatMap Preemption.events ++
    List.replicate ((newer.map Preemption.docs).getLastD first).length SenderEvent.accepted

/-- The upload of A fails, B arrives during the backoff and its upload fails once; C
arrives while the retry of B is in flight, and the gateway accepts from then on. -/
def arrivalDuringRetry : List SenderEvent :=
  [.send snapshotA, .rejected, .send snapshotB, .rejected, .timer, .send snapshotC,
    .accepted, .accepted]

/-- B arrives while the first POST of A is in flight and is rejected; C arrives after
two failed retries of B, during the backoff. -/
def samplePreemptions : List Preemption :=
  [⟨0, true, snapshotB⟩, ⟨2, false, snapshotC⟩]

/-- What holds of the sender between two events: every snapshot logged as sent was the
one received last, and the snapshot being uploaded is the one received last. -/
def SenderInv (st : SenderState) : Prop :=
  sentAreLastTaken none st.log = true ∧
    ∀ docs, uploading st.phase = some docs → lastTaken none st.log = some docs

/-! ## Subject access (`pkg/storage/stores.go`, `pkg/test/mock_helpers.go`) -/

/-- The type `core.Role`; none is the nil selector. -/
structure Role where
  Id : String
  ClusterIDs : List String
  MatchLabels : Option LabelSelector
  deriving DecidableEq, Repr

/-- The type `core.RoleBinding`. -/
structure RoleBinding where
  Id : String
  RoleId : String
  Subjects : List String
  Taints : List String
  deriving DecidableEq, Repr

/-- The interface `storage.SubjectAccessCapableStore`; the match options are an
enumeration, given by its number. -/
structure SubjectAccessCapableStore (σ : Type) where
  ListClusters : Option LabelSelector → Nat → σ → Except Err (List Cluster)
  GetRole : String → σ → Except Err Role
  ListRoleBindings : σ → Except Err (List RoleBinding)

/-- How a label selector is applied to the labels of a cluster, declared outside the
listed sources and a parameter of the model. -/
abbrev SelectorPredicate := Option LabelSelector → Labels → Bool

/-- Modelled from the spec: whether a role gives access to a cluster, which it does when
its match labels select the cluster or its cluster ids contain the id of the cluster. -/
def Role.grants (selects : SelectorPredicate) (role : Role) (c : Cluster) : Bool :=
  selects role.MatchLabels c.Labels || decide (c.Id ∈ role.ClusterIDs)

/-- Modelled from the spec: the clusters a role binding gives access to; the role is
loaded, and a binding whose role is missing gives access to nothing. -/
def RoleBinding.clusters {σ : Type} (selects : SelectorPredicate)
    (store : SubjectAccessCapableStore σ) (s : σ) (all : List Cluster) (rb : RoleBinding) :
    List Cluster :=
  match store.GetRole rb.RoleId s with
  | .error _ => []
  | .ok role => all.filter (role.grants selects)

/-- Modelled from the spec: the subject-access evaluator `SubjectAccess`, whose code is
outside the listed sources. It lists all role bindings; for each whose subjects contain
the subject it loads the role and includes every cluster the role's match labels select
or whose id the role's cluster ids contain; the output is deduplicated. -/
def SubjectAccess {σ : Type} (selects : SelectorPredicate)
    (store : SubjectAccessCapableStore σ) (subject : String) (s : σ) :
    Except Err (List Cluster) :=
  match store.ListRoleBindings s with
  | .error err => .error err
  | .ok rbs =>
    match store.ListClusters none 0 s with
    | .error err => .error err
    | .ok all =>
      .ok ((rbs.filter fun rb => decide (subject ∈ rb.Subjects)).flatMap
        (RoleBinding.clusters selects store s all)).dedup

/-- The maps `roles` and `rbs` of `NewTestRBACStore`. -/
structure MemRBAC where
  roles : List (String × Role)
  rbs : List (String × RoleBinding)
  deriving DecidableEq, Repr

/-- The `CreateRole` expectation of `NewTestRBACStore`. -/
def testCreateRole (role : Role) (s : MemRBAC) : Option Err × MemRBAC :=
  (none, { s with roles := mapSet s.roles role.Id role })

/-- The `GetRole` expectation of `NewTestRBACStore`. -/
def testGetRole (ref : String) (s : MemRBAC) : Except Err Role :=
  match mapGet s.roles ref with
  | none => .error .ErrNotFound
  | some role => .ok role

/-- The `CreateRoleBinding` expectation of `NewTestRBACStore`. -/
def testCreateRoleBinding (rb : RoleBinding) (s : MemRBAC) : Option Err × MemRBAC :=
  (none, { s with rbs := mapSet s.rbs rb.Id rb })

/-- Modelled from the spec: the function `storage.ApplyRoleBindingTaints`, declared
outside the listed sources; a taint is appended when the role the binding refers to no
longer exists. -/
def ApplyRoleBindingTaints (s : MemRBAC) (rb : RoleBinding) : RoleBinding :=
  match testGetRole rb.RoleId s with
  | .ok _ => rb
  | .error _ => { rb with Taints := rb.Taints ++ ["role not found"] }

/-- The `ListRoleBindings` expectation of `NewTestRBACStore`. -/
def testListRoleBindings (s : MemRBAC) : Except Err (List RoleBinding) :=
  .ok (s.rbs.map fun kv => ApplyRoleBindingTaints s kv.2)

/-- The `ListClusters` expectation of `NewTestClusterStore`; the predicate of
`storage.ClusterSelector` is declared outside the listed sources and a parameter. -/
def testListClusters (selectorPredicate : Option LabelSelector → Nat → Cluster → Bool)
    (matchLabels : Option LabelSelector) (matchOptions : Nat) (s : MemStore) :
    Except Err (List Cluster) :=
  .ok ((s.clusters.map Prod.snd).filter (selectorPredicate matchLabels matchOptions))

/-- The test cluster store and the test RBAC store as a store for subject access. -/
def testSubjectAccessStore (selectorPredicate : Option LabelSelector → Nat → Cluster → Bool) :
    SubjectAccessCapableStore (MemStore × MemRBAC) where
  ListClusters := fun matchLabels matchOptions s =>
    testListClusters selectorPredicate matchLabels matchOptions s.1
  GetRole := fun ref s => testGetRole ref s.2
  ListRoleBindings := fun s => testListRoleBindings s.2

/-- A selector predicate: the nil selector and the selector without match labels select
nothing, another selector selects the labels that hold each of its match labels. -/
def sampleSelects : SelectorPredicate := fun sel labels =>
  match sel with
  | none => false
  | some sel =>
    !sel.MatchLabels.isEmpty && sel.MatchLabels.all fun kv => mapGet labels kv.1 == some kv.2

/-- A predicate of the cluster selector under which the nil selector matches every
cluster. -/
def sampleSelectorPredicate : Option LabelSelector → Nat → Cluster → Bool :=
  fun sel _ c =>
    match sel with
    | none => true
    | some _ => sampleSelects sel c.Labels

/-- The role of the integration test: it lists test-cluster-id and has match labels. -/
def testRole : Role :=
  { Id := "test-role", ClusterIDs := ["test-cluster-id"],
    MatchLabels := some { MatchLabels := [("test-label", "test-value")], MatchExpressions := [] } }

/-- The role binding of the integration test. -/
def testRoleBinding : RoleBinding :=
  { Id := "test-rolebinding", RoleId := "test-role", Subjects := ["test-subject"], Taints := [] }

/-- The stores of the integration test after the agent test-cluster-id has registered
without labels and the role and the role binding were created. -/
def accessTestStore : MemStore × MemRBAC :=
  ((testCreateCluster { Id := "test-cluster-id", Labels := [] } emptyStore).2,
    (testCreateRoleBinding testRoleBinding (testCreateRole testRole ⟨[], []⟩).2).2)

/-! ## Metrics push relay (`pkg/agent/agent.go`) -/

/-- A request of the gateway client as `Post`, `Body` and `Set` build it; the client is
declared outside the listed sources. -/
structure GatewayRequest where
  Method : String
  Path : String
  Body : String
  Headers : List (String × String)
  deriving DecidableEq, Repr

/-- The call `gatewayClient.Post`. -/
def gatewayPost (path : String) : GatewayRequest :=
  { Method := "POST", Path := path, Body := "", Headers := [] }

/-- The builder method `Body`. -/
def GatewayRequest.setBody (r : GatewayRequest) (body : String) : GatewayRequest :=
  { r with Body := body }

/-- The builder method `Set`. -/
def GatewayRequest.Set (r : GatewayRequest) (key value : String) : GatewayRequest :=
  { r with Headers := mapSet r.Headers key value }

/-- The outcome of the push handler: the request it made to the gateway, and the error
it returns or the status and body it sends. -/
structure PushRun where
  sent : GatewayRequest
  result : Except Err (Nat × String)

/-- The method `Agent.handlePushRequest`; `gatewayDo` is the method `Do` of the gateway
client, which answers a request with a status and a body or with an error. -/
def handlePushRequest (gatewayDo : GatewayRequest → Except Err (Nat × String)) (c : Request) :
    PushRun :=
  let req := gatewayPost "/api/agent/push"
  let req := req.setBody c.Body
  let req := req.Set "Content-Type" (c.Get "Content-Type")
  let req := req.Set "Content-Length" (c.Get "Content-Length")
  let req := req.Set "Content-Encoding" (c.Get "Content-Encoding")
  let req := req.Set "X-Prometheus-Remote-Write-Version" (c.Get "X-Prometheus-Remote-Write-Version")
  match gatewayDo req with
  | .error err => ⟨req, .error err⟩
  | .ok (code, body) => ⟨req, .ok (code, body)⟩

/-- A remote-write request as Prometheus pushes it. -/
def samplePushRequest : Request :=
  { Path := "/api/agent/push",
    Headers := [("Content-Type", "application/x-protobuf"), ("Content-Length", "4"),
      ("Content-Encoding", "snappy"), ("X-Prometheus-Remote-Write-Version", "0.1.0")],
    Body := "data" }

/-- A gateway that answers every request 200 with the body ok. -/
def acceptingGateway (_ : GatewayRequest) : Except Err (Nat × String) := .ok (200, "ok")

/-- A token object created at second 100 with a time to live of an hour. -/
def hourTokenObject : Object BootstrapToken :=
  { Name := "cd", Namespace := "opni", CreationTimestamp := 100, ResourceVersion := 1,
    Content := { sampleToken with
      TokenID := "cd", Metadata := { sampleToken.Metadata with Ttl := 3600 } } }

/-- Where an upload stands when a log is read from its start: the batch the sender is
uploading, and the documents of it still to be posted in the pass under way. -/
structure PassState where
  current : Option Snapshot
  remaining : List Bytes
  deriving DecidableEq, Repr

/-- Reading one action of a log against the rule that uploads go by whole batches.
Receiving a batch starts a pass at its first document. A POST must be of the next
document of the pass; an accepted one moves the pass on, a failed one starts the pass
again at the first document of the current batch. A batch is reported as sent only
when it is the current one and no document of the pass remains. The result is none
when the action breaks the rule. -/
def wholeBatchStep (p : PassState) : SenderAction → Option PassState
  | .arrived _ => some p
  | .took docs => some ⟨some docs, docs⟩
  | .posted doc true =>
    match p.remaining with
    | next :: rest => if next = doc then some { p with remaining := rest } else none
    | [] => none
  | .posted doc false =>
    match p.current, p.remaining with
    | some docs, next :: _ => if next = doc then some ⟨some docs, docs⟩ else none
    | _, _ => none
  | .sent docs =>
    if p.current = some docs ∧ p.remaining = [] then some ⟨none, []⟩ else none

/-- Reading a log against the rule of whole batches. -/
def wholeBatches : PassState → List SenderAction → Option PassState
  | p, [] => some p
  | p, a :: rest =>
    match wholeBatchStep p a with
    | none => none
    | some q => wholeBatches q rest

/-- The pass a phase of the sender stands for; a stopped sender stands for none. -/
def passOf : SenderPhase → Option PassState
  | .waiting => some ⟨none, []⟩
  | .posting docs rest => some ⟨some docs, rest⟩
  | .backoff docs => some ⟨some docs, docs⟩
  | .stopped => none

/-- What holds of the sender between two events: its log follows the rule of whole
batches, and read from the start it ends in the pass the phase stands for. -/
def PassInv (st : SenderState) : Prop :=
  ∃ p, wholeBatches ⟨none, []⟩ st.log = some p ∧ ∀ q, passOf st.phase = some q → p = q

/-- A batch of two documents. -/
def snapshotAB : Snapshot := [[1], [2]]

/-- The second document of a batch of two is rejected; after the backoff the gateway
accepts both. -/
def retriedBatch : List SenderEvent :=
  [.send snapshotAB, .accepted, .rejected, .timer, .accepted, .accepted]

/-! ## Wait contexts (`pkg/util/waitctx/context.go`)

A wait-context carries a `sync.WaitGroup`. The model follows the goroutine that calls
`AddOne`, `Done`, `Go` and `Wait`, and keeps the goroutines these start as part of the
state; each of them takes its steps separately. -/

/-- What a call does in the goroutine that makes it: it returns, it panics, or it
blocks. -/
inductive Progress (α : Type) where
  | returned (a : α)
  | panicked (msg : String)
  | blocked
  deriving DecidableEq, Repr

/-- A context and the goroutines around it: the counter of the wait group the context
carries under `waitCtxDataKey` (none when the context is not a wait-context), the number
of functions started with `Go` that still run, whether the goroutine that waits for
the group is started and whether it has closed `done`, the period of the goroutine that
warns when one is started, and the warnings printed. -/
structure WaitWorld where
  data : Option Int
  running : Nat
  waiterStarted : Bool
  doneClosed : Bool
  notifier : Option Nat
  warnings : Nat
  deriving DecidableEq, Repr

/-- The function `Background`: a wait-context with a fresh wait group. -/
def waitctxBackground : WaitWorld :=
  { data := some 0, running := 0, waiterStarted := false, doneClosed := false,
    notifier := none, warnings := 0 }

/-- The method `sync.WaitGroup.Add`; a negative counter is a panic. -/
def wgAdd (delta : Int) (counter : Int) : Progress Int :=
  if counter + delta < 0 then .panicked "sync: negative WaitGroup counter"
  else .returned (counter + delta)

/-- The method `sync.WaitGroup.Wait`: it blocks until the counter is zero. -/
def wgWait (counter : Int) : Progress Unit :=
  if counter = 0 then .returned () else .blocked

/-- The method `restrictive.AddOne`. -/
def restrictive.AddOne (w : WaitWorld) : Progress WaitWorld :=
  match w.data with
  | none => .panicked "context is not a WaitContext"
  | some counter =>
    match wgAdd 1 counter with
    | .returned n => .returned { w with data := some n }
    | .panicked msg => .panicked msg
    | .blocked => .blocked

/-- The method `restrictive.Done`. -/
def restrictive.Done (w : WaitWorld) : Progress WaitWorld :=
  match w.data with
  | none => .panicked "context is not a WaitContext"
  | some counter =>
    match wgAdd (-1) counter with
    | .returned n => .returned { w with data := some n }
    | .panicked msg => .panicked msg
    | .blocked => .blocked

/-- The body of `Wait` after the data of the context is read: it makes the channel
`done`, starts the goroutine that waits for the group, starts the goroutine that warns
when a period is given, and ends there. -/
def startWaiting (w : WaitWorld) (notifyAfter : List Nat) : WaitWorld :=
  let w := { w with doneClosed := false, waiterStarted := true }
  match notifyAfter with
  | [] => w
  | d :: _ => { w with notifier := some d }

/-- The method `restrictive.Wait`. -/
def restrictive.Wait (w : WaitWorld) (notifyAfter : List Nat) : Progress WaitWorld :=
  match w.data with
  | none => .panicked "context is not a WaitContext"
  | some _ => .returned (startWaiting w notifyAfter)

/-- The method `restrictive.Go`: the function runs in a goroutine of its own. -/
def restrictive.Go (w : WaitWorld) : Progress WaitWorld :=
  match restrictive.AddOne w with
  | .returned w1 => .returned { w1 with running := w1.running + 1 }
  | other => other

/-- The method `permissive.AddOne`. -/
def permissive.AddOne (w : WaitWorld) : Progress WaitWorld :=
  match w.data with
  | none => .returned w
  | some _ => restrictive.AddOne w

/-- The method `permissive.Done`. -/
def permissive.Done (w : WaitWorld) : Progress WaitWorld :=
  match w.data with
  | none => .returned w
  | some _ => restrictive.Done w

/-- The method `permissive.Wait`. -/
def permissive.Wait (w : WaitWorld) (notifyAfter : List Nat) : Progress WaitWorld :=
  match w.data with
  | none => .returned w
  | some _ => .returned (startWaiting w notifyAfter)

/-- The method `permissive.Go`. -/
def permissive.Go (w : WaitWorld) : Progress WaitWorld :=
  match permissive.AddOne w with
  | .returned w1 => .returned { w1 with running := w1.running + 1 }
  | other => other

/-- The goroutine `Wait` starts to wait for the group: when `wg.Wait` returns it closes
`done`; until then it is blocked. -/
def waiterGoroutine (w : WaitWorld) : Progress WaitWorld :=
  match w.data with
  | none => .blocked
  | some counter =>
    if w.waiterStarted then
      match wgWait counter with
      | .returned _ => .returned { w with doneClosed := true, waiterStarted := false }
      | .panicked msg => .panicked msg
      | .blocked => .blocked
    else .blocked

/-- The goroutine `Wait` starts to warn, when its timer fires: it ends when `done` is
closed and prints the warning otherwise. -/
def notifierGoroutine (w : WaitWorld) : WaitWorld :=
  match w.notifier with
  | none => w
  | some _ =>
    if w.doneClosed then { w with notifier := none }
    else { w with warnings := w.warnings + 1 }

/-- A function started with `Go` ends and its deferred `Done` runs. -/
def taskEnds (w : WaitWorld) : Progress WaitWorld :=
  match w.running with
  | 0 => .blocked
  | n + 1 => restrictive.Done { w with running := n }

/-- The world a call left behind; for a call that did not return, the world as it
was. -/
def Progress.world (w : WaitWorld) : Progress WaitWorld → WaitWorld
  | .returned w1 => w1
  | _ => w

/-- A fresh wait-context on which one task was registered with `AddOne`. -/
def oneTaskWorld : WaitWorld := (restrictive.AddOne waitctxBackground).world waitctxBackground

/-- The method `KubernetesStore.UpdateCluster`; in the model `client.List` does not
fail. Writing the id label to a nil labels map is a runtime panic. The cluster it
returns is the argument, whose labels map the method has written the id label to. -/
def KubernetesStore.UpdateCluster (k : KubernetesStore) (cluster : LoggingCluster)
    (api : KubeApi) : Outcome (Except Err LoggingCluster × KubeApi) :=
  let items :=
    listMatchingLabel api.LoggingClusters k.systemNamespace k.OpniClusterID cluster.Id
  match items with
  | [item] =>
    match cluster.Labels with
    | none => .panicked "assignment to entry in nil map"
    | some labels =>
      let labels := mapSet labels k.OpniClusterID cluster.Id
      let spec : LoggingClusterSpec :=
        { item.Content.Spec with
          FriendlyName := cluster.Name, IndexUserSecret := some cluster.OpensearchUserID }
      let loggingCluster : Object LoggingClusterData :=
        { item with Content := { Labels := labels, Spec := spec } }
      let r := clientUpdate api.LoggingClusters loggingCluster
      match r.1 with
      | some err => .returned (.error (.wrapped "failed to update cluster" err), api)
      | none =>
        .returned (.ok { cluster with Labels := some labels }, { api with LoggingClusters := r.2 })
  | _ => .returned (.error (errFetched items.length), api)

/-- The cluster `handleBootstrapLogging` registers for the sample request with the user
generated from the sample reads: its labels map is not set. -/
def registeredCluster : LoggingCluster :=
  { Id := "agent-1", Name := "downstream", OpensearchUserID := "index-012345", Labels := none }

/-- Whether the characters are a valid hex string: an even number of hex digits. -/
def validHex (cs : List Char) : Bool :=
  cs.length % 2 == 0 && cs.all fun c => (fromHexChar c).isSome

/-! ## Gateway configuration (`pkg/config/v1beta1/gateway_config.go`) -/

structure ManagementSpec where
  GRPCListenAddress : String
  HTTPListenAddress : String
  WebListenAddress : String
  deriving DecidableEq, Repr

structure DistributorSpec where
  HTTPAddress : String
  GRPCAddress : String
  deriving DecidableEq, Repr

structure IngesterSpec where
  HTTPAddress : String
  GRPCAddress : String
  deriving DecidableEq, Repr

structure AlertmanagerSpec where
  HTTPAddress : String
  deriving DecidableEq, Repr

structure RulerSpec where
  HTTPAddress : String
  deriving DecidableEq, Repr

structure QueryFrontendSpec where
  HTTPAddress : String
  GRPCAddress : String
  deriving DecidableEq, Repr

structure MTLSSpec where
  ServerCA : String
  ClientCA : String
  ClientCert : String
  ClientKey : String
  deriving DecidableEq, Repr

structure CortexSpec where
  Distributor : DistributorSpec
  Ingester : IngesterSpec
  Alertmanager : AlertmanagerSpec
  Ruler : RulerSpec
  QueryFrontend : QueryFrontendSpec
  Certs : MTLSSpec
  deriving DecidableEq, Repr

structure CertsSpec where
  CACert : Option String
  CACertData : Option String
  ServingCert : Option String
  ServingCertData : Option String
  ServingKey : Option String
  ServingKeyData : Option String
  deriving DecidableEq, Repr

structure PluginsSpec where
  Dirs : List String
  deriving DecidableEq, Repr

structure EtcdStorageSpec where
  Endpoints : List String
  Certs : Option MTLSSpec
  deriving DecidableEq, Repr

structure CustomResourcesStorageSpec where
  Namespace : String
  deriving DecidableEq, Repr

/-- The type `StorageSpec`; its field `Type` is named `StorageType` here. -/
structure StorageSpec where
  StorageType : String
  Etcd : Option EtcdStorageSpec
  CustomResources : Option CustomResourcesStorageSpec
  deriving DecidableEq, Repr

structure GatewayConfigSpec where
  ListenAddress : String
  Hostname : String
  MetricsPort : Int
  Management : ManagementSpec
  EnableMonitor : Bool
  TrustedProxies : List String
  Cortex : CortexSpec
  AuthProvider : String
  Storage : StorageSpec
  Certs : CertsSpec
  Plugins : PluginsSpec
  deriving DecidableEq, Repr

/-- The method `GatewayConfigSpec.SetDefaults` on its receiver, none being the nil
pointer; the result is the receiver after the call. -/
def GatewayConfigSpec.SetDefaults : Option GatewayConfigSpec → Option GatewayConfigSpec
  | none => none
  | some s =>
    let s := if s.ListenAddress = "" then { s with ListenAddress := ":8080" } else s
    let s := if s.Hostname = "" then { s with Hostname := "localhost" } else s
    let s := if s.MetricsPort = 0 then { s with MetricsPort := 8086 } else s
    let s :=
      if s.Cortex.Distributor.HTTPAddress = "" then
        { s with Cortex := { s.Cortex with Distributor :=
            { HTTPAddress := "cortex-distributor:8080",
              GRPCAddress := "cortex-distributor-headless:9095" } } }
      else s
    let s :=
      if s.Cortex.Ingester.HTTPAddress = "" then
        { s with Cortex := { s.Cortex with Ingester :=
            { HTTPAddress := "cortex-ingester:8080",
              GRPCAddress := "cortex-ingester-headless:9095" } } }
      else s
    let s :=
      if s.Cortex.Alertmanager.HTTPAddress = "" then
        { s with Cortex := { s.Cortex with Alertmanager :=
            { HTTPAddress := "cortex-alertmanager:8080" } } }
      else s
    let s :=
      if s.Cortex.Ruler.HTTPAddress = "" then
        { s with Cortex := { s.Cortex with Ruler := { HTTPAddress := "cortex-ruler:8080" } } }
      else s
    let s :=
      if s.Cortex.QueryFrontend.HTTPAddress = "" then
        { s with Cortex := { s.Cortex with QueryFrontend :=
            { HTTPAddress := "cortex-query-frontend:8080",
              GRPCAddress := "cortex-query-frontend-headless:9095" } } }
      else s
    some s

/-- The zero value of `GatewayConfigSpec`. -/
def zeroGatewayConfigSpec : GatewayConfigSpec :=
  { ListenAddress := "", Hostname := "", MetricsPort := 0,
    Management := ⟨"", "", ""⟩, EnableMonitor := false, TrustedProxies := [],
    Cortex := ⟨⟨"", ""⟩, ⟨"", ""⟩, ⟨""⟩, ⟨""⟩, ⟨"", ""⟩, ⟨"", "", "", ""⟩⟩,
    AuthProvider := "", Storage := ⟨"", none, none⟩,
    Certs := ⟨none, none, none, none, none, none⟩, Plugins := ⟨[]⟩ }

/-- A configuration that sets the GRPC address of the distributor and leaves its HTTP
address empty. -/
def grpcOnlySpec : GatewayConfigSpec :=
  { zeroGatewayConfigSpec with
    Cortex := { zeroGatewayConfigSpec.Cortex with Distributor := ⟨"", "distributor.example:9095"⟩ } }

/-- A configuration that sets the HTTP address of the ingester and leaves its GRPC
address empty. -/
def httpOnlySpec : GatewayConfigSpec :=
  { zeroGatewayConfigSpec with
    Cortex := { zeroGatewayConfigSpec.Cortex with Ingester := ⟨"ingester.example:8080", ""⟩ } }

/-- The snapshots the sender received from `pending`, in order. -/
def takenSnapshots : List SenderAction → List Snapshot
  | [] => []
  | .took docs :: rest => docs :: takenSnapshots rest
  | _ :: rest => takenSnapshots rest

/-- The uploads a log holds: for each report of success, in order, the snapshots the
sender received since the report before it (or since the start) and the snapshot
reported; `taken` are the snapshots received since the last report before the log. -/
def uploads : List Snapshot → List SenderAction → List (List Snapshot × Snapshot)
  | _, [] => []
  | taken, .took docs :: rest => uploads (taken ++ [docs]) rest
  | taken, .sent docs :: rest => (taken, docs) :: uploads [] rest
  | taken, _ :: rest => uploads taken rest

/-- The upload of A fails and B replaces it during the backoff; C arrives on `pending`
while B is being posted, the POST of B is rejected and the sender receives C, which the
gateway accepts. -/
def threeReceived : List SenderEvent :=
  [.send snapshotA, .rejected, .send snapshotB, .send snapshotC, .rejected, .accepted]

/-! # Theorems -/

/-! ## Association lists -/

theorem mapGet_mapSet_self {β : Type} (m : List (String × β)) (k : String) (v : β) :
    mapGet (mapSet m k v) k = some v := by
  induction m with
  | nil => simp [mapSet, mapGet]
  | cons kv rest ih =>
    obtain ⟨k', v'⟩ := kv
    by_cases hk : k' = k
    · simp [mapSet, mapGet, hk]
    · simp [mapSet, mapGet, hk, ih]

theorem mapGet_mapSet_of_ne {β : Type} (m : List (String × β)) (k k' : String) (v : β)
    (hne : k' ≠ k) : mapGet (mapSet m k v) k' = mapGet m k' := by
  induction m with
  | nil => simp [mapSet, mapGet, Ne.symm hne]
  | cons kv rest ih =>
    obtain ⟨k1, v1⟩ := kv
    by_cases hk : k1 = k
    · subst hk
      simp [mapSet, mapGet, Ne.symm hne]
    · by_cases hk' : k1 = k'
      · subst hk'
        simp [mapSet, mapGet, hk]
      · simp [mapSet, mapGet, hk, hk', ih]

/-! ## Injected failures -/

theorem failRead_ok {σ α : Type} (fault : Option Err) (f : σ → Except Err α) (s : σ) (a : α)
    (hok : failRead fault f s = .ok a) : fault = none ∧ f s = .ok a := by
  cases fault with
  | none => exact ⟨rfl, hok⟩
  | some err => simp [failRead] at hok

theorem failWrite_none {σ : Type} (fault : Option Err) (f : σ → Option Err × σ) (s s1 : σ)
    (hok : failWrite fault f s = (none, s1)) : fault = none ∧ f s = (none, s1) := by
  cases fault with
  | none => exact ⟨rfl, hok⟩
  | some err => simp [failWrite] at hok

/-! ## The auth handler -/

/-- A run of `handleBootstrapAuth` that answers 200 went through every step: each
collaborator returned without error, and the calls are the six of the success path. -/
theorem handleBootstrapAuth_ok_inv {σ : Type} (h : ServerConfig σ) (c : Request) (s : σ)
    (h200 : (handleBootstrapAuth h c s).result.status = some StatusOK) :
    ∃ payload token bt clientReq err sharedSecret s1 s2 krStore,
      h.jwsVerify (TrimSpace (TrimPrefix (TrimSpace (c.Get "Authorization")) "Bearer"))
        = .ok payload ∧
      h.ParseJSON payload = .ok token ∧
      h.TokenStore.GetToken token.Reference s = .ok bt ∧
      h.BodyParser c.Body = .ok clientReq ∧
      h.ClusterStore.GetCluster clientReq.ClientID s = .error err ∧
      h.DeriveSharedSecret h.NewEphemeralKeyPair
        { PublicKey := clientReq.ClientPubKey, PeerType := .PeerTypeClient } = .ok sharedSecret ∧
      h.ClusterStore.CreateCluster
        { Id := clientReq.ClientID, Labels := bt.Metadata.Labels } s = (none, s1) ∧
      h.TokenStore.IncrementUsageCount token.Reference s1 = (none, s2) ∧
      h.ClusterStore.KeyringStore clientReq.ClientID s2 = .ok krStore ∧
      krStore.Put (h.NewKeyring sharedSecret) s2 = (none, (handleBootstrapAuth h c s).state) ∧
      (handleBootstrapAuth h c s).trace =
        [⟨.GetToken token.Reference, true⟩, ⟨.GetCluster clientReq.ClientID, false⟩,
          ⟨.CreateCluster { Id := clientReq.ClientID, Labels := bt.Metadata.Labels }, true⟩,
          ⟨.IncrementUsageCount token.Reference, true⟩,
          ⟨.KeyringStore clientReq.ClientID, true⟩,
          ⟨.KeyringPut clientReq.ClientID (h.NewKeyring sharedSecret), true⟩] := by
  generalize hr : handleBootstrapAuth h c s = r at h200 ⊢
  unfold handleBootstrapAuth at hr
  simp only [] at hr
  repeat' split at hr
  all_goals subst hr
  all_goals try (exfalso; revert h200; simp [SendStatus, Result.status, StatusOK,
    StatusUnauthorized, StatusInternalServerError, StatusBadRequest, StatusConflict]; done)
  exact ⟨_, _, _, _, _, _, _, _, _, by assumption, by assumption, by assumption,
    by assumption, by assumption, by assumption, by assumption, by assumption,
    by assumption, by assumption, by simp⟩

/-- C1: whenever `handleBootstrapAuth`, run over the test stores (with any injected
failures), answers 200, the store it leaves holds a cluster whose id is the client id of
the request and whose labels are those of the token's metadata, a keyring is stored under
that cluster's reference, and the usage count of the token is one more than before; the
calls made include exactly one increment of the usage count. -/
theorem handleBootstrapAuth_ok_effects (f : Faults) (l : Library) (c : Request) (s : MemStore)
    (h200 : (handleBootstrapAuth (testServer f l) c s).result.status = some StatusOK) :
    ∃ payload token bt clientReq sharedSecret,
      l.jwsVerify (TrimSpace (TrimPrefix (TrimSpace (c.Get "Authorization")) "Bearer"))
        = .ok payload ∧
      l.ParseJSON payload = .ok token ∧
      testGetToken token.Reference s = .ok bt ∧
      l.BodyParser c.Body = .ok clientReq ∧
      l.DeriveSharedSecret l.NewEphemeralKeyPair
        { PublicKey := clientReq.ClientPubKey, PeerType := .PeerTypeClient } = .ok sharedSecret ∧
      testGetCluster clientReq.ClientID (handleBootstrapAuth (testServer f l) c s).state
        = .ok { Id := clientReq.ClientID, Labels := bt.Metadata.Labels } ∧
      (NewTestKeyringStore "gateway-internal" clientReq.ClientID).Get
        (handleBootstrapAuth (testServer f l) c s).state = .ok (l.NewKeyring sharedSecret) ∧
      (∃ bt1, testGetToken token.Reference (handleBootstrapAuth (testServer f l) c s).state
        = .ok bt1 ∧ bt1.Metadata.UsageCount = bt.Metadata.UsageCount + 1) ∧
      (handleBootstrapAuth (testServer f l) c s).trace =
        [⟨.GetToken token.Reference, true⟩, ⟨.GetCluster clientReq.ClientID, false⟩,
          ⟨.CreateCluster { Id := clientReq.ClientID, Labels := bt.Metadata.Labels }, true⟩,
          ⟨.IncrementUsageCount token.Reference, true⟩,
          ⟨.KeyringStore clientReq.ClientID, true⟩,
          ⟨.KeyringPut clientReq.ClientID (l.NewKeyring sharedSecret), true⟩] := by
  obtain ⟨payload, token, bt, clientReq, err, sharedSecret, s1, s2, krStore, hv, hp, hg, hb,
    -, hd, hcc, hi, hk, hput, htr⟩ := handleBootstrapAuth_ok_inv (testServer f l) c s h200
  have hg1 : testGetToken token.Reference s = .ok bt :=
    (failRead_ok f.GetToken (testGetToken token.Reference) s bt hg).2
  have hget : mapGet s.tks token.Reference = some bt := by
    unfold testGetToken at hg1
    split at hg1
    · cases hg1
    · rename_i t ht
      cases hg1
      exact ht
  have hs1 : s1 = { s with
      clusters := mapSet s.clusters clientReq.ClientID ⟨clientReq.ClientID, bt.Metadata.Labels⟩ } := by
    have h1 := (failWrite_none f.CreateCluster _ s s1 hcc).2
    simp only [NewTestClusterStore, testCreateCluster, Prod.mk.injEq, true_and] at h1
    exact h1.symm
  have hs2 : s2 = { s1 with tks := mapSet s1.tks token.Reference (incrementUsage bt) } := by
    have h2 := (failWrite_none f.IncrementUsageCount _ s1 s2 hi).2
    subst hs1
    simp only [NewTestTokenStore, testIncrementUsageCount, testUpdateToken, hget] at h2
    simp only [Prod.mk.injEq, true_and] at h2
    exact h2.symm
  have hks : krStore = faultyKeyringStore f
      (NewTestKeyringStore "gateway-internal" clientReq.ClientID) := by
    simp only [testServer, faultyClusterStore] at hk
    split at hk
    · cases hk
    · rename_i ks hks
      have h3 := (failRead_ok f.KeyringStore _ s2 ks hks).2
      simp only [NewTestClusterStore, testClusterKeyringStore, NewTestKeyringStoreBroker,
        Except.ok.injEq] at h3
      cases hk
      rw [← h3]
  have hs3 : (handleBootstrapAuth (testServer f l) c s).state = { s2 with
      keyrings := mapSet s2.keyrings ("gateway-internal" ++ clientReq.ClientID) (l.NewKeyring sharedSecret) } := by
    subst hks
    have h4 := (failWrite_none f.KeyringPut _ s2 _ hput).2
    simp only [NewTestKeyringStore, Prod.mk.injEq, true_and] at h4
    exact h4.symm
  refine ⟨payload, token, bt, clientReq, sharedSecret, hv, hp, hg1, hb, hd, ?_, ?_, ?_, htr⟩
  · rw [hs3, hs2, hs1]
    simp [testGetCluster, mapGet_mapSet_self]
  · rw [hs3]
    simp [NewTestKeyringStore, mapGet_mapSet_self]
  · refine ⟨incrementUsage bt, ?_, rfl⟩
    rw [hs3, hs2]
    simp [testGetToken, mapGet_mapSet_self]

/-! ## Trimming -/

theorem TrimSpace_idempotent (x : String) : TrimSpace (TrimSpace x) = TrimSpace x := by
  unfold TrimSpace
  congr 1
  show ((List.dropWhile isSpace
      ((List.dropWhile isSpace x.data).reverse.dropWhile isSpace).reverse).reverse.dropWhile
      isSpace).reverse = ((List.dropWhile isSpace x.data).reverse.dropWhile isSpace).reverse
  have hfix : ∀ a : List Char, List.dropWhile isSpace a = a →
      List.dropWhile isSpace (List.rdropWhile isSpace a) = List.rdropWhile isSpace a := by
    intro a ha
    rw [List.dropWhile_eq_self_iff] at ha ⊢
    intro hl
    obtain ⟨t, ht⟩ := List.rdropWhile_prefix isSpace (l := a)
    have hne : List.rdropWhile isSpace a ≠ [] := by
      intro h0
      rw [h0] at hl
      simp at hl
    obtain ⟨y, ys, hy⟩ := List.exists_cons_of_ne_nil hne
    have hapos : 0 < a.length := by
      rw [← ht, hy]
      simp
    have h1 := ha hapos
    simp only [hy, List.get_eq_getElem, List.getElem_cons_zero]
    have h2 : a.get ⟨0, hapos⟩ = y := by
      have : a = y :: (ys ++ t) := by rw [← ht, hy]; rfl
      subst this
      rfl
    rw [h2] at h1
    exact h1
  have hrd : ∀ a : List Char, (List.dropWhile isSpace a.reverse).reverse
      = List.rdropWhile isSpace a := fun a => rfl
  rw [hrd, hrd, hfix _ (List.dropWhile_idempotent isSpace x.data), List.rdropWhile_idempotent]

/-! ## The auth handler: order of writes and refusals -/

/-- C2 (as amended): in every run of `handleBootstrapAuth` the durable writes are made in
the order cluster create, usage increment, keyring put, each only after the one before it
succeeded. A failed write ends the run with 500, so a failed increment leaves the
keyring unput, and a keyring put is only attempted after the usage count was incremented;
only the run with all three writes answers 200. -/
theorem handleBootstrapAuth_write_order {σ : Type} (h : ServerConfig σ) (c : Request) (s : σ) :
    (writeLog (handleBootstrapAuth h c s).trace = [] ∧
      (handleBootstrapAuth h c s).state = s ∧
      (handleBootstrapAuth h c s).result.status ≠ some StatusOK) ∨
    (writeLog (handleBootstrapAuth h c s).trace = [(.createCluster, false)] ∧
      (handleBootstrapAuth h c s).result.status = some StatusInternalServerError) ∨
    (writeLog (handleBootstrapAuth h c s).trace =
        [(.createCluster, true), (.incrementUsageCount, false)] ∧
      (handleBootstrapAuth h c s).result.status = some StatusInternalServerError) ∨
    (writeLog (handleBootstrapAuth h c s).trace =
        [(.createCluster, true), (.incrementUsageCount, true)] ∧
      (handleBootstrapAuth h c s).result.status = some StatusInternalServerError) ∨
    (writeLog (handleBootstrapAuth h c s).trace =
        [(.createCluster, true), (.incrementUsageCount, true), (.keyringPut, false)] ∧
      (handleBootstrapAuth h c s).result.status = some StatusInternalServerError) ∨
    (writeLog (handleBootstrapAuth h c s).trace =
        [(.createCluster, true), (.incrementUsageCount, true), (.keyringPut, true)] ∧
      (handleBootstrapAuth h c s).result.status = some StatusOK) := by
  generalize hr : handleBootstrapAuth h c s = r
  unfold handleBootstrapAuth at hr
  simp only [] at hr
  repeat' split at hr
  all_goals subst hr
  all_goals simp [writeLog, writeOf, SendStatus, Result.status, StatusOK, StatusUnauthorized,
    StatusInternalServerError, StatusBadRequest, StatusConflict]

/-- C2 (counterexample): when the keyring put fails the handler answers 500, yet the
usage count of the token has gone from 0 to 1 and no keyring is stored: the increment
is made before the put, not after it. -/
theorem handleBootstrapAuth_increment_before_put :
    putFailureRun.result.status = some StatusInternalServerError ∧
    (testGetToken "ab" sampleStore).map (fun t => t.Metadata.UsageCount) = .ok 0 ∧
    (testGetToken "ab" putFailureRun.state).map (fun t => t.Metadata.UsageCount) = .ok 1 ∧
    (NewTestKeyringStore "gateway-internal" "agent-1").Get putFailureRun.state
      = .error .ErrNotFound ∧
    writeLog putFailureRun.trace =
      [(.createCluster, true), (.incrementUsageCount, true), (.keyringPut, false)] := by
  refine ⟨by decide, rfl, rfl, rfl, by decide⟩

/-- C3: a request with a bearer that verifies and a token that exists, whose client id is
already a cluster in the cluster store, is answered 409; the store is left as it was and
no write is made: no cluster is created or overwritten, no keyring is stored and the
usage count is not incremented. -/
theorem handleBootstrapAuth_conflict {σ : Type} (h : ServerConfig σ) (c : Request) (s : σ)
    (payload : String) (token : Token) (bt : BootstrapToken) (clientReq : BootstrapAuthRequest)
    (cl : Cluster)
    (hhdr : TrimSpace (c.Get "Authorization") ≠ "")
    (hv : h.jwsVerify (TrimSpace (TrimPrefix (TrimSpace (c.Get "Authorization")) "Bearer"))
      = .ok payload)
    (hp : h.ParseJSON payload = .ok token)
    (hg : h.TokenStore.GetToken token.Reference s = .ok bt)
    (hb : h.BodyParser c.Body = .ok clientReq)
    (hc : h.ClusterStore.GetCluster clientReq.ClientID s = .ok cl) :
    (handleBootstrapAuth h c s).result = .response StatusConflict (.text "ID already in use") ∧
    (handleBootstrapAuth h c s).state = s ∧
    (handleBootstrapAuth h c s).trace =
      [⟨.GetToken token.Reference, true⟩, ⟨.GetCluster clientReq.ClientID, true⟩] ∧
    writeLog (handleBootstrapAuth h c s).trace = [] := by
  have hhdr2 : ¬ TrimSpace (TrimSpace (c.Get "Authorization")) = "" := by
    rw [TrimSpace_idempotent]; exact hhdr
  unfold handleBootstrapAuth
  simp only [hhdr2, if_false, hv, hp, hg, hb, hc]
  simp [writeLog, writeOf]

/-- C3 (witness): the sample request of agent-1 after agent-1 has enrolled. -/
theorem handleBootstrapAuth_conflict_witness :
    TrimSpace (sampleAuthRequest.Get "Authorization") ≠ "" ∧
    (handleBootstrapAuth (testServer noFaults sampleLibrary) sampleAuthRequest enrolledStore).result
      = .response StatusConflict (.text "ID already in use") ∧
    (handleBootstrapAuth (testServer noFaults sampleLibrary) sampleAuthRequest enrolledStore).state
      = enrolledStore :=
  ⟨by decide,
    (handleBootstrapAuth_conflict (testServer noFaults sampleLibrary) sampleAuthRequest
      enrolledStore "payload" ⟨[0xab], [0x01]⟩ sampleToken ⟨"agent-1", [1]⟩
      ⟨"agent-1", [("env", "dev")]⟩ (by decide) rfl rfl rfl rfl rfl).1,
    (handleBootstrapAuth_conflict (testServer noFaults sampleLibrary) sampleAuthRequest
      enrolledStore "payload" ⟨[0xab], [0x01]⟩ sampleToken ⟨"agent-1", [1]⟩
      ⟨"agent-1", [("env", "dev")]⟩ (by decide) rfl rfl rfl rfl rfl).2.1⟩

/-- C4: a request whose Authorization header is blank, or whose bearer fails
verification, or whose token lookup returns the store's NotFound error, is answered 401;
the store is left as it was and no write is made. -/
theorem handleBootstrapAuth_unauthorized {σ : Type} (h : ServerConfig σ) (c : Request) (s : σ)
    (hcase : TrimSpace (c.Get "Authorization") = "" ∨
      (∃ e, h.jwsVerify (TrimSpace (TrimPrefix (TrimSpace (c.Get "Authorization")) "Bearer"))
        = .error e) ∨
      (∃ payload token e,
        h.jwsVerify (TrimSpace (TrimPrefix (TrimSpace (c.Get "Authorization")) "Bearer"))
          = .ok payload ∧
        h.ParseJSON payload = .ok token ∧
        h.TokenStore.GetToken token.Reference s = .error e ∧
        errorsIs e .ErrNotFound = true)) :
    (handleBootstrapAuth h c s).result = SendStatus StatusUnauthorized ∧
    (handleBootstrapAuth h c s).state = s ∧
    writeLog (handleBootstrapAuth h c s).trace = [] := by
  by_cases hblank : TrimSpace (TrimSpace (c.Get "Authorization")) = ""
  · unfold handleBootstrapAuth
    simp [hblank, writeLog]
  · rcases hcase with h1 | ⟨e, he⟩ | ⟨payload, token, e, hv, hp, hg, hnf⟩
    · rw [TrimSpace_idempotent] at hblank
      exact absurd h1 hblank
    · unfold handleBootstrapAuth
      simp [hblank, he, writeLog]
    · unfold handleBootstrapAuth
      simp [hblank, hv, hp, hg, hnf, writeLog, writeOf]

/-- C4 (witness): the sample auth request without its Authorization header. -/
theorem handleBootstrapAuth_unauthorized_witness :
    TrimSpace (anonymousAuthRequest.Get "Authorization") = "" ∧
    (handleBootstrapAuth (testServer noFaults sampleLibrary) anonymousAuthRequest sampleStore).result
      = SendStatus StatusUnauthorized ∧
    (handleBootstrapAuth (testServer noFaults sampleLibrary) anonymousAuthRequest sampleStore).state
      = sampleStore :=
  ⟨by decide,
    (handleBootstrapAuth_unauthorized (testServer noFaults sampleLibrary) anonymousAuthRequest
      sampleStore (Or.inl (by decide))).1,
    (handleBootstrapAuth_unauthorized (testServer noFaults sampleLibrary) anonymousAuthRequest
      sampleStore (Or.inl (by decide))).2.1⟩

/-- C1 (witness): the sample request of agent-1 on the sample store is answered 200. -/
theorem handleBootstrapAuth_ok_effects_witness :
    sampleRun.result.status = some StatusOK ∧
    ∃ payload token bt clientReq sharedSecret,
      sampleLibrary.jwsVerify
        (TrimSpace (TrimPrefix (TrimSpace (sampleAuthRequest.Get "Authorization")) "Bearer"))
        = .ok payload ∧
      sampleLibrary.ParseJSON payload = .ok token ∧
      testGetToken token.Reference sampleStore = .ok bt ∧
      sampleLibrary.BodyParser sampleAuthRequest.Body = .ok clientReq ∧
      sampleLibrary.DeriveSharedSecret sampleLibrary.NewEphemeralKeyPair
        { PublicKey := clientReq.ClientPubKey, PeerType := .PeerTypeClient } = .ok sharedSecret ∧
      testGetCluster clientReq.ClientID sampleRun.state
        = .ok { Id := clientReq.ClientID, Labels := bt.Metadata.Labels } ∧
      (NewTestKeyringStore "gateway-internal" clientReq.ClientID).Get sampleRun.state
        = .ok (sampleLibrary.NewKeyring sharedSecret) ∧
      (∃ bt1, testGetToken token.Reference sampleRun.state = .ok bt1 ∧
        bt1.Metadata.UsageCount = bt.Metadata.UsageCount + 1) ∧
      sampleRun.trace =
        [⟨.GetToken token.Reference, true⟩, ⟨.GetCluster clientReq.ClientID, false⟩,
          ⟨.CreateCluster { Id := clientReq.ClientID, Labels := bt.Metadata.Labels }, true⟩,
          ⟨.IncrementUsageCount token.Reference, true⟩,
          ⟨.KeyringStore clientReq.ClientID, true⟩,
          ⟨.KeyringPut clientReq.ClientID (sampleLibrary.NewKeyring sharedSecret), true⟩] :=
  ⟨by decide,
    handleBootstrapAuth_ok_effects noFaults sampleLibrary sampleAuthRequest sampleStore
      (by decide)⟩

/-! ## The Kubernetes client -/

theorem clientGet_error {α : Type} (objs : List (Object α)) (ns name : String) (e : Err)
    (herr : clientGet objs ns name = .error e) : e = .k8sNotFound name := by
  induction objs with
  | nil => simp [clientGet] at herr; exact herr.symm
  | cons o rest ih =>
    unfold clientGet at herr
    split at herr
    · cases herr
    · exact ih herr

theorem clientGet_ok_key {α : Type} (objs : List (Object α)) (ns name : String) (o : Object α)
    (hok : clientGet objs ns name = .ok o) : o.Namespace = ns ∧ o.Name = name := by
  induction objs with
  | nil => simp [clientGet] at hok
  | cons o1 rest ih =>
    unfold clientGet at hok
    split at hok
    · rename_i hkey
      cases hok
      exact hkey
    · exact ih hok

theorem clientGet_absent {α : Type} (objs : List (Object α)) (ns name : String)
    (habs : ∀ o ∈ objs, ¬ (o.Namespace = ns ∧ o.Name = name)) :
    clientGet objs ns name = .error (.k8sNotFound name) := by
  induction objs with
  | nil => rfl
  | cons o rest ih =>
    unfold clientGet
    rw [if_neg (habs o (List.mem_cons_self o rest))]
    exact ih fun o1 h1 => habs o1 (List.mem_cons_of_mem o h1)

theorem clientGet_append {α : Type} (objs : List (Object α)) (ns name : String) (e : Err)
    (o : Object α) (herr : clientGet objs ns name = .error e)
    (hkey : o.Namespace = ns ∧ o.Name = name) :
    clientGet (objs ++ [o]) ns name = .ok o := by
  induction objs with
  | nil => simp [clientGet, hkey]
  | cons o1 rest ih =>
    unfold clientGet at herr
    split at herr
    · cases herr
    · rename_i hne
      simp only [List.cons_append, clientGet, if_neg hne]
      exact ih herr

theorem clientGet_replaceObject {α : Type} (objs : List (Object α)) (n cur : Object α)
    (hok : clientGet objs n.Namespace n.Name = .ok cur) :
    clientGet (replaceObject objs n) n.Namespace n.Name = .ok n := by
  induction objs with
  | nil => simp [clientGet] at hok
  | cons o1 rest ih =>
    unfold clientGet at hok
    unfold replaceObject
    split at hok
    · rename_i hkey
      rw [if_pos hkey]
      simp [clientGet]
    · rename_i hne
      rw [if_neg hne]
      simp only [clientGet, if_neg hne]
      exact ih hok

/-! ## The custom-resource keyring store -/

/-- After a successful `Put` of a keyring whose marshalled form is `data`, the object of
the store holds `data`. -/
theorem crdKeyringStore_put_stores (ks : crdKeyringStore) (codec : KeyringCodec) (now : Int)
    (api api1 : ApiServer) (k : Keyring) (data : Bytes)
    (hsteps : 0 < ks.defaultBackoffSteps) (hm : codec.Marshal k = .ok data)
    (hput : ks.Put codec now k api = (none, api1)) :
    ∃ o, clientGet api1.Keyrings ks.Namespace ks.ref = .ok o ∧ o.Content = data := by
  unfold crdKeyringStore.Put at hput
  simp only [hm] at hput
  cases hget : clientGet api.Keyrings ks.Namespace ks.ref with
  | error err =>
    have herr := clientGet_error _ _ _ _ hget
    subst herr
    simp only [hget, IsNotFound, Bool.not_true, Bool.false_eq_true, if_false, clientCreate,
      Prod.mk.injEq, true_and] at hput
    subst hput
    exact ⟨{ Name := ks.ref, Namespace := ks.Namespace, CreationTimestamp := now,
             ResourceVersion := 1, Content := data },
      clientGet_append _ _ _ _ _ hget ⟨rfl, rfl⟩, rfl⟩
  | ok kr =>
    obtain ⟨n, hn⟩ := Nat.exists_eq_succ_of_ne_zero (Nat.pos_iff_ne_zero.mp hsteps)
    obtain ⟨hns, hname⟩ := clientGet_ok_key _ _ _ _ hget
    have hget1 : clientGet api.Keyrings kr.Namespace kr.Name = .ok kr := by
      rw [hns, hname]; exact hget
    simp only [hget, hn, retryOnError, putAttempt, clientUpdate, hget1, ne_eq, not_true_eq_false,
      and_false, if_false, Prod.mk.injEq, true_and] at hput
    subst hput
    have hrep := clientGet_replaceObject api.Keyrings
      { kr with Content := data, CreationTimestamp := kr.CreationTimestamp,
                ResourceVersion := kr.ResourceVersion + 1 } kr hget1
    refine ⟨{ kr with Content := data, ResourceVersion := kr.ResourceVersion + 1 }, ?_, rfl⟩
    rw [← hns, ← hname]
    exact hrep

/-- A `Put` on a store whose object exists succeeds when the keyring marshals. -/
theorem crdKeyringStore_put_again (ks : crdKeyringStore) (codec : KeyringCodec) (now : Int)
    (api : ApiServer) (k : Keyring) (data : Bytes) (o : Object Bytes)
    (hsteps : 0 < ks.defaultBackoffSteps) (hm : codec.Marshal k = .ok data)
    (hget : clientGet api.Keyrings ks.Namespace ks.ref = .ok o) :
    (ks.Put codec now k api).1 = none := by
  obtain ⟨n, hn⟩ := Nat.exists_eq_succ_of_ne_zero (Nat.pos_iff_ne_zero.mp hsteps)
  obtain ⟨hns, hname⟩ := clientGet_ok_key _ _ _ _ hget
  have hget1 : clientGet api.Keyrings o.Namespace o.Name = .ok o := by
    rw [hns, hname]; exact hget
  unfold crdKeyringStore.Put
  simp [hm, hget, hn, retryOnError, putAttempt, clientUpdate, hget1]

/-- C10: for the custom-resource keyring store (with a backoff of at least one step):
`Get` on a server holding no object of the store returns `storage.ErrNotFound`; after a
successful `Put` of `k1`, `Get` returns the result of unmarshalling the marshalled form
of `k1`; a following `Put` of `k2` succeeds, so it does not fail because the object
already exists, and after it `Get` returns the result of unmarshalling the marshalled
form of `k2`. -/
theorem crdKeyringStore_put_get (ks : crdKeyringStore) (codec : KeyringCodec) (now : Int)
    (api api1 : ApiServer) (k1 k2 : Keyring) (data1 data2 : Bytes)
    (hsteps : 0 < ks.defaultBackoffSteps)
    (hm1 : codec.Marshal k1 = .ok data1) (hm2 : codec.Marshal k2 = .ok data2)
    (hput1 : ks.Put codec now k1 api = (none, api1)) :
    ((∀ o ∈ api.Keyrings, ¬ (o.Namespace = ks.Namespace ∧ o.Name = ks.ref)) →
      ks.Get codec api = .error .ErrNotFound) ∧
    ks.Get codec api1 = codec.Unmarshal data1 ∧
    (ks.Put codec now k2 api1).1 = none ∧
    ks.Get codec (ks.Put codec now k2 api1).2 = codec.Unmarshal data2 := by
  obtain ⟨o1, ho1, hc1⟩ := crdKeyringStore_put_stores ks codec now api api1 k1 data1 hsteps hm1 hput1
  have hok2 := crdKeyringStore_put_again ks codec now api1 k2 data2 o1 hsteps hm2 ho1
  have hput2 : ks.Put codec now k2 api1 = (none, (ks.Put codec now k2 api1).2) := by
    rw [← hok2]
  obtain ⟨o2, ho2, hc2⟩ := crdKeyringStore_put_stores ks codec now api1 _ k2 data2 hsteps hm2 hput2
  refine ⟨?_, ?_, hok2, ?_⟩
  · intro habs
    unfold crdKeyringStore.Get
    rw [clientGet_absent _ _ _ habs]
    rfl
  · unfold crdKeyringStore.Get
    rw [ho1]
    simp only [hc1]
  · unfold crdKeyringStore.Get
    rw [ho2]
    simp only [hc2]

/-- C10 (witness): the store of agent x on an empty server, with the sample codec. -/
theorem crdKeyringStore_put_get_witness :
    0 < (sampleCRDStore.KeyringStore "agent" "x").defaultBackoffSteps ∧
    (sampleCRDStore.KeyringStore "agent" "x").Get sampleCodec emptyApiServer
      = .error .ErrNotFound ∧
    (sampleCRDStore.KeyringStore "agent" "x").Get sampleCodec
      ((sampleCRDStore.KeyringStore "agent" "x").Put sampleCodec 0 sampleKeyring
        emptyApiServer).2 = sampleCodec.Unmarshal [2, 2, 7, 7] ∧
    ((sampleCRDStore.KeyringStore "agent" "x").Put sampleCodec 0 otherKeyring
      ((sampleCRDStore.KeyringStore "agent" "x").Put sampleCodec 0 sampleKeyring
        emptyApiServer).2).1 = none ∧
    (sampleCRDStore.KeyringStore "agent" "x").Get sampleCodec
      ((sampleCRDStore.KeyringStore "agent" "x").Put sampleCodec 0 otherKeyring
        ((sampleCRDStore.KeyringStore "agent" "x").Put sampleCodec 0 sampleKeyring
          emptyApiServer).2).2 = sampleCodec.Unmarshal [2, 1, 8] :=
  ⟨by decide,
    (crdKeyringStore_put_get (sampleCRDStore.KeyringStore "agent" "x") sampleCodec 0
      emptyApiServer _ sampleKeyring otherKeyring [2, 2, 7, 7] [2, 1, 8] (by decide) rfl rfl
      rfl).1 (by simp [emptyApiServer]),
    (crdKeyringStore_put_get (sampleCRDStore.KeyringStore "agent" "x") sampleCodec 0
      emptyApiServer _ sampleKeyring otherKeyring [2, 2, 7, 7] [2, 1, 8] (by decide) rfl rfl
      rfl).2⟩

/-! ## Expired tokens in the custom-resource token store -/

/-- What `GetToken` returns for a stored object: the Kubernetes NotFound status error
when the recomputed time to live is not positive, else the token with that time to
live. -/
theorem GetToken_of_stored (c : CRDStore) (now : Int) (ref : String) (api : ApiServer)
    (obj : Object BootstrapToken)
    (hget : clientGet api.BootstrapTokens c.Namespace ref = .ok obj) :
    c.GetToken now ref api =
      if (patchTTL now obj).Content.Metadata.Ttl ≤ 0 then .error (.k8sNotFound obj.Name)
      else .ok (patchTTL now obj).Content := by
  simp only [CRDStore.GetToken, hget]
  rfl

/-- The list `ListTokens` returns has one entry per listed object, expired or not. -/
theorem ListTokens_length (c : CRDStore) (now : Int) (api : ApiServer) :
    (c.ListTokens now api).map List.length
      = .ok (clientList api.BootstrapTokens c.Namespace).length := by
  simp [CRDStore.ListTokens, Except.map]

/-- The prefix of a custom-resource keyring store takes no part in `Put` and `Get`. -/
theorem crdKeyringStore_pfx_unused (ks : crdKeyringStore) (p : String) (codec : KeyringCodec)
    (now : Int) (k : Keyring) (api : ApiServer) :
    ({ ks with pfx := p } : crdKeyringStore).Put codec now k api = ks.Put codec now k api ∧
    ({ ks with pfx := p } : crdKeyringStore).Get codec api = ks.Get codec api :=
  ⟨rfl, rfl⟩

/-- C5 (failing input): a token created at time 0 with a time to live of one second,
read at time 2. `GetToken` returns a Kubernetes NotFound status error, which is not
`storage.ErrNotFound`, the error it returns for a token that is absent; the bootstrap
server therefore answers 500 and not 401. -/
theorem GetToken_expired_error :
    sampleCRDStore.GetToken 2 "ab" sampleApiServer = .error (.k8sNotFound "ab") ∧
    errorsIs (.k8sNotFound "ab") .ErrNotFound = false ∧
    sampleCRDStore.GetToken 2 "zz" sampleApiServer = .error .ErrNotFound ∧
    (handleBootstrapAuth (crdServer sampleCRDStore 2 sampleLibrary) sampleAuthRequest
      (sampleApiServer, sampleStore)).result = SendStatus StatusInternalServerError := by
  refine ⟨rfl, by decide, rfl, by decide⟩

/-- C6 (failing input): of two stored tokens, one expired and one live at time 2,
`ListTokens` returns a list of length two whose first entry is nil: the expired entry
is kept as a nil placeholder. -/
theorem ListTokens_expired_placeholder :
    sampleCRDStore.ListTokens 2 sampleApiServer = .ok [none, some liveTokenAt2] ∧
    (sampleCRDStore.ListTokens 2 sampleApiServer).map List.length = .ok 2 := by
  refine ⟨rfl, rfl⟩

/-- The join handler signs the nil placeholder of an expired token: with every stored
token expired it answers 200 with a signature under the empty key, not 405. -/
theorem handleBootstrapJoin_signs_placeholder :
    sampleCRDStore.ListTokens 4000 sampleApiServer = .ok [none, none] ∧
    (handleBootstrapJoin (crdServer sampleCRDStore 4000 sampleLibrary) sampleJoinRequest
      (sampleApiServer, sampleStore)).result = .response StatusOK (.joinResponse [("", [])]) := by
  refine ⟨rfl, by decide⟩

/-- C9 (failing input): pairs that differ yet share a keyring. In the custom-resource
store the pairs (agent, x) and (gateway-internal, x) name the same object, since the
prefix takes no part in the object key; in the test broker the pairs (a, bc) and (ab, c)
have the same concatenation. In both a put through the first store changes what a get
through the second returns, from NotFound to the keyring put. -/
theorem keyring_store_scope_shared :
    (sampleCRDStore.KeyringStore "gateway-internal" "x").Get sampleCodec emptyApiServer
      = .error .ErrNotFound ∧
    (sampleCRDStore.KeyringStore "gateway-internal" "x").Get sampleCodec
      ((sampleCRDStore.KeyringStore "agent" "x").Put sampleCodec 0 sampleKeyring
        emptyApiServer).2 = .ok sampleKeyring ∧
    testBrokerGet "ab" "c" emptyStore = .error .ErrNotFound ∧
    testBrokerGet "ab" "c" (testBrokerPut "a" "bc" sampleKeyring emptyStore).2
      = .ok sampleKeyring := by
  refine ⟨rfl, rfl, rfl, rfl⟩

/-! ## Hex round trip -/

theorem fromHexChar_hexDigit (n : Nat) (hn : n < 16) : fromHexChar (hexDigit n) = some n := by
  have hall : ∀ m, m < 16 → fromHexChar (hexDigit m) = some m := by decide
  exact hall n hn

theorem hexDecode_hexEncode (bs : Bytes) : hexDecode (hexEncode bs) = .ok bs := by
  induction bs with
  | nil => rfl
  | cons b rest ih =>
    have hhi : b.val / 16 < 16 := by omega
    have hlo : b.val % 16 < 16 := by omega
    have hb : (Fin.ofNat (b.val / 16 * 16 + b.val % 16) : Fin 256) = b := by
      apply Fin.ext
      simp only [Fin.ofNat, Fin.val_mk]
      have := b.isLt
      omega
    simp only [hexEncode, hexDecode, fromHexChar_hexDigit _ hhi, fromHexChar_hexDigit _ hlo, ih, hb]

/-- A stored token whose id and secret are the hex forms of a token converts back to
that token, so its hex id is its stored id. -/
theorem FromBootstrapToken_hex (x : Token) (m : BootstrapTokenMetadata) :
    FromBootstrapToken (some { TokenID := x.HexID, Secret := x.HexSecret, Metadata := m })
      = .ok x := by
  simp [FromBootstrapToken, GetTokenID, GetSecret, Token.HexID, Token.HexSecret,
    hexDecode_hexEncode]

/-! ## The join handler -/

theorem mem_mapKeys_mapSet {β : Type} (m : List (String × β)) (k k1 : String) (v : β) :
    k1 ∈ mapKeys (mapSet m k v) ↔ k1 = k ∨ k1 ∈ mapKeys m := by
  induction m with
  | nil => simp [mapSet, mapKeys]
  | cons kv rest ih =>
    obtain ⟨k2, v2⟩ := kv
    by_cases hk : k2 = k
    · subst hk
      simp [mapSet, mapKeys]
    · simp only [mapSet, if_neg hk, mapKeys, List.map_cons, List.mem_cons] at ih ⊢
      rw [ih]
      tauto

theorem nodup_mapKeys_mapSet {β : Type} (m : List (String × β)) (k : String) (v : β)
    (hnd : (mapKeys m).Nodup) : (mapKeys (mapSet m k v)).Nodup := by
  induction m with
  | nil => simp [mapSet, mapKeys]
  | cons kv rest ih =>
    obtain ⟨k2, v2⟩ := kv
    have hnd2 : k2 ∉ mapKeys rest ∧ (mapKeys rest).Nodup := by
      simpa [mapKeys] using hnd
    by_cases hk : k2 = k
    · subst hk
      simpa [mapSet, mapKeys] using hnd
    · have hmem : k2 ∉ mapKeys (mapSet rest k v) := by
        rw [mem_mapKeys_mapSet]
        exact fun hor => hor.elim hk hnd2.1
      have hrest := ih hnd2.2
      simp only [mapSet, if_neg hk, mapKeys, List.map_cons, List.nodup_cons]
      exact ⟨hmem, hrest⟩

theorem mem_mapKeys_of_mapGet {β : Type} (m : List (String × β)) (k : String) (v : β)
    (hget : mapGet m k = some v) : k ∈ mapKeys m := by
  induction m with
  | nil => simp [mapGet] at hget
  | cons kv rest ih =>
    obtain ⟨k2, v2⟩ := kv
    by_cases hk : k2 = k
    · simp [mapKeys, hk]
    · simp only [mapGet, if_neg hk] at hget
      simp only [mapKeys, List.map_cons, List.mem_cons]
      exact Or.inr (ih hget)

/-- The signing loop on tokens that all convert and sign: it returns a map whose keys
are the keys it started from and the hex ids of the tokens, each new entry holding the
signature of a token with that hex id. -/
theorem signTokens_ok {σ : Type} (h : ServerConfig σ) (toks : List BootstrapToken)
    (hsign : ∀ t ∈ toks, ∃ raw sig,
      FromBootstrapToken (some t) = .ok raw ∧ h.SignDetached raw = .ok sig)
    (sigs : List (String × Bytes)) (hnd : (mapKeys sigs).Nodup) :
    ∃ out, (signTokens h (toks.map some) sigs).1 = .ok out ∧
      (mapKeys out).Nodup ∧
      (∀ k, k ∈ mapKeys out ↔ k ∈ mapKeys sigs ∨
        ∃ t ∈ toks, ∃ raw, FromBootstrapToken (some t) = .ok raw ∧ raw.HexID = k) ∧
      (∀ k v, mapGet out k = some v → mapGet sigs k = some v ∨
        ∃ t ∈ toks, ∃ raw, FromBootstrapToken (some t) = .ok raw ∧ raw.HexID = k ∧
          h.SignDetached raw = .ok v) := by
  induction toks generalizing sigs with
  | nil =>
    refine ⟨sigs, rfl, hnd, ?_, ?_⟩
    · intro k; simp
    · intro k v hv; exact Or.inl hv
  | cons t rest ih =>
    obtain ⟨raw, sig, hraw, hsig⟩ := hsign t (List.mem_cons_self t rest)
    have hrest : ∀ t1 ∈ rest, ∃ raw sig,
        FromBootstrapToken (some t1) = .ok raw ∧ h.SignDetached raw = .ok sig :=
      fun t1 h1 => hsign t1 (List.mem_cons_of_mem t h1)
    obtain ⟨out, hout, hnd1, hkeys, hvals⟩ :=
      ih hrest (mapSet sigs raw.HexID sig) (nodup_mapKeys_mapSet sigs raw.HexID sig hnd)
    refine ⟨out, ?_, hnd1, ?_, ?_⟩
    · simp only [List.map_cons, signTokens, hraw, hsig]
      exact hout
    · intro k
      rw [hkeys, mem_mapKeys_mapSet]
      constructor
      · rintro ((hk | hk) | ⟨t1, ht1, raw1, hr1, hk1⟩)
        · exact Or.inr ⟨t, List.mem_cons_self t rest, raw, hraw, hk.symm⟩
        · exact Or.inl hk
        · exact Or.inr ⟨t1, List.mem_cons_of_mem t ht1, raw1, hr1, hk1⟩
      · rintro (hk | ⟨t1, ht1, raw1, hr1, hk1⟩)
        · exact Or.inl (Or.inr hk)
        · rcases List.mem_cons.mp ht1 with heq | hmem
          · subst heq
            rw [hraw] at hr1
            cases hr1
            exact Or.inl (Or.inl hk1.symm)
          · exact Or.inr ⟨t1, hmem, raw1, hr1, hk1⟩
    · intro k v hv
      rcases hvals k v hv with hold | ⟨t1, ht1, raw1, hr1, hk1, hs1⟩
      · by_cases hk : k = raw.HexID
        · subst hk
          rw [mapGet_mapSet_self] at hold
          cases hold
          exact Or.inr ⟨t, List.mem_cons_self t rest, raw, hraw, rfl, hsig⟩
        · rw [mapGet_mapSet_of_ne _ _ _ _ hk] at hold
          exact Or.inl hold
      · exact Or.inr ⟨t1, List.mem_cons_of_mem t ht1, raw1, hr1, hk1, hs1⟩

/-- C7 (as amended): for a join request whose Authorization header is absent or blank,
when the token store lists its tokens without error and every listed token converts and
signs: if no token is listed the response is 405; otherwise it is 200 and the
signatures map has exactly the hex ids of the listed tokens as keys, each once, and
holds under each key the signature of a listed token with that hex id. The store is
left as it was. -/
theorem handleBootstrapJoin_signatures {σ : Type} (h : ServerConfig σ) (c : Request) (s : σ)
    (toks : List BootstrapToken)
    (hhdr : TrimSpace (c.Get "Authorization") = "")
    (hlist : h.TokenStore.ListTokens s = .ok (toks.map some))
    (hsign : ∀ t ∈ toks, ∃ raw sig,
      FromBootstrapToken (some t) = .ok raw ∧ h.SignDetached raw = .ok sig) :
    (toks = [] → (handleBootstrapJoin h c s).result = SendStatus StatusMethodNotAllowed) ∧
    (toks ≠ [] → ∃ sigs,
      (handleBootstrapJoin h c s).result = .response StatusOK (.joinResponse sigs) ∧
      (mapKeys sigs).Nodup ∧
      (∀ k, k ∈ mapKeys sigs ↔
        ∃ t ∈ toks, ∃ raw, FromBootstrapToken (some t) = .ok raw ∧ raw.HexID = k) ∧
      (∀ k v, mapGet sigs k = some v →
        ∃ t ∈ toks, ∃ raw, FromBootstrapToken (some t) = .ok raw ∧ raw.HexID = k ∧
          h.SignDetached raw = .ok v)) ∧
    (handleBootstrapJoin h c s).state = s := by
  obtain ⟨out, hout, hnd, hkeys, hvals⟩ := signTokens_ok h toks hsign [] (by simp [mapKeys])
  have hresp : (bootstrapJoinResponse h s).1 = .ok out := by
    simp only [bootstrapJoinResponse, hlist]
    exact hout
  have hrun : handleBootstrapJoin h c s =
      if out.length = 0 then ⟨SendStatus StatusMethodNotAllowed, s, (bootstrapJoinResponse h s).2⟩
      else ⟨.response StatusOK (.joinResponse out), s, (bootstrapJoinResponse h s).2⟩ := by
    unfold handleBootstrapJoin
    simp only [hhdr, if_true]
    rcases hjr : bootstrapJoinResponse h s with ⟨res, tr⟩
    rw [hjr] at hresp
    simp only at hresp
    subst hresp
    rfl
  refine ⟨?_, ?_, ?_⟩
  · intro hnil
    subst hnil
    have hout0 : out = [] := by
      simp only [List.map_nil, signTokens, Except.ok.injEq] at hout
      exact hout.symm
    rw [hrun, hout0]
    rfl
  · intro hne
    obtain ⟨t, rest, htoks⟩ := List.exists_cons_of_ne_nil hne
    obtain ⟨raw, sig, hraw, -⟩ := hsign t (by rw [htoks]; exact List.mem_cons_self t rest)
    have hmem : raw.HexID ∈ mapKeys out :=
      (hkeys raw.HexID).mpr (Or.inr ⟨t, by rw [htoks]; exact List.mem_cons_self t rest, raw, hraw, rfl⟩)
    have hlen : out.length ≠ 0 := by
      intro h0
      have : out = [] := List.length_eq_zero.mp h0
      rw [this] at hmem
      simp [mapKeys] at hmem
    refine ⟨out, ?_, hnd, ?_, ?_⟩
    · rw [hrun, if_neg hlen]
    · intro k
      rw [hkeys]
      simp [mapKeys]
    · intro k v hv
      rcases hvals k v hv with hold | hnew
      · simp [mapGet] at hold
      · exact hnew
  · rw [hrun]
    split <;> rfl

/-- C7 (witness): the join request without headers on the sample store. -/
theorem handleBootstrapJoin_signatures_witness :
    TrimSpace (sampleJoinRequest.Get "Authorization") = "" ∧
    ∃ sigs,
      (handleBootstrapJoin (testServer noFaults sampleLibrary) sampleJoinRequest sampleStore).result
        = .response StatusOK (.joinResponse sigs) ∧
      (mapKeys sigs).Nodup ∧
      (∀ k, k ∈ mapKeys sigs ↔
        ∃ t ∈ [sampleToken], ∃ raw, FromBootstrapToken (some t) = .ok raw ∧ raw.HexID = k) ∧
      (∀ k v, mapGet sigs k = some v →
        ∃ t ∈ [sampleToken], ∃ raw, FromBootstrapToken (some t) = .ok raw ∧ raw.HexID = k ∧
          (testServer noFaults sampleLibrary).SignDetached raw = .ok v) :=
  ⟨by decide,
    (handleBootstrapJoin_signatures (testServer noFaults sampleLibrary) sampleJoinRequest
      sampleStore [sampleToken] (by decide) rfl
      (fun t ht => by
        rw [List.mem_singleton] at ht
        subst ht
        exact ⟨⟨[0xab], [0x01]⟩, [0x01], rfl, rfl⟩)).2.1 (by simp)⟩

/-- C7 (counterexample): a join request without an Authorization header on a token
store whose listing fails is answered 500, neither 405 when the store holds no token
nor 200 when it holds one. -/
theorem handleBootstrapJoin_store_failure :
    mapGet sampleJoinRequest.Headers "Authorization" = none ∧
    emptyStore.tks = [] ∧
    (handleBootstrapJoin (testServer listFails sampleLibrary) sampleJoinRequest emptyStore).result
      = SendStatus StatusInternalServerError ∧
    (handleBootstrapJoin (testServer listFails sampleLibrary) sampleJoinRequest emptyStore).result.status
      ≠ some StatusMethodNotAllowed ∧
    sampleStore.tks = [("ab", sampleToken)] ∧
    (handleBootstrapJoin (testServer listFails sampleLibrary) sampleJoinRequest sampleStore).result
      = SendStatus StatusInternalServerError ∧
    (handleBootstrapJoin (testServer listFails sampleLibrary) sampleJoinRequest sampleStore).result.status
      ≠ some StatusOK := by
  refine ⟨rfl, rfl, by decide, by decide, rfl, by decide, by decide⟩

/-- C8 (as amended): a join request whose Authorization header has a value that is not
blank is answered 400; the handler makes no call, so it neither reads the token store
nor signs a token, and the store is left as it was. -/
theorem handleBootstrapJoin_bad_request {σ : Type} (h : ServerConfig σ) (c : Request) (s : σ)
    (hhdr : TrimSpace (c.Get "Authorization") ≠ "") :
    (handleBootstrapJoin h c s).result = SendStatus StatusBadRequest ∧
    (handleBootstrapJoin h c s).state = s ∧
    (handleBootstrapJoin h c s).trace = [] := by
  unfold handleBootstrapJoin
  simp [hhdr]

/-- C8 (witness): the sample auth request sent to the join handler. -/
theorem handleBootstrapJoin_bad_request_witness :
    TrimSpace (sampleAuthRequest.Get "Authorization") ≠ "" ∧
    (handleBootstrapJoin (testServer noFaults sampleLibrary) sampleAuthRequest sampleStore).result
      = SendStatus StatusBadRequest ∧
    (handleBootstrapJoin (testServer noFaults sampleLibrary) sampleAuthRequest sampleStore).state
      = sampleStore ∧
    (handleBootstrapJoin (testServer noFaults sampleLibrary) sampleAuthRequest sampleStore).trace
      = [] :=
  ⟨by decide,
    handleBootstrapJoin_bad_request (testServer noFaults sampleLibrary) sampleAuthRequest
      sampleStore (by decide)⟩

/-- C8 (counterexample): a join request that carries an Authorization header with an
empty value is answered 200, and the handler reads the token store and signs a token. -/
theorem handleBootstrapJoin_empty_header :
    mapGet emptyAuthJoinRequest.Headers "Authorization" = some "" ∧
    (handleBootstrapJoin (testServer noFaults sampleLibrary) emptyAuthJoinRequest
      sampleStore).result = .response StatusOK (.joinResponse [("ab", [0x01])]) ∧
    (handleBootstrapJoin (testServer noFaults sampleLibrary) emptyAuthJoinRequest
      sampleStore).result.status ≠ some StatusBadRequest ∧
    (handleBootstrapJoin (testServer noFaults sampleLibrary) emptyAuthJoinRequest
      sampleStore).trace = [⟨.ListTokens, true⟩, ⟨.SignDetached ⟨[0xab], [0x01]⟩, true⟩] := by
  refine ⟨rfl, by decide, by decide, by decide⟩

/-! ## What a keyring put leaves alone -/

theorem clientGet_append_of_ne {α : Type} (objs : List (Object α)) (ns name : String)
    (o : Object α) (hne : ¬ (o.Namespace = ns ∧ o.Name = name)) :
    clientGet (objs ++ [o]) ns name = clientGet objs ns name := by
  induction objs with
  | nil => simp [clientGet, hne]
  | cons o1 rest ih =>
    by_cases h1 : o1.Namespace = ns ∧ o1.Name = name
    · simp [clientGet, h1]
    · simp only [List.cons_append, clientGet, if_neg h1]
      exact ih

theorem clientGet_replaceObject_of_ne {α : Type} (objs : List (Object α)) (ns name : String)
    (n : Object α) (hne : ¬ (n.Namespace = ns ∧ n.Name = name)) :
    clientGet (replaceObject objs n) ns name = clientGet objs ns name := by
  induction objs with
  | nil => rfl
  | cons o1 rest ih =>
    unfold replaceObject
    by_cases hk : o1.Namespace = n.Namespace ∧ o1.Name = n.Name
    · have h1 : ¬ (o1.Namespace = ns ∧ o1.Name = name) := by
        rw [hk.1, hk.2]; exact hne
      rw [if_pos hk]
      simp only [clientGet, if_neg hne, if_neg h1]
    · rw [if_neg hk]
      by_cases h1 : o1.Namespace = ns ∧ o1.Name = name
      · simp only [clientGet, if_pos h1]
      · simp only [clientGet, if_neg h1]
        exact ih

/-- A retried function that keeps a property of the state keeps it over all retries. -/
theorem retryOnError_preserves {σ : Type} (P : σ → Prop) (retriable : Err → Bool)
    (fn : σ → Option Err × σ) (hfn : ∀ s, P s → P (fn s).2) (steps : Nat) :
    ∀ (lastErr : Option Err) (s : σ), P s → P (retryOnError retriable fn steps lastErr s).2 := by
  induction steps with
  | zero => intro lastErr s hs; exact hs
  | succ n ih =>
    intro lastErr s hs
    have h1 := hfn s hs
    unfold retryOnError
    rcases hres : fn s with ⟨_ | err, s1⟩
    · rw [hres] at h1; exact h1
    · rw [hres] at h1
      simp only
      split
      · exact ih (some err) s1 h1
      · exact h1

/-- A put through a custom-resource keyring store leaves the object of every other
namespace and reference id as it was: stores are scoped by namespace and id. -/
theorem crdKeyringStore_put_frame (ks : crdKeyringStore) (codec : KeyringCodec) (now : Int)
    (k : Keyring) (api : ApiServer) (ns ref : String)
    (hne : ¬ (ks.Namespace = ns ∧ ks.ref = ref)) :
    clientGet (ks.Put codec now k api).2.Keyrings ns ref = clientGet api.Keyrings ns ref := by
  unfold crdKeyringStore.Put
  cases hm : codec.Marshal k with
  | error e => rfl
  | ok data =>
    simp only
    cases hget : clientGet api.Keyrings ks.Namespace ks.ref with
    | error err =>
      have herr := clientGet_error _ _ _ _ hget
      subst herr
      simp only [IsNotFound, Bool.not_true, Bool.false_eq_true, if_false, clientCreate, hget]
      exact clientGet_append_of_ne _ _ _ _ hne
    | ok kr =>
      simp only
      refine retryOnError_preserves
        (fun a => clientGet a.Keyrings ns ref = clientGet api.Keyrings ns ref) IsConflict
        (putAttempt ks data) ?_ ks.defaultBackoffSteps none api rfl
      intro a ha
      unfold putAttempt
      cases hg : clientGet a.Keyrings ks.Namespace ks.ref with
      | error e => exact ha
      | ok cur =>
        obtain ⟨hns, hname⟩ := clientGet_ok_key _ _ _ _ hg
        have hg1 : clientGet a.Keyrings cur.Namespace cur.Name = .ok cur := by
          rw [hns, hname]; exact hg
        simp only [clientUpdate, hg1]
        split
        · exact ha
        · simp only
          rw [clientGet_replaceObject_of_ne _ _ _ _ (by rw [hns, hname]; exact hne)]
          exact ha

/-- A put through a test keyring store leaves the keyring of every other concatenation
of namespace and id as it was. -/
theorem testBrokerPut_frame (p1 id1 p2 id2 : String) (kr : Keyring) (s : MemStore)
    (hne : p2 ++ id2 ≠ p1 ++ id1) :
    testBrokerGet p2 id2 (testBrokerPut p1 id1 kr s).2 = testBrokerGet p2 id2 s := by
  simp [testBrokerGet, testBrokerPut, NewTestKeyringStoreBroker, NewTestKeyringStore,
    mapGet_mapSet_of_ne _ _ _ _ hne]

/-! ## UpdateToken -/

/-- A retry under the empty schedule is a retry of the plain attempt. -/
theorem retry_updateTokenAttemptUnder_nil (c : CRDStore) (ref : String)
    (m : BootstrapToken → BootstrapToken) (steps : Nat) :
    ∀ (lastErr : Option Err) (s : ApiServer × Option BootstrapToken),
      retryOnError IsConflict (updateTokenAttemptUnder c ref m) steps lastErr (s, [])
        = ((retryOnError IsConflict (updateTokenAttempt c ref m) steps lastErr s).1,
           ((retryOnError IsConflict (updateTokenAttempt c ref m) steps lastErr s).2, [])) := by
  induction steps with
  | zero => intro lastErr s; rfl
  | succ n ih =>
    intro lastErr s
    have hstep : updateTokenAttemptUnder c ref m (s, [])
        = ((updateTokenAttempt c ref m s).1, ((updateTokenAttempt c ref m s).2, [])) := by
      unfold updateTokenAttemptUnder updateTokenAttempt
      cases hg : clientGet s.1.BootstrapTokens c.Namespace ref <;> simp [hg]
    unfold retryOnError
    rw [hstep]
    rcases hres : updateTokenAttempt c ref m s with ⟨_ | err, s1⟩
    · rfl
    · simp only
      split
      · exact ih (some err) s1
      · rfl

/-- Without concurrent writers the scheduled run is `UpdateToken` itself. -/
theorem UpdateTokenUnder_nil (c : CRDStore) (ref : String)
    (m : BootstrapToken → BootstrapToken) (api : ApiServer) :
    c.UpdateTokenUnder [] ref m api = c.UpdateToken ref m api := by
  unfold CRDStore.UpdateTokenUnder CRDStore.UpdateToken
  rw [retry_updateTokenAttemptUnder_nil]
  rcases retryOnError IsConflict (updateTokenAttempt c ref m) c.defaultBackoffSteps none
    (api, none) with ⟨_ | err, s1⟩ <;> rfl

/-- The retry loop of `UpdateToken` on a stored token while other clients write the
contents `xs` to it, one between the read and the write of each attempt: after as many
conflicts the attempt that reads the last content written succeeds and stores the
mutated form of that content. -/
theorem retry_updateToken_conflicts (c : CRDStore) (ref : String)
    (m : BootstrapToken → BootstrapToken) (xs : List BootstrapToken) :
    ∀ (steps : Nat) (lastErr : Option Err) (tok : Option BootstrapToken) (api : ApiServer)
      (existing : Object BootstrapToken),
      xs.length < steps →
      clientGet api.BootstrapTokens c.Namespace ref = .ok existing →
      existing.ResourceVersion ≠ 0 →
      ∃ api1 o,
        retryOnError IsConflict (updateTokenAttemptUnder c ref m) steps lastErr
          ((api, tok), xs.map (concurrentUpdate c ref))
          = (none, ((api1, some (m (lastWritten existing.Content xs))), [])) ∧
        clientGet api1.BootstrapTokens c.Namespace ref = .ok o ∧
        o.Content = m (lastWritten existing.Content xs) ∧
        api1.Keyrings = api.Keyrings ∧
        ∀ ns name, ¬ (c.Namespace = ns ∧ ref = name) →
          clientGet api1.BootstrapTokens ns name = clientGet api.BootstrapTokens ns name := by
  induction xs with
  | nil =>
    intro steps lastErr tok api existing hlen hget hrv
    obtain ⟨n, rfl⟩ := Nat.exists_eq_succ_of_ne_zero (Nat.pos_iff_ne_zero.mp hlen)
    obtain ⟨hns, hname⟩ := clientGet_ok_key _ _ _ _ hget
    have hget1 : clientGet api.BootstrapTokens existing.Namespace existing.Name = .ok existing := by
      rw [hns, hname]; exact hget
    let stored : Object BootstrapToken :=
      { existing with Content := m existing.Content,
                      ResourceVersion := existing.ResourceVersion + 1 }
    let apiS : ApiServer := { api with BootstrapTokens := replaceObject api.BootstrapTokens stored }
    refine ⟨apiS, stored, ?_, ?_, rfl, rfl, ?_⟩
    · simp [retryOnError, updateTokenAttemptUnder, hget, clientUpdate, hget1, lastWritten,
        apiS, stored]
    · have hrep := clientGet_replaceObject api.BootstrapTokens stored existing hget1
      rw [← hns, ← hname]
      exact hrep
    · intro ns name hne
      exact clientGet_replaceObject_of_ne _ _ _ _ (by
        show ¬ (existing.Namespace = ns ∧ existing.Name = name)
        rw [hns, hname]; exact hne)
  | cons x rest ih =>
    intro steps lastErr tok api existing hlen hget hrv
    obtain ⟨n, rfl⟩ := Nat.exists_eq_succ_of_ne_zero (Nat.pos_iff_ne_zero.mp
      (Nat.lt_of_le_of_lt (Nat.zero_le _) hlen))
    have hlen1 : rest.length < n := by simpa using hlen
    obtain ⟨hns, hname⟩ := clientGet_ok_key _ _ _ _ hget
    have hget1 : clientGet api.BootstrapTokens existing.Namespace existing.Name = .ok existing := by
      rw [hns, hname]; exact hget
    -- the state after the other client's write
    let written : Object BootstrapToken :=
      { existing with Content := x, ResourceVersion := existing.ResourceVersion + 1 }
    let apiW : ApiServer :=
      { api with BootstrapTokens := replaceObject api.BootstrapTokens written }
    have hW : concurrentUpdate c ref x api = apiW := by
      simp [concurrentUpdate, hget, clientUpdate, hget1, apiW, written]
    have hgetW : clientGet apiW.BootstrapTokens c.Namespace ref = .ok written := by
      have hrep := clientGet_replaceObject api.BootstrapTokens written existing hget1
      rw [← hns, ← hname]
      exact hrep
    have hgetW1 : clientGet apiW.BootstrapTokens existing.Namespace existing.Name = .ok written := by
      rw [hns, hname]; exact hgetW
    obtain ⟨api1, o, hrun, hgo, hco, hkr, hframe⟩ :=
      ih n (some (.k8sConflict existing.Name)) (some (m existing.Content)) apiW written hlen1
        hgetW (by simp [written])
    refine ⟨api1, o, ?_, hgo, ?_, ?_, ?_⟩
    · have hstep : updateTokenAttemptUnder c ref m ((api, tok),
          (x :: rest).map (concurrentUpdate c ref))
          = (some (.k8sConflict existing.Name),
              ((apiW, some (m existing.Content)), rest.map (concurrentUpdate c ref))) := by
        simp only [updateTokenAttemptUnder, hget, List.map_cons, hW, clientUpdate, hgetW1,
          List.tail_cons]
        have hc : existing.ResourceVersion ≠ 0 ∧ existing.ResourceVersion ≠ written.ResourceVersion := by
          refine ⟨hrv, ?_⟩
          simp [written]
        rw [if_pos hc]
      unfold retryOnError
      rw [hstep]
      simp only [IsConflict, if_true]
      exact hrun
    · exact hco
    · rw [hkr]
    · intro ns name hne
      rw [hframe ns name hne]
      exact clientGet_replaceObject_of_ne _ _ _ _ (by
        show ¬ (existing.Namespace = ns ∧ existing.Name = name)
        rw [hns, hname]; exact hne)

/-- C11: `UpdateToken` is a read-modify-write. In the custom-resource store, when no
token is stored under `ref` it returns `storage.ErrNotFound` and leaves the API server
as it was; when a token is stored and other clients write the contents `xs` to it, one
between the read and the write of each attempt (fewer than the backoff has steps), the
call returns the mutator applied once to the content read last, which is then the
content stored under `ref`, and leaves every other token and the keyrings as they were;
without other writers this is the mutator applied to the stored token. In the test
store, when no token is stored under `ref` it returns `storage.ErrNotFound` and leaves
the store as it was; otherwise it returns the mutator applied to a clone of the stored
token, stores it under `ref` and leaves the other tokens as they were. -/
theorem UpdateToken_read_modify_write (c : CRDStore) (ref : String)
    (m : BootstrapToken → BootstrapToken) (api : ApiServer) (xs : List BootstrapToken)
    (existing : Object BootstrapToken) (s : MemStore) (tok : BootstrapToken)
    (hsteps : xs.length < c.defaultBackoffSteps)
    (hget : clientGet api.BootstrapTokens c.Namespace ref = .ok existing)
    (hrv : existing.ResourceVersion ≠ 0)
    (htest : mapGet s.tks ref = some tok) :
    (∀ api0 e0, clientGet api0.BootstrapTokens c.Namespace ref = .error e0 →
      c.UpdateToken ref m api0 = (.error .ErrNotFound, api0)) ∧
    (c.UpdateTokenUnder (xs.map (concurrentUpdate c ref)) ref m api).1
      = .ok (some (m (lastWritten existing.Content xs))) ∧
    (∃ o, clientGet
        (c.UpdateTokenUnder (xs.map (concurrentUpdate c ref)) ref m api).2.BootstrapTokens
        c.Namespace ref = .ok o ∧
      o.Content = m (lastWritten existing.Content xs)) ∧
    (∀ ns name, ¬ (c.Namespace = ns ∧ ref = name) →
      clientGet
        (c.UpdateTokenUnder (xs.map (concurrentUpdate c ref)) ref m api).2.BootstrapTokens
        ns name = clientGet api.BootstrapTokens ns name) ∧
    (c.UpdateTokenUnder (xs.map (concurrentUpdate c ref)) ref m api).2.Keyrings
      = api.Keyrings ∧
    c.UpdateTokenUnder [] ref m api = c.UpdateToken ref m api ∧
    (∀ s0, mapGet s0.tks ref = none →
      testUpdateToken ref m s0 = (.error .ErrNotFound, s0)) ∧
    (testUpdateToken ref m s).1 = .ok (m tok) ∧
    mapGet (testUpdateToken ref m s).2.tks ref = some (m tok) ∧
    (∀ k, k ≠ ref → mapGet (testUpdateToken ref m s).2.tks k = mapGet s.tks k) ∧
    (testUpdateToken ref m s).2.clusters = s.clusters ∧
    (testUpdateToken ref m s).2.keyrings = s.keyrings := by
  have hpos : 0 < c.defaultBackoffSteps := Nat.lt_of_le_of_lt (Nat.zero_le _) hsteps
  obtain ⟨api1, o, hrun, hgo, hco, hkr, hframe⟩ :=
    retry_updateToken_conflicts c ref m xs c.defaultBackoffSteps none none api existing
      hsteps hget hrv
  have hres : c.UpdateTokenUnder (xs.map (concurrentUpdate c ref)) ref m api
      = (.ok (some (m (lastWritten existing.Content xs))), api1) := by
    unfold CRDStore.UpdateTokenUnder
    rw [hrun]
  refine ⟨?_, ?_, ?_, ?_, ?_, UpdateTokenUnder_nil c ref m api, ?_, ?_, ?_, ?_, ?_, ?_⟩
  · intro api0 e0 h0
    obtain ⟨n, hn⟩ := Nat.exists_eq_succ_of_ne_zero (Nat.pos_iff_ne_zero.mp hpos)
    have he := clientGet_error _ _ _ _ h0
    subst he
    simp [CRDStore.UpdateToken, hn, retryOnError, updateTokenAttempt, h0, IsConflict,
      IsNotFound]
  · rw [hres]
  · rw [hres]; exact ⟨o, hgo, hco⟩
  · rw [hres]; exact hframe
  · rw [hres]; exact hkr
  · intro s0 h0
    simp [testUpdateToken, h0]
  · simp [testUpdateToken, htest]
  · simp [testUpdateToken, htest, mapGet_mapSet_self]
  · intro k hk
    simp [testUpdateToken, htest, mapGet_mapSet_of_ne _ _ _ _ hk]
  · simp [testUpdateToken, htest]
  · simp [testUpdateToken, htest]

/-- C11 (witness): an increment of the usage count of the sample token while another
client writes the live token's content to the same object once. -/
theorem UpdateToken_read_modify_write_witness :
    [liveTokenAt2].length < sampleCRDStore.defaultBackoffSteps ∧
    sampleCRDStore.UpdateToken "zz" incrementUsage sampleApiServer
      = (.error .ErrNotFound, sampleApiServer) ∧
    (sampleCRDStore.UpdateTokenUnder ([liveTokenAt2].map (concurrentUpdate sampleCRDStore "ab"))
      "ab" incrementUsage sampleApiServer).1 = .ok (some (incrementUsage liveTokenAt2)) ∧
    (testUpdateToken "ab" incrementUsage sampleStore).1 = .ok (incrementUsage sampleToken) :=
  ⟨by decide,
    (UpdateToken_read_modify_write sampleCRDStore "zz" incrementUsage
      { BootstrapTokens := [⟨"zz", "opni", 0, 1, sampleToken⟩], Keyrings := [] } []
      ⟨"zz", "opni", 0, 1, sampleToken⟩ { sampleStore with tks := [("zz", sampleToken)] }
      sampleToken (by decide) rfl (by decide) rfl).1 sampleApiServer (.k8sNotFound "zz") rfl,
    (UpdateToken_read_modify_write sampleCRDStore "ab" incrementUsage sampleApiServer
      [liveTokenAt2]
      ⟨"ab", "opni", 0, 1,
        { sampleToken with Metadata := { sampleToken.Metadata with Ttl := 1 } }⟩
      sampleStore sampleToken (by decide) rfl (by decide) rfl).2.1,
    (UpdateToken_read_modify_write sampleCRDStore "ab" incrementUsage sampleApiServer
      [liveTokenAt2]
      ⟨"ab", "opni", 0, 1,
        { sampleToken with Metadata := { sampleToken.Metadata with Ttl := 1 } }⟩
      sampleStore sampleToken (by decide) rfl (by decide) rfl).2.2.2.2.2.2.2.1⟩

/-! ## Token creation -/

/-- The time to live of a token created by the test token store is the requested
duration itself, a count of nanoseconds. -/
theorem testCreateToken_ttl (newToken : Token) (leaseID ttl : Int) (labels : Labels)
    (capabilities : List String) (s : MemStore) :
    (testCreateToken newToken leaseID ttl labels capabilities s).1.map
      (fun t => t.Metadata.Ttl) = .ok ttl := rfl

/-- C12 (failing input): a token created with a time to live of one minute. The
custom-resource store returns a token with a usage count of 0, the labels and
capabilities supplied and a time to live of 60; the test store returns the same token
with a time to live of 60000000000, the duration in nanoseconds. -/
theorem CreateToken_ttl_units :
    (sampleCRDStore.CreateToken drawnToken 0 oneMinute [("env", "dev")] ["join"]
      emptyApiServer).1.map (fun t => t.Metadata)
      = .ok { LeaseID := -1, Ttl := 60, UsageCount := 0, Labels := [("env", "dev")],
              Capabilities := ["join"] } ∧
    (testCreateToken drawnToken 7 oneMinute [("env", "dev")] ["join"] emptyStore).1.map
      (fun t => t.Metadata)
      = .ok { LeaseID := 7, Ttl := 60000000000, UsageCount := 0, Labels := [("env", "dev")],
              Capabilities := ["join"] } := by
  refine ⟨by rfl, by rfl⟩

/-! ## Agent bootstrap -/

/-- The puts of the persist loop are puts of the new keyring. -/
theorem persistKeyring_trace {σ : Type} (ks : KeyringStore σ) (K : Keyring) :
    ∀ (fuel : Nat) (s s1 : σ) (tr : List AgentEvent),
      persistKeyring ks K fuel s = some (s1, tr) → ∀ e ∈ tr, e.call = .Put K := by
  intro fuel
  induction fuel with
  | zero => intro s s1 tr h; simp [persistKeyring] at h
  | succ n ih =>
    intro s s1 tr h
    unfold persistKeyring at h
    rcases hput : ks.Put K s with ⟨_ | err, s2⟩
    · rw [hput] at h
      simp only [Option.some.injEq, Prod.mk.injEq] at h
      obtain ⟨-, rfl⟩ := h
      intro e he
      simp only [List.mem_singleton] at he
      subst he
      rfl
    · rw [hput] at h
      simp only at h
      cases hrec : persistKeyring ks K n s2 with
      | none => rw [hrec] at h; cases h
      | some p =>
        obtain ⟨s3, tr3⟩ := p
        rw [hrec] at h
        simp only [Option.some.injEq, Prod.mk.injEq] at h
        obtain ⟨-, rfl⟩ := h
        intro e he
        rcases List.mem_cons.mp he with rfl | hmem
        · rfl
        · exact ih s2 s3 tr3 hrec e hmem

theorem countCalls_persist {σ : Type} (ks : KeyringStore σ) (K : Keyring) (fuel : Nat)
    (s s1 : σ) (tr : List AgentEvent) (call : AgentCall) (hcall : call ≠ .Put K)
    (hrun : persistKeyring ks K fuel s = some (s1, tr)) : countCalls call tr = 0 := by
  unfold countCalls
  rw [List.length_eq_zero, List.filter_eq_nil_iff]
  intro e he
  have := persistKeyring_trace ks K fuel s s1 tr hrun e he
  simp [this, Ne.symm hcall]

theorem countCalls_append (call : AgentCall) (a b : List AgentEvent) :
    countCalls call (a ++ b) = countCalls call a + countCalls call b := by
  simp [countCalls]

/-- When the first `n` puts fail and the next one succeeds, the persist loop with more
than `n` puts of fuel ends after exactly those `n + 1` puts. -/
theorem persistKeyring_of_failures {σ : Type} (ks : KeyringStore σ) (K : Keyring) :
    ∀ (n fuel : Nat) (s sn s1 : σ), afterFailedPuts ks K n s = some sn →
      ks.Put K sn = (none, s1) → n < fuel →
      persistKeyring ks K fuel s
        = some (s1, List.replicate n ⟨.Put K, false⟩ ++ [⟨.Put K, true⟩]) := by
  intro n
  induction n with
  | zero =>
    intro fuel s sn s1 hfail hput hfuel
    obtain ⟨f, rfl⟩ := Nat.exists_eq_succ_of_ne_zero (Nat.pos_iff_ne_zero.mp hfuel)
    simp only [afterFailedPuts, Option.some.injEq] at hfail
    subst hfail
    simp [persistKeyring, hput]
  | succ k ih =>
    intro fuel s sn s1 hfail hput hfuel
    obtain ⟨f, rfl⟩ := Nat.exists_eq_succ_of_ne_zero
      (Nat.pos_iff_ne_zero.mp (Nat.lt_of_le_of_lt (Nat.zero_le _) hfuel))
    have hf : k < f := by omega
    unfold afterFailedPuts at hfail
    rcases hp : ks.Put K s with ⟨_ | err, s2⟩
    · rw [hp] at hfail; cases hfail
    · rw [hp] at hfail
      simp only at hfail
      unfold persistKeyring
      rw [hp]
      simp only [ih f s2 sn s1 hfail hput hf, List.replicate_succ, List.cons_append]

/-- C13: `Agent.bootstrap` calls `Bootstrap` if and only if the first `Get` of the
keyring store returns an error that is `storage.ErrNotFound`. When `Get` returns a
keyring, the calls are the get, the finalization and the get of the load: no
`Bootstrap`, no `Put`, the store is left as it was and the keyring returned is the
stored one. When `Get` fails with another error, that error is returned after the get
alone. -/
theorem Agent_bootstrap_only_when_absent {σ : Type} (ks : KeyringStore σ) (b : Bootstrapper)
    (fuel : Nat) (s : σ) :
    (∀ kr, ks.Get s = .ok kr →
      Agent.bootstrap ks b fuel s
        = some ⟨.ok kr, s, [⟨.Get, true⟩, ⟨.Finalize, b.Finalize.isNone⟩, ⟨.Get, true⟩]⟩) ∧
    (∀ err, ks.Get s = .error err → errorsIs err .ErrNotFound = false →
      Agent.bootstrap ks b fuel s
        = some ⟨.error (.wrapped "error loading keyring" err), s, [⟨.Get, false⟩]⟩) ∧
    (∀ run, Agent.bootstrap ks b fuel s = some run →
      (0 < countCalls .Bootstrap run.trace ↔
        ∃ err, ks.Get s = .error err ∧ errorsIs err .ErrNotFound = true)) ∧
    (Agent.bootstrap ks b fuel s = none →
      ∃ err, ks.Get s = .error err ∧ errorsIs err .ErrNotFound = true) := by
  refine ⟨?_, ?_, ?_, ?_⟩
  · intro kr hget
    simp [Agent.bootstrap, hget, finishBootstrap, loadKeyring]
  · intro err hget hnf
    simp [Agent.bootstrap, hget, hnf]
  · intro run hrun
    unfold Agent.bootstrap at hrun
    cases hget : ks.Get s with
    | ok kr =>
      rw [hget] at hrun
      simp only [Option.some.injEq] at hrun
      subst hrun
      simp [finishBootstrap, loadKeyring, hget, countCalls]
    | error err =>
      rw [hget] at hrun
      simp only at hrun
      cases hnf : errorsIs err .ErrNotFound with
      | false =>
        simp only [hnf, Bool.false_eq_true, if_false, Option.some.injEq] at hrun
        subst hrun
        simp [countCalls, hnf]
      | true =>
        simp only [hnf, if_true] at hrun
        cases hb : b.Bootstrap with
        | error e1 =>
          rw [hb] at hrun
          simp only [Option.some.injEq] at hrun
          subst hrun
          simp [countCalls, hnf]
        | ok K =>
          rw [hb] at hrun
          simp only at hrun
          cases hp : persistKeyring ks K fuel s with
          | none => rw [hp] at hrun; cases hrun
          | some p =>
            obtain ⟨s1, tr⟩ := p
            rw [hp] at hrun
            simp only [Option.some.injEq] at hrun
            subst hrun
            simp [finishBootstrap, countCalls, hnf]
  · intro hnone
    unfold Agent.bootstrap at hnone
    cases hget : ks.Get s with
    | ok kr => rw [hget] at hnone; cases hnone
    | error err =>
      rw [hget] at hnone
      simp only at hnone
      cases hnf : errorsIs err .ErrNotFound with
      | false => simp [hnf] at hnone
      | true => exact ⟨err, rfl, hnf⟩

/-- C13 (witness): an agent whose store already holds a keyring, and an agent whose
store cannot be read. -/
theorem Agent_bootstrap_only_when_absent_witness :
    Agent.bootstrap flakyKeyringStore sampleBootstrapper 3 (2, some otherKeyring)
      = some ⟨.ok otherKeyring, (2, some otherKeyring),
          [⟨.Get, true⟩, ⟨.Finalize, true⟩, ⟨.Get, true⟩]⟩ ∧
    Agent.bootstrap brokenKeyringStore sampleBootstrapper 3 ()
      = some ⟨.error (.wrapped "error loading keyring" (.other "keyring store unavailable")),
          (), [⟨.Get, false⟩]⟩ :=
  ⟨(Agent_bootstrap_only_when_absent flakyKeyringStore sampleBootstrapper 3
      (2, some otherKeyring)).1 otherKeyring rfl,
    (Agent_bootstrap_only_when_absent brokenKeyringStore sampleBootstrapper 3 ()).2.1
      (.other "keyring store unavailable") rfl (by decide)⟩

/-- C14: when the keyring store holds no keyring, `Bootstrap` returns the keyring `K`,
and the put of `K` fails `n` times and then succeeds, `Agent.bootstrap` (given fuel for
more than `n` puts) returns; it has called `Bootstrap` once and `Put` exactly `n + 1`
times, each time with `K`, and what it returns is the result of loading the keyring
from the store the successful put left: no failed put makes it return an error. -/
theorem Agent_bootstrap_persists {σ : Type} (ks : KeyringStore σ) (b : Bootstrapper)
    (K : Keyring) (n fuel : Nat) (s sn s1 : σ) (err : Err)
    (hget : ks.Get s = .error err) (hnf : errorsIs err .ErrNotFound = true)
    (hb : b.Bootstrap = .ok K)
    (hfail : afterFailedPuts ks K n s = some sn) (hput : ks.Put K sn = (none, s1))
    (hfuel : n < fuel) :
    ∃ run, Agent.bootstrap ks b fuel s = some run ∧
      run.result = (loadKeyring ks s1).1 ∧
      run.state = s1 ∧
      run.trace = [⟨.Get, false⟩, ⟨.Bootstrap, true⟩] ++ List.replicate n ⟨.Put K, false⟩
        ++ [⟨.Put K, true⟩, ⟨.Finalize, b.Finalize.isNone⟩] ++ (loadKeyring ks s1).2 ∧
      countCalls .Bootstrap run.trace = 1 ∧
      countCalls (.Put K) run.trace = n + 1 ∧
      (∀ e ∈ run.trace, ∀ K1, e.call = .Put K1 → K1 = K) := by
  have hp := persistKeyring_of_failures ks K n fuel s sn s1 hfail hput hfuel
  have htr : ∀ tr : List AgentEvent, (∀ e ∈ tr, e.call = .Get) →
      countCalls .Bootstrap tr = 0 ∧ countCalls (.Put K) tr = 0 := by
    intro tr h
    constructor <;>
    · unfold countCalls
      rw [List.length_eq_zero, List.filter_eq_nil_iff]
      intro e he
      simp [h e he]
  have hload : ∀ e ∈ (loadKeyring ks s1).2, e.call = .Get := by
    intro e he
    unfold loadKeyring at he
    split at he <;> simp at he <;> subst he <;> rfl
  have hrep : ∀ (k : Nat), countCalls .Bootstrap (List.replicate k ⟨.Put K, false⟩) = 0 ∧
      countCalls (.Put K) (List.replicate k ⟨.Put K, false⟩) = k := by
    intro k
    induction k with
    | zero => simp [countCalls]
    | succ j ih =>
      obtain ⟨h1, h2⟩ := ih
      simp only [countCalls] at h1 h2 ⊢
      simp [List.replicate_succ, List.filter_cons, h1, h2]
  refine ⟨finishBootstrap ks b s1 ([⟨.Get, false⟩, ⟨.Bootstrap, true⟩] ++
    (List.replicate n ⟨.Put K, false⟩ ++ [⟨.Put K, true⟩])), ?_, rfl, rfl, ?_, ?_, ?_, ?_⟩
  · simp [Agent.bootstrap, hget, hnf, hb, hp]
  · simp [finishBootstrap]
  · simp only [finishBootstrap, countCalls_append, (htr _ hload).1, (hrep n).1]
    simp [countCalls]
  · simp only [finishBootstrap, countCalls_append, (htr _ hload).2, (hrep n).2]
    simp [countCalls]
  · intro e he K1 hK1
    simp only [finishBootstrap, List.mem_append, List.mem_cons, List.mem_singleton,
      List.mem_replicate, List.not_mem_nil, or_false] at he
    rcases he with (((rfl | rfl) | ⟨-, rfl⟩ | rfl) | rfl) | hl
    · cases hK1
    · cases hK1
    · cases hK1; rfl
    · cases hK1; rfl
    · cases hK1
    · rw [hload e hl] at hK1; cases hK1

/-- C14 (witness): a store whose first two puts fail. -/
theorem Agent_bootstrap_persists_witness :
    afterFailedPuts flakyKeyringStore sampleKeyring 2 (2, none) = some (0, none) ∧
    ∃ run, Agent.bootstrap flakyKeyringStore sampleBootstrapper 3 (2, none) = some run ∧
      run.result = (loadKeyring flakyKeyringStore (0, some sampleKeyring)).1 ∧
      run.state = (0, some sampleKeyring) ∧
      run.trace = [⟨.Get, false⟩, ⟨.Bootstrap, true⟩]
        ++ List.replicate 2 ⟨.Put sampleKeyring, false⟩
        ++ [⟨.Put sampleKeyring, true⟩, ⟨.Finalize, sampleBootstrapper.Finalize.isNone⟩]
        ++ (loadKeyring flakyKeyringStore (0, some sampleKeyring)).2 ∧
      countCalls .Bootstrap run.trace = 1 ∧
      countCalls (.Put sampleKeyring) run.trace = 2 + 1 ∧
      (∀ e ∈ run.trace, ∀ K1, e.call = .Put K1 → K1 = sampleKeyring) :=
  ⟨rfl,
    Agent_bootstrap_persists flakyKeyringStore sampleBootstrapper sampleKeyring 2 3 (2, none)
      (0, none) (0, some sampleKeyring) .ErrNotFound rfl (by decide) rfl rfl rfl (by decide)⟩

theorem countCalls_loadKeyring {σ : Type} (ks : KeyringStore σ) (s : σ) (call : AgentCall)
    (hcall : call ≠ .Get) : countCalls call (loadKeyring ks s).2 = 0 := by
  unfold loadKeyring countCalls
  split <;> simp [Ne.symm hcall]

/-- C15: what `Agent.bootstrap` returns and the store it leaves do not depend on what
`Finalize` returns. A run in which `Bootstrap` was called and succeeded calls `Finalize`
exactly once; a run in which `Bootstrap` was called and failed does not call
`Finalize` and returns an error. -/
theorem Agent_bootstrap_finalize {σ : Type} (ks : KeyringStore σ) (b : Bootstrapper)
    (fuel : Nat) (s : σ) :
    (∀ fin, (Agent.bootstrap ks { b with Finalize := fin } fuel s).map
        (fun r => (r.result, r.state))
      = (Agent.bootstrap ks b fuel s).map (fun r => (r.result, r.state))) ∧
    (∀ run, Agent.bootstrap ks b fuel s = some run → ⟨.Bootstrap, true⟩ ∈ run.trace →
      countCalls .Finalize run.trace = 1) ∧
    (∀ run, Agent.bootstrap ks b fuel s = some run → ⟨.Bootstrap, false⟩ ∈ run.trace →
      countCalls .Finalize run.trace = 0 ∧ ∃ e, run.result = .error e) := by
  refine ⟨?_, ?_, ?_⟩
  · intro fin
    unfold Agent.bootstrap
    cases ks.Get s with
    | ok kr => rfl
    | error err =>
      simp only
      split
      · cases b.Bootstrap with
        | error e1 => rfl
        | ok K =>
          simp only
          cases persistKeyring ks K fuel s with
          | none => rfl
          | some p => rfl
      · rfl
  · intro run hrun hmem
    unfold Agent.bootstrap at hrun
    cases hget : ks.Get s with
    | ok kr =>
      rw [hget] at hrun
      simp only [Option.some.injEq] at hrun
      subst hrun
      simp [finishBootstrap, loadKeyring, hget] at hmem
    | error err =>
      rw [hget] at hrun
      simp only at hrun
      split at hrun
      · cases hb : b.Bootstrap with
        | error e1 =>
          rw [hb] at hrun
          simp only [Option.some.injEq] at hrun
          subst hrun
          simp at hmem
        | ok K =>
          rw [hb] at hrun
          simp only at hrun
          cases hp : persistKeyring ks K fuel s with
          | none => rw [hp] at hrun; cases hrun
          | some p =>
            obtain ⟨s1, tr⟩ := p
            rw [hp] at hrun
            simp only [Option.some.injEq] at hrun
            subst hrun
            simp only [finishBootstrap, countCalls_append,
              countCalls_persist ks K fuel s s1 tr .Finalize (by simp) hp,
              countCalls_loadKeyring ks s1 .Finalize (by simp)]
            simp [countCalls]
      · simp only [Option.some.injEq] at hrun
        subst hrun
        simp at hmem
  · intro run hrun hmem
    unfold Agent.bootstrap at hrun
    cases hget : ks.Get s with
    | ok kr =>
      rw [hget] at hrun
      simp only [Option.some.injEq] at hrun
      subst hrun
      simp [finishBootstrap, loadKeyring, hget] at hmem
    | error err =>
      rw [hget] at hrun
      simp only at hrun
      split at hrun
      · cases hb : b.Bootstrap with
        | error e1 =>
          rw [hb] at hrun
          simp only [Option.some.injEq] at hrun
          subst hrun
          simp [countCalls]
        | ok K =>
          rw [hb] at hrun
          simp only at hrun
          cases hp : persistKeyring ks K fuel s with
          | none => rw [hp] at hrun; cases hrun
          | some p =>
            obtain ⟨s1, tr⟩ := p
            rw [hp] at hrun
            simp only [Option.some.injEq] at hrun
            subst hrun
            exfalso
            simp only [finishBootstrap, List.mem_append, List.mem_cons, List.mem_singleton,
              List.not_mem_nil, or_false] at hmem
            rcases hmem with ((( h | h) | h) | h) | h
            · cases h
            · cases h
            · have := persistKeyring_trace ks K fuel s s1 tr hp _ h
              cases this
            · cases h
            · unfold loadKeyring at h
              split at h <;> simp at h
      · simp only [Option.some.injEq] at hrun
        subst hrun
        simp at hmem

/-- C15 (witness): the agent of the first-time bootstrap with a finalization that
fails, and the agent whose bootstrap fails. -/
theorem Agent_bootstrap_finalize_witness :
    (Agent.bootstrap flakyKeyringStore
        { sampleBootstrapper with Finalize := some (.other "cleanup failed") } 3 (2, none)).map
        (fun r => (r.result, r.state))
      = (Agent.bootstrap flakyKeyringStore sampleBootstrapper 3 (2, none)).map
        (fun r => (r.result, r.state)) ∧
    (Agent.bootstrap flakyKeyringStore sampleBootstrapper 3 (2, none)).map
        (fun r => countCalls .Finalize r.trace) = some 1 ∧
    (Agent.bootstrap flakyKeyringStore failingBootstrapper 3 (2, none)).map
        (fun r => countCalls .Finalize r.trace) = some 0 :=
  ⟨(Agent_bootstrap_finalize flakyKeyringStore sampleBootstrapper 3 (2, none)).1
      (some (.other "cleanup failed")),
    by
      have h := (Agent_bootstrap_finalize flakyKeyringStore sampleBootstrapper 3 (2, none)).2.1
        _ rfl (by decide)
      exact congrArg some h,
    by
      have h := (Agent_bootstrap_finalize flakyKeyringStore failingBootstrapper 3 (2, none)).2.2
        _ rfl (by decide)
      exact congrArg some h.1⟩

/-! ## The logging handler -/

/-- C17 (as amended): every response `handleBootstrapLogging` produces has status 200,
400, 401, 409 or 500 (a run that produces none has panicked), and a 200 response
carries the user name, index- followed by the six characters generated first, and the
password of twenty characters generated next. -/
theorem handleBootstrapLogging_statuses {σ : Type} (h : LoggingServerConfig σ)
    (rnd : RandReader) (c : Request) (s : σ) :
    ((∃ msg, (handleBootstrapLogging h rnd c s).result = .panicked msg) ∨
      (handleBootstrapLogging h rnd c s).result.status = some StatusOK ∨
      (handleBootstrapLogging h rnd c s).result.status = some StatusBadRequest ∨
      (handleBootstrapLogging h rnd c s).result.status = some StatusUnauthorized ∨
      (handleBootstrapLogging h rnd c s).result.status = some StatusConflict ∨
      (handleBootstrapLogging h rnd c s).result.status = some StatusInternalServerError) ∧
    ((handleBootstrapLogging h rnd c s).result.status = some StatusOK →
      ∃ userSuffix password rnd1 rnd2,
        generateRandomString 6 rnd = (.returned (.ok userSuffix), rnd1) ∧
        generateRandomString 20 rnd1 = (.returned (.ok password), rnd2) ∧
        (handleBootstrapLogging h rnd c s).result
          = .response StatusOK (.loggingResponse ("index-" ++ userSuffix) password)) := by
  generalize hr : handleBootstrapLogging h rnd c s = r
  unfold handleBootstrapLogging at hr
  simp only [] at hr
  repeat' split at hr
  all_goals subst hr
  all_goals first
    | (refine ⟨by simp [SendStatus, Result.status], ?_⟩
       intro h200
       exfalso
       revert h200
       simp [SendStatus, Result.status, StatusOK, StatusUnauthorized,
         StatusInternalServerError, StatusBadRequest, StatusConflict]
       done)
    | (refine ⟨by simp [SendStatus, Result.status], ?_⟩
       intro _
       exact ⟨_, _, _, _, by assumption, by assumption, rfl⟩)

/-- C17 (witness): the sample logging request on a store that does not hold agent-1 is
answered 200 with the generated credentials. -/
theorem handleBootstrapLogging_statuses_witness :
    (handleBootstrapLogging (loggingServer sampleLibrary sampleLoggingBodyParser memLoggingStore)
      sampleRandReader sampleLoggingRequest (sampleStore, ⟨[], []⟩)).result.status
      = some StatusOK ∧
    ∃ userSuffix password rnd1 rnd2,
      generateRandomString 6 sampleRandReader = (.returned (.ok userSuffix), rnd1) ∧
      generateRandomString 20 rnd1 = (.returned (.ok password), rnd2) ∧
      (handleBootstrapLogging
        (loggingServer sampleLibrary sampleLoggingBodyParser memLoggingStore)
        sampleRandReader sampleLoggingRequest (sampleStore, ⟨[], []⟩)).result
        = .response StatusOK (.loggingResponse ("index-" ++ userSuffix) password) :=
  ⟨by decide,
    (handleBootstrapLogging_statuses
      (loggingServer sampleLibrary sampleLoggingBodyParser memLoggingStore)
      sampleRandReader sampleLoggingRequest (sampleStore, ⟨[], []⟩)).2 (by decide)⟩

/-- C17 (counterexample): the sample logging request on a store that already holds a
logging cluster with id agent-1 is answered 409, which is none of 200, 400, 401 and
500. -/
theorem handleBootstrapLogging_conflict :
    (handleBootstrapLogging
      (loggingServer sampleLibrary sampleLoggingBodyParser
        (sampleKubernetesStore.LoggingClusterStore 0 "bbbbb"))
      sampleRandReader sampleLoggingRequest (sampleStore, oneClusterKubeApi)).result
      = .response StatusConflict (.text "ID already in use") ∧
    some StatusConflict ≠ some StatusOK ∧
    some StatusConflict ≠ some StatusBadRequest ∧
    some StatusConflict ≠ some StatusUnauthorized ∧
    some StatusConflict ≠ some StatusInternalServerError := by
  refine ⟨by decide, by decide, by decide, by decide, by decide⟩

/-! ## The Kubernetes logging-cluster store -/

/-- C20 (failing input): a lookup of agent-1 in a store without logging clusters.
`GetCluster` returns a plain error saying that 0 clusters were fetched, which is not
`storage.ErrNotFound`, so `handleBootstrapLogging`, given the sample request with a
token that exists, answers 500 and creates neither user nor cluster. -/
theorem GetCluster_absent_error :
    sampleKubernetesStore.GetCluster "agent-1" emptyKubeApi = .error (errFetched 0) ∧
    errorsIs (errFetched 0) .ErrNotFound = false ∧
    (handleBootstrapLogging
      (loggingServer sampleLibrary sampleLoggingBodyParser
        (sampleKubernetesStore.LoggingClusterStore 0 "aaaaa"))
      sampleRandReader sampleLoggingRequest (sampleStore, emptyKubeApi)).result
      = SendStatus StatusInternalServerError ∧
    (handleBootstrapLogging
      (loggingServer sampleLibrary sampleLoggingBodyParser
        (sampleKubernetesStore.LoggingClusterStore 0 "aaaaa"))
      sampleRandReader sampleLoggingRequest (sampleStore, emptyKubeApi)).state
      = (sampleStore, emptyKubeApi) := by
  refine ⟨rfl, rfl, by decide, by decide⟩

/-- Whatever the store holds, the error `GetCluster` returns is never
`storage.ErrNotFound`. -/
theorem GetCluster_never_ErrNotFound (k : KubernetesStore) (ref : String) (api : KubeApi)
    (err : Err) (herr : k.GetCluster ref api = .error err) :
    errorsIs err .ErrNotFound = false := by
  unfold KubernetesStore.GetCluster at herr
  simp only at herr
  split at herr
  · cases herr
  · cases herr
    rfl

/-- C19 (failing input): a store holding one logging cluster, with the label env set to
dev, listed with a selector whose match labels ask for env to be prod, and with a
selector whose match expression asks for env to be in prod. Both calls return the
cluster, as does the call with the nil selector. -/
theorem ListClusters_ignores_selector :
    sampleKubernetesStore.ListClusters sampleNewRequirement (some prodMatchLabels) 0
      oneClusterKubeApi
      = .ok [{ Id := "agent-1", Name := "first", OpensearchUserID := "index-000000",
               Labels := some [("env", "dev")] }] ∧
    sampleKubernetesStore.ListClusters sampleNewRequirement (some prodMatchExpression) 0
      oneClusterKubeApi
      = .ok [{ Id := "agent-1", Name := "first", OpensearchUserID := "index-000000",
               Labels := some [("env", "dev")] }] ∧
    sampleKubernetesStore.ListClusters sampleNewRequirement none 0 oneClusterKubeApi
      = .ok [{ Id := "agent-1", Name := "first", OpensearchUserID := "index-000000",
               Labels := some [("env", "dev")] }] := by
  refine ⟨rfl, rfl, rfl⟩

/-- The selector the conversion loop returns is the one it was given. -/
theorem convertSelector_keeps (newRequirement : NewRequirement)
    (exprs : List LabelSelectorRequirement) (sel out : List (Labels → Bool))
    (hok : convertSelector newRequirement exprs sel = .ok out) : out = sel := by
  induction exprs with
  | nil =>
    simp only [convertSelector, Except.ok.injEq] at hok
    exact hok.symm
  | cons e rest ih =>
    unfold convertSelector at hok
    split at hok
    · cases hok
    · exact ih hok

/-- Whenever `ListClusters` returns a list, it is the list of all logging clusters of
the system namespace, whatever the selector. -/
theorem ListClusters_lists_all (k : KubernetesStore) (newRequirement : NewRequirement)
    (matchLabels : Option LabelSelector) (matchOptions : Nat) (api : KubeApi)
    (out : List LoggingCluster)
    (hok : k.ListClusters newRequirement matchLabels matchOptions api = .ok out) :
    k.ListClusters newRequirement none 0 api = .ok out := by
  unfold KubernetesStore.ListClusters at hok ⊢
  simp only at hok ⊢
  cases matchLabels with
  | none => exact hok
  | some sel =>
    simp only at hok
    cases hc : convertSelector newRequirement sel.MatchExpressions [] with
    | error e => rw [hc] at hok; cases hok
    | ok sel1 =>
      rw [hc] at hok
      have := convertSelector_keeps newRequirement sel.MatchExpressions [] sel1 hc
      subst this
      exact hok

/-! ## Cluster ids -/

/-- C18 (as amended): in the test cluster store two `CreateCluster` calls with the same
id both succeed, neither returns a conflict error, and the second replaces the record of
the first; the store keeps one record per id, so at most one cluster with a given id
exists. -/
theorem testCreateCluster_same_id (s : MemStore) (c1 c2 : Cluster) (hid : c1.Id = c2.Id)
    (hnd : (mapKeys s.clusters).Nodup) :
    (testCreateCluster c1 s).1 = none ∧
    (testCreateCluster c2 (testCreateCluster c1 s).2).1 = none ∧
    testGetCluster c1.Id (testCreateCluster c2 (testCreateCluster c1 s).2).2 = .ok c2 ∧
    (mapKeys (testCreateCluster c2 (testCreateCluster c1 s).2).2.clusters).Nodup ∧
    (mapKeys (testCreateCluster c2 (testCreateCluster c1 s).2).2.clusters).count c1.Id = 1 := by
  have hnd2 : (mapKeys (mapSet (mapSet s.clusters c1.Id c1) c2.Id c2)).Nodup :=
    nodup_mapKeys_mapSet _ _ _ (nodup_mapKeys_mapSet _ _ _ hnd)
  have hmem : c1.Id ∈ mapKeys (mapSet (mapSet s.clusters c1.Id c1) c2.Id c2) := by
    rw [mem_mapKeys_mapSet]
    exact Or.inl hid
  refine ⟨rfl, rfl, ?_, hnd2, List.count_eq_one_of_mem hnd2 hmem⟩
  simp only [testGetCluster, testCreateCluster, hid, mapGet_mapSet_self]

/-- C18 (witness): the two sample clusters with id agent-1 created in the empty store. -/
theorem testCreateCluster_same_id_witness :
    firstCluster.Id = secondCluster.Id ∧
    (testCreateCluster secondCluster (testCreateCluster firstCluster emptyStore).2).1 = none ∧
    testGetCluster firstCluster.Id
      (testCreateCluster secondCluster (testCreateCluster firstCluster emptyStore).2).2
      = .ok secondCluster :=
  ⟨rfl,
    (testCreateCluster_same_id emptyStore firstCluster secondCluster rfl
      (by simp [emptyStore, mapKeys])).2.1,
    (testCreateCluster_same_id emptyStore firstCluster secondCluster rfl
      (by simp [emptyStore, mapKeys])).2.2.1⟩

/-- C18 (counterexample): two creates with the id agent-1. In the test cluster store
the second returns no error and the record read afterwards is the second cluster, not
the first. In the Kubernetes store the second returns no error either and two objects
carry the id, after which `GetCluster` fails. -/
theorem CreateCluster_no_conflict :
    (testCreateCluster firstCluster emptyStore).1 = none ∧
    (testCreateCluster secondCluster (testCreateCluster firstCluster emptyStore).2).1 = none ∧
    testGetCluster "agent-1" (testCreateCluster firstCluster emptyStore).2 = .ok firstCluster ∧
    testGetCluster "agent-1"
      (testCreateCluster secondCluster (testCreateCluster firstCluster emptyStore).2).2
      = .ok secondCluster ∧
    firstCluster ≠ secondCluster ∧
    (createdApi emptyKubeApi
      (sampleKubernetesStore.CreateCluster 0 "aaaaa" sampleLoggingCluster emptyKubeApi)).1
      = none ∧
    (createdApi emptyKubeApi
      (sampleKubernetesStore.CreateCluster 0 "bbbbb" secondLoggingCluster
        (createdApi emptyKubeApi
          (sampleKubernetesStore.CreateCluster 0 "aaaaa" sampleLoggingCluster
            emptyKubeApi)).2)).1 = none ∧
    (listMatchingLabel
      (createdApi emptyKubeApi
        (sampleKubernetesStore.CreateCluster 0 "bbbbb" secondLoggingCluster
          (createdApi emptyKubeApi
            (sampleKubernetesStore.CreateCluster 0 "aaaaa" sampleLoggingCluster
              emptyKubeApi)).2)).2.LoggingClusters "opni" "opni.io/cluster-id"
      "agent-1").length = 2 ∧
    sampleKubernetesStore.GetCluster "agent-1"
      (createdApi emptyKubeApi
        (sampleKubernetesStore.CreateCluster 0 "bbbbb" secondLoggingCluster
          (createdApi emptyKubeApi
            (sampleKubernetesStore.CreateCluster 0 "aaaaa" sampleLoggingCluster
              emptyKubeApi)).2)).2 = .error (errFetched 2) := by
  refine ⟨rfl, rfl, rfl, rfl, by decide, rfl, rfl, by decide, rfl⟩

/-! ## Rule sender -/

theorem sentAreLastTaken_append (l1 l2 : List SenderAction) (current : Option Snapshot) :
    sentAreLastTaken current (l1 ++ l2) =
      (sentAreLastTaken current l1 && sentAreLastTaken (lastTaken current l1) l2) := by
  induction l1 generalizing current with
  | nil => simp [sentAreLastTaken, lastTaken]
  | cons a l1 ih =>
    cases a <;> simp [sentAreLastTaken, lastTaken, ih, Bool.and_assoc]

theorem lastTaken_append (l1 l2 : List SenderAction) (current : Option Snapshot) :
    lastTaken current (l1 ++ l2) = lastTaken (lastTaken current l1) l2 := by
  induction l1 generalizing current with
  | nil => simp [lastTaken]
  | cons a l1 ih => cases a <;> simp [lastTaken, ih]

theorem sentSnapshots_append (l1 l2 : List SenderAction) :
    sentSnapshots (l1 ++ l2) = sentSnapshots l1 ++ sentSnapshots l2 := by
  induction l1 with
  | nil => simp [sentSnapshots]
  | cons a l1 ih => cases a <;> simp [sentSnapshots, ih]

theorem SenderInv_retryLast (docs : Snapshot) (log : List SenderAction)
    (h1 : sentAreLastTaken none log = true) (h2 : lastTaken none log = some docs) :
    SenderInv (retryLast docs log) := by
  unfold retryLast
  split
  · simp [SenderInv, uploading, sentAreLastTaken_append, h1, h2, sentAreLastTaken]
  · refine ⟨h1, ?_⟩
    intro d hd
    simp [uploading] at hd
    simpa [hd] using h2

theorem SenderInv_outerSelect (buffer : Option Snapshot) (log : List SenderAction)
    (h1 : sentAreLastTaken none log = true) : SenderInv (outerSelect buffer log) := by
  unfold outerSelect
  cases buffer with
  | none => simp [SenderInv, uploading, h1]
  | some docs =>
    apply SenderInv_retryLast
    · simp [sentAreLastTaken_append, h1, sentAreLastTaken]
    · simp [lastTaken_append, lastTaken]

theorem SenderInv_retry (docs : Snapshot) (buffer : Option Snapshot)
    (log : List SenderAction) (h1 : sentAreLastTaken none log = true)
    (h2 : lastTaken none log = some docs) : SenderInv (retry docs buffer log) := by
  unfold retry
  split
  · apply SenderInv_outerSelect
    simp [sentAreLastTaken_append, h1, h2, sentAreLastTaken]
  · refine ⟨h1, ?_⟩
    intro d hd
    simp [uploading] at hd
    simpa [hd] using h2

theorem SenderInv_step (st : SenderState) (e : SenderEvent) (h : SenderInv st) :
    SenderInv (senderStep st e) := by
  obtain ⟨phase, buffer, log⟩ := st
  obtain ⟨h1, h2⟩ := h
  simp only at h1 h2
  cases e with
  | send docs =>
    cases buffer with
    | some b => exact ⟨h1, h2⟩
    | none =>
      cases phase with
      | waiting =>
        apply SenderInv_retry
        · simp [sentAreLastTaken_append, h1, sentAreLastTaken]
        · simp [lastTaken_append, lastTaken]
      | backoff d =>
        apply SenderInv_retry
        · simp [sentAreLastTaken_append, h1, sentAreLastTaken]
        · simp [lastTaken_append, lastTaken]
      | posting d rest =>
        refine ⟨?_, ?_⟩
        · simp [senderStep, sentAreLastTaken_append, h1, sentAreLastTaken]
        · intro d2 hd
          simp [senderStep, uploading] at hd
          simpa [senderStep, lastTaken_append, lastTaken, hd] using h2 d (by simp [uploading])
      | stopped => exact ⟨h1, h2⟩
  | accepted =>
    cases phase with
    | posting d rest =>
      have hd := h2 d (by simp [uploading])
      cases rest with
      | nil => exact ⟨h1, h2⟩
      | cons doc rest =>
        simp only [senderStep]
        split
        · apply SenderInv_outerSelect
          simp [sentAreLastTaken_append, h1, hd, sentAreLastTaken, lastTaken]
        · refine ⟨?_, ?_⟩
          · simp [sentAreLastTaken_append, h1, sentAreLastTaken]
          · intro d2 hd2
            simp [uploading] at hd2
            simpa [lastTaken_append, lastTaken, hd2] using hd
    | _ => exact ⟨h1, h2⟩
  | rejected =>
    cases phase with
    | posting d rest =>
      have hd := h2 d (by simp [uploading])
      cases rest with
      | nil => exact ⟨h1, h2⟩
      | cons doc rest =>
        cases buffer with
        | some newer =>
          simp only [senderStep]
          apply SenderInv_retry
          · simp [sentAreLastTaken_append, h1, sentAreLastTaken]
          · simp [lastTaken_append, lastTaken]
        | none =>
          refine ⟨?_, ?_⟩
          · simp [senderStep, sentAreLastTaken_append, h1, sentAreLastTaken]
          · intro d2 hd2
            simp [senderStep, uploading] at hd2
            simpa [senderStep, lastTaken_append, lastTaken, hd2] using hd
    | _ => exact ⟨h1, h2⟩
  | timer =>
    cases phase with
    | backoff d =>
      simp only [senderStep]
      exact SenderInv_retry d buffer log h1 (h2 d (by simp [uploading]))
    | _ => exact ⟨h1, h2⟩
  | done =>
    cases phase <;> first | exact ⟨h1, h2⟩ | exact ⟨h1, by intro d hd; simp [senderStep, uploading] at hd⟩

theorem SenderInv_run (events : List SenderEvent) (st : SenderState) (h : SenderInv st) :
    SenderInv (runSender st events) := by
  induction events generalizing st with
  | nil => exact h
  | cons e events ih => exact ih _ (SenderInv_step st e h)


theorem runSender_append (st : SenderState) (e1 e2 : List SenderEvent) :
    runSender st (e1 ++ e2) = runSender (runSender st e1) e2 := by
  simp [runSender, List.foldl_append]

theorem runSender_failedRetries (n : Nat) (docs : Snapshot) (hd : docs ≠ [])
    (log : List SenderAction) :
    ∃ log2, runSender ⟨.posting docs docs, none, log⟩
        (List.replicate n [SenderEvent.rejected, SenderEvent.timer]).flatten =
          ⟨.posting docs docs, none, log2⟩ ∧ sentSnapshots log2 = sentSnapshots log := by
  induction n generalizing log with
  | zero => exact ⟨log, rfl, rfl⟩
  | succ n ih =>
    obtain ⟨doc, rest, rfl⟩ := List.exists_cons_of_ne_nil hd
    obtain ⟨log2, h1, h2⟩ := ih (log ++ [.posted doc false])
    refine ⟨log2, ?_, ?_⟩
    · rw [← h1]
      simp [List.replicate_succ, runSender, senderStep, retry]
    · simpa [sentSnapshots_append, sentSnapshots] using h2

theorem runSender_preemption (p : Preemption) (docs : Snapshot) (hd : docs ≠ [])
    (hp : p.docs ≠ []) (log : List SenderAction) :
    ∃ log2, runSender ⟨.posting docs docs, none, log⟩ p.events =
        ⟨.posting p.docs p.docs, none, log2⟩ ∧ sentSnapshots log2 = sentSnapshots log := by
  obtain ⟨log1, h1, h2⟩ := runSender_failedRetries p.failedRetries docs hd log
  obtain ⟨doc, rest, rfl⟩ := List.exists_cons_of_ne_nil hd
  unfold Preemption.events
  rw [runSender_append, h1]
  cases p.duringPost with
  | true =>
    refine ⟨log1 ++ [.arrived p.docs] ++ [.posted doc false, .took p.docs], ?_, ?_⟩
    · simp [runSender, senderStep, retry, hp]
    · simp [sentSnapshots_append, sentSnapshots, h2]
  | false =>
    refine ⟨log1 ++ [.posted doc false] ++ [.arrived p.docs, .took p.docs], ?_, ?_⟩
    · simp [runSender, senderStep, retry, hp]
    · simp [sentSnapshots_append, sentSnapshots, h2]

theorem runSender_preemptions (newer : List Preemption) (docs : Snapshot) (hd : docs ≠ [])
    (hn : ∀ p ∈ newer, p.docs ≠ []) (log : List SenderAction) :
    ∃ log2, runSender ⟨.posting docs docs, none, log⟩ (newer.flatMap Preemption.events) =
        ⟨.posting ((newer.map Preemption.docs).getLastD docs)
          ((newer.map Preemption.docs).getLastD docs), none, log2⟩ ∧
        sentSnapshots log2 = sentSnapshots log := by
  induction newer generalizing docs log with
  | nil => exact ⟨log, rfl, rfl⟩
  | cons p newer ih =>
    have hp : p.docs ≠ [] := hn p (by simp)
    obtain ⟨log1, h1, h2⟩ := runSender_preemption p docs hd hp log
    obtain ⟨log2, h3, h4⟩ := ih p.docs hp (fun q hq => hn q (by simp [hq])) log1
    refine ⟨log2, ?_, h4.trans h2⟩
    rw [List.flatMap_cons, runSender_append, h1, h3, List.map_cons, List.getLastD_cons]

theorem runSender_accepted (docs : Snapshot) (rest : List Bytes) (hr : rest ≠ [])
    (log : List SenderAction) :
    ∃ log2, runSender ⟨.posting docs rest, none, log⟩
        (List.replicate rest.length SenderEvent.accepted) = ⟨.waiting, none, log2⟩ ∧
      sentSnapshots log2 = sentSnapshots log ++ [docs] := by
  induction rest generalizing log with
  | nil => exact absurd rfl hr
  | cons doc rest ih =>
    by_cases hrest : rest = []
    · subst hrest
      refine ⟨log ++ [.posted doc true, .sent docs], ?_, ?_⟩
      · simp [runSender, senderStep, outerSelect]
      · simp [sentSnapshots_append, sentSnapshots]
    · obtain ⟨log2, h1, h2⟩ := ih hrest (log ++ [.posted doc true])
      refine ⟨log2, ?_, ?_⟩
      · rw [← h1]
        simp [List.replicate_succ, runSender, senderStep, hrest]
      · simpa [sentSnapshots_append, sentSnapshots] using h2

theorem getLastD_ne_nil (l : List Snapshot) (d : Snapshot) (hd : d ≠ [])
    (hl : ∀ x ∈ l, x ≠ []) : l.getLastD d ≠ [] := by
  induction l generalizing d with
  | nil => exact hd
  | cons a l ih =>
    rw [List.getLastD_cons]
    exact ih a (hl a (by simp)) (fun x hx => hl x (by simp [hx]))

theorem runSender_preemptedUpload (first : Snapshot) (newer : List Preemption)
    (hf : first ≠ []) (hn : ∀ p ∈ newer, p.docs ≠ []) :
    sentSnapshots (runSender senderStart (preemptedUpload first newer)).log =
      [(newer.map Preemption.docs).getLastD first] := by
  obtain ⟨log1, h1, h2⟩ := runSender_preemptions newer first hf hn [.arrived first, .took first]
  have hlast : (newer.map Preemption.docs).getLastD first ≠ [] :=
    getLastD_ne_nil _ first hf (by
      intro d hd
      obtain ⟨p, hp, rfl⟩ := List.mem_map.1 hd
      exact hn p hp)
  obtain ⟨log2, h3, h4⟩ := runSender_accepted _ _ hlast log1
  have hstart : runSender senderStart [SenderEvent.send first] =
      ⟨.posting first first, none, [.arrived first, .took first]⟩ := by
    simp [runSender, senderStart, senderStep, retry, hf]
  unfold preemptedUpload
  rw [← List.singleton_append, List.append_assoc, runSender_append, hstart, runSender_append,
    h1, h3]
  simpa [h2, sentSnapshots] using h4


/-- C16 (as stated, refuted): the upload of A fails and B replaces it during the backoff;
the upload of B fails once, and C arrives on `pending` while the retry of B is in
flight. The gateway accepts from then on. B and C both arrived during the failing
upload, and both are reported as sent, B first: not only the last one. -/
theorem sender_delivers_two_arrivals :
    (runSender senderStart arrivalDuringRetry).log =
        [.arrived snapshotA, .took snapshotA, .posted [1] false,
          .arrived snapshotB, .took snapshotB, .posted [2] false,
          .arrived snapshotC, .posted [2] true, .sent snapshotB,
          .took snapshotC, .posted [3] true, .sent snapshotC] ∧
      sentSnapshots (runSender senderStart arrivalDuringRetry).log = [snapshotB, snapshotC] ∧
      sentSnapshots (runSender senderStart arrivalDuringRetry).log ≠ [snapshotC] := by
  decide

/-- The reports of a log are the reports of its uploads. -/
theorem sentSnapshots_eq_uploads (log : List SenderAction) (taken : List Snapshot) :
    sentSnapshots log = (uploads taken log).map Prod.snd := by
  induction log generalizing taken with
  | nil => rfl
  | cons a log ih =>
    cases a with
    | arrived d => simpa [sentSnapshots, uploads] using ih taken
    | took d => simpa [sentSnapshots, uploads] using ih (taken ++ [d])
    | posted d ok => simpa [sentSnapshots, uploads] using ih taken
    | sent d => simpa [sentSnapshots, uploads] using ih []

/-- In a log that passes the check of `sentAreLastTaken`, every upload reports the
snapshot received last in it. -/
theorem uploads_last_of_check (log : List SenderAction) (taken : List Snapshot)
    (h : sentAreLastTaken taken.getLast? log = true) :
    ∀ u ∈ uploads taken log, u.1.getLast? = some u.2 := by
  induction log generalizing taken with
  | nil => simp [uploads]
  | cons a log ih =>
    cases a with
    | arrived d => exact ih taken (by simpa [sentAreLastTaken] using h)
    | took d =>
      refine ih (taken ++ [d]) ?_
      simpa [sentAreLastTaken] using h
    | posted d ok => exact ih taken (by simpa [sentAreLastTaken] using h)
    | sent d =>
      simp only [sentAreLastTaken, Bool.and_eq_true, decide_eq_true_eq] at h
      intro u hu
      simp only [uploads, List.mem_cons] at hu
      rcases hu with rfl | hu
      · exact h.1
      · exact ih [] (by simpa using h.2) u hu

/-- The snapshots of the uploads of a log are among the snapshots received, in order. -/
theorem uploads_sublist_taken (log : List SenderAction) (taken : List Snapshot) :
    ((uploads taken log).flatMap Prod.fst).Sublist (taken ++ takenSnapshots log) := by
  induction log generalizing taken with
  | nil => simp [uploads]
  | cons a log ih =>
    cases a with
    | arrived d => simpa [uploads, takenSnapshots] using ih taken
    | took d => simpa [uploads, takenSnapshots] using ih (taken ++ [d])
    | posted d ok => simpa [uploads, takenSnapshots] using ih taken
    | sent d =>
      have h := ih []
      simp only [List.nil_append] at h
      simpa [uploads, takenSnapshots] using h.append_left taken

/-- Among uploads that each report the snapshot received last and that hold no snapshot
twice, a snapshot received before the last one of its upload is reported by none. -/
theorem superseded_not_reported (us : List (List Snapshot × Snapshot))
    (hlast : ∀ u ∈ us, u.1.getLast? = some u.2) (hnodup : (us.flatMap Prod.fst).Nodup)
    (u : List Snapshot × Snapshot) (hu : u ∈ us) (d : Snapshot) (hd : d ∈ u.1.dropLast) :
    d ∉ us.map Prod.snd := by
  rw [List.nodup_flatMap] at hnodup
  obtain ⟨hnd, hpw⟩ := hnodup
  intro hmem
  obtain ⟨v, hv, hvd⟩ := List.mem_map.1 hmem
  have hvlast := hlast v hv
  rw [hvd] at hvlast
  have hdv : d ∈ v.1 := List.mem_of_getLast?_eq_some hvlast
  have hdu : d ∈ u.1 := List.dropLast_subset _ hd
  by_cases huv : u = v
  · subst huv
    have hsplit : u.1 = u.1.dropLast ++ [d] := by
      have := List.dropLast_append_getLast? d (Option.mem_def.2 hvlast)
      exact this.symm
    have hn := hnd u hu
    rw [hsplit] at hn
    have := (List.nodup_append.1 hn).2.2
    exact this hd (List.mem_singleton_self d)
  · have hdisj := hpw.forall (fun a b h => h.symm) hu hv huv
    exact hdisj hdu hdv

/-- C16 (amended): split a run of the sender at its reports of success, an upload being
the stretch from one report (or the start) to the next. Every report is the report of
one upload; if k snapshots were received from `pending` in that upload, then k is at
least 1 and the snapshot reported as sent is the last one received; and when no
snapshot is received twice in the run, the snapshots received before the last one of an
upload are never reported as sent. -/
theorem sender_delivers_last_taken (events : List SenderEvent) :
    sentSnapshots (runSender senderStart events).log =
        (uploads [] (runSender senderStart events).log).map Prod.snd ∧
    (∀ u ∈ uploads [] (runSender senderStart events).log, u.1.getLast? = some u.2) ∧
    ((takenSnapshots (runSender senderStart events).log).Nodup →
      ∀ u ∈ uploads [] (runSender senderStart events).log, ∀ d ∈ u.1.dropLast,
        d ∉ sentSnapshots (runSender senderStart events).log) := by
  have hinv : sentAreLastTaken none (runSender senderStart events).log = true :=
    (SenderInv_run events senderStart
      ⟨rfl, fun _ h => by simp [senderStart, uploading] at h⟩).1
  have hlast := uploads_last_of_check (runSender senderStart events).log [] hinv
  refine ⟨sentSnapshots_eq_uploads _ [], hlast, ?_⟩
  intro hnodup u hu d hd
  rw [sentSnapshots_eq_uploads _ []]
  have hsub := uploads_sublist_taken (runSender senderStart events).log []
  simp only [List.nil_append] at hsub
  exact superseded_not_reported _ hlast (hnodup.sublist hsub) u hu d hd

/-- C16 (witness): the sender receives A, B after the failed POST of A and C after the
failed POST of B; the one report is of C, and A and B are never reported. -/
theorem sender_delivers_last_taken_witness :
    uploads [] (runSender senderStart threeReceived).log
      = [([snapshotA, snapshotB, snapshotC], snapshotC)] ∧
    (takenSnapshots (runSender senderStart threeReceived).log).Nodup ∧
    sentSnapshots (runSender senderStart threeReceived).log = [snapshotC] ∧
    (∀ u ∈ uploads [] (runSender senderStart threeReceived).log, u.1.getLast? = some u.2) ∧
    (∀ u ∈ uploads [] (runSender senderStart threeReceived).log, ∀ d ∈ u.1.dropLast,
      d ∉ sentSnapshots (runSender senderStart threeReceived).log) :=
  ⟨by decide, by decide, by decide, (sender_delivers_last_taken threeReceived).2.1,
    (sender_delivers_last_taken threeReceived).2.2 (by decide)⟩

/-! ## Subject access -/

/-- C21: when the store lists its role bindings and its clusters, `SubjectAccess` returns
a list without duplicates that contains a cluster of the store exactly when some role
binding has the subject among its subjects and its role lists the id of the cluster or
has match labels that select the labels of the cluster; a role that lists the id gives
access whatever its match labels select. -/
theorem SubjectAccess_iff {σ : Type} (selects : SelectorPredicate)
    (store : SubjectAccessCapableStore σ) (subject : String) (s : σ)
    (rbs : List RoleBinding) (all : List Cluster)
    (hrbs : store.ListRoleBindings s = .ok rbs)
    (hall : store.ListClusters none 0 s = .ok all) :
    ∃ items, SubjectAccess selects store subject s = .ok items ∧ items.Nodup ∧
      (∀ c, c ∈ items ↔ c ∈ all ∧ ∃ rb ∈ rbs, subject ∈ rb.Subjects ∧
        ∃ role, store.GetRole rb.RoleId s = .ok role ∧
          (c.Id ∈ role.ClusterIDs ∨ selects role.MatchLabels c.Labels = true)) ∧
      (∀ c ∈ all, ∀ rb ∈ rbs, subject ∈ rb.Subjects →
        ∀ role, store.GetRole rb.RoleId s = .ok role → c.Id ∈ role.ClusterIDs →
          c ∈ items) := by
  have hmem : ∀ c, c ∈ ((rbs.filter fun rb => decide (subject ∈ rb.Subjects)).flatMap
        (RoleBinding.clusters selects store s all)).dedup ↔
      c ∈ all ∧ ∃ rb ∈ rbs, subject ∈ rb.Subjects ∧
        ∃ role, store.GetRole rb.RoleId s = .ok role ∧
          (c.Id ∈ role.ClusterIDs ∨ selects role.MatchLabels c.Labels = true) := by
    intro c
    rw [List.mem_dedup, List.mem_flatMap]
    constructor
    · rintro ⟨rb, hrb, hc⟩
      rw [List.mem_filter] at hrb
      unfold RoleBinding.clusters at hc
      split at hc
      · simp at hc
      · rename_i role hrole
        rw [List.mem_filter] at hc
        refine ⟨hc.1, rb, hrb.1, by simpa using hrb.2, role, hrole, ?_⟩
        have h := hc.2
        simp only [Role.grants, Bool.or_eq_true, decide_eq_true_eq] at h
        exact h.symm
    · rintro ⟨hc, rb, hrb, hsub, role, hrole, hgr⟩
      refine ⟨rb, List.mem_filter.2 ⟨hrb, by simpa using hsub⟩, ?_⟩
      unfold RoleBinding.clusters
      rw [hrole]
      refine List.mem_filter.2 ⟨hc, ?_⟩
      simp only [Role.grants, Bool.or_eq_true, decide_eq_true_eq]
      exact hgr.symm
  refine ⟨_, ?_, List.nodup_dedup _, hmem, ?_⟩
  · simp [SubjectAccess, hrbs, hall]
  · intro c hc rb hrb hsub role hrole hid
    exact (hmem c).2 ⟨hc, rb, hrb, hsub, role, hrole, Or.inl hid⟩

/-- C21 (witness): in the stores of the integration test the role lists test-cluster-id
and its match labels do not select the cluster, which has no labels; the access list
of test-subject has exactly one item, test-cluster-id, and that of another subject is
empty. -/
theorem SubjectAccess_iff_witness :
    sampleSelects testRole.MatchLabels [] = false ∧
    SubjectAccess sampleSelects (testSubjectAccessStore sampleSelectorPredicate)
      "test-subject" accessTestStore = .ok [{ Id := "test-cluster-id", Labels := [] }] ∧
    SubjectAccess sampleSelects (testSubjectAccessStore sampleSelectorPredicate)
      "bob" accessTestStore = .ok [] ∧
    ∃ items, SubjectAccess sampleSelects (testSubjectAccessStore sampleSelectorPredicate)
        "test-subject" accessTestStore = .ok items ∧ items.Nodup ∧
      (∀ c, c ∈ items ↔ c ∈ [{ Id := "test-cluster-id", Labels := [] }] ∧
        ∃ rb ∈ [testRoleBinding], "test-subject" ∈ rb.Subjects ∧
        ∃ role, (testSubjectAccessStore sampleSelectorPredicate).GetRole rb.RoleId
            accessTestStore = .ok role ∧
          (c.Id ∈ role.ClusterIDs ∨ sampleSelects role.MatchLabels c.Labels = true)) ∧
      (∀ c ∈ [({ Id := "test-cluster-id", Labels := [] } : Cluster)],
        ∀ rb ∈ [testRoleBinding], "test-subject" ∈ rb.Subjects →
        ∀ role, (testSubjectAccessStore sampleSelectorPredicate).GetRole rb.RoleId
            accessTestStore = .ok role → c.Id ∈ role.ClusterIDs → c ∈ items) :=
  ⟨by decide, by rfl, by rfl,
    SubjectAccess_iff sampleSelects (testSubjectAccessStore sampleSelectorPredicate)
      "test-subject" accessTestStore [testRoleBinding]
      [{ Id := "test-cluster-id", Labels := [] }] (by rfl) (by rfl)⟩

/-! ## Metrics push relay -/

/-- C22: `handlePushRequest` sends the gateway one POST to /api/agent/push whose body is
the incoming body and whose four relayed headers have the incoming values; when the
gateway call succeeds the handler sends the status and body of the gateway, and when it
fails the handler returns the error. -/
theorem handlePushRequest_relays (gatewayDo : GatewayRequest → Except Err (Nat × String))
    (c : Request) :
    (handlePushRequest gatewayDo c).sent.Method = "POST" ∧
    (handlePushRequest gatewayDo c).sent.Path = "/api/agent/push" ∧
    (handlePushRequest gatewayDo c).sent.Body = c.Body ∧
    mapGet (handlePushRequest gatewayDo c).sent.Headers "Content-Type"
      = some (c.Get "Content-Type") ∧
    mapGet (handlePushRequest gatewayDo c).sent.Headers "Content-Length"
      = some (c.Get "Content-Length") ∧
    mapGet (handlePushRequest gatewayDo c).sent.Headers "Content-Encoding"
      = some (c.Get "Content-Encoding") ∧
    mapGet (handlePushRequest gatewayDo c).sent.Headers "X-Prometheus-Remote-Write-Version"
      = some (c.Get "X-Prometheus-Remote-Write-Version") ∧
    (handlePushRequest gatewayDo c).result = gatewayDo (handlePushRequest gatewayDo c).sent := by
  have hsent : (handlePushRequest gatewayDo c).sent =
      (((((gatewayPost "/api/agent/push").setBody c.Body).Set "Content-Type"
        (c.Get "Content-Type")).Set "Content-Length" (c.Get "Content-Length")).Set
          "Content-Encoding" (c.Get "Content-Encoding")).Set
            "X-Prometheus-Remote-Write-Version" (c.Get "X-Prometheus-Remote-Write-Version") := by
    unfold handlePushRequest
    simp only []
    split <;> rfl
  refine ⟨?_, ?_, ?_, ?_, ?_, ?_, ?_, ?_⟩
  · rw [hsent]; rfl
  · rw [hsent]; rfl
  · rw [hsent]; rfl
  · rw [hsent]
    simp [GatewayRequest.Set, gatewayPost, GatewayRequest.setBody, mapSet, mapGet]
  · rw [hsent]
    simp [GatewayRequest.Set, gatewayPost, GatewayRequest.setBody, mapSet, mapGet]
  · rw [hsent]
    simp [GatewayRequest.Set, gatewayPost, GatewayRequest.setBody, mapSet, mapGet]
  · rw [hsent]
    simp [GatewayRequest.Set, gatewayPost, GatewayRequest.setBody, mapSet, mapGet]
  · rw [hsent]
    unfold handlePushRequest
    simp only []
    split
    · rename_i err h
      simp [h]
    · rename_i code body h
      simp [h]

/-! ## The remaining time to live -/

theorem wrapInt64_of_range (x : Int) (hlo : -(2 ^ 63) ≤ x) (hhi : x < 2 ^ 63) :
    wrapInt64 x = x := by
  unfold wrapInt64
  have h : (x + 2 ^ 63) % 2 ^ 64 = x + 2 ^ 63 :=
    Int.emod_eq_of_lt (by omega) (by omega)
  omega

/-- The time to live `patchTTL` writes is never negative, whatever the token holds. -/
theorem patchTTL_nonneg (now : Int) (token : Object BootstrapToken) :
    0 ≤ (patchTTL now token).Content.Metadata.Ttl := by
  simp only [patchTTL]
  split <;> omega

/-- C23: when the age of the token and the difference of its time to live and its age
are in the range of int64, `patchTTL` sets the time to live to the larger of 0 and
creation + ttl − now and changes no other field; the result is not negative, and it is
0 exactly when at least ttl seconds have passed since the creation. -/
theorem patchTTL_remaining (now : Int) (token : Object BootstrapToken)
    (hage : -(2 ^ 63) ≤ now - token.CreationTimestamp ∧ now - token.CreationTimestamp < 2 ^ 63)
    (hrem : -(2 ^ 63) ≤ token.Content.Metadata.Ttl - (now - token.CreationTimestamp) ∧
      token.Content.Metadata.Ttl - (now - token.CreationTimestamp) < 2 ^ 63) :
    patchTTL now token =
      { token with
        Content := { token.Content with
          Metadata := { token.Content.Metadata with
            Ttl := max 0 (token.CreationTimestamp + token.Content.Metadata.Ttl - now) } } } ∧
    0 ≤ (patchTTL now token).Content.Metadata.Ttl ∧
    ((patchTTL now token).Content.Metadata.Ttl = 0 ↔
      token.Content.Metadata.Ttl ≤ now - token.CreationTimestamp) := by
  have h1 : wrapInt64 (now - token.CreationTimestamp) = now - token.CreationTimestamp :=
    wrapInt64_of_range _ hage.1 hage.2
  have h2 : wrapInt64 (token.Content.Metadata.Ttl - (now - token.CreationTimestamp)) =
      token.Content.Metadata.Ttl - (now - token.CreationTimestamp) :=
    wrapInt64_of_range _ hrem.1 hrem.2
  have hval : (patchTTL now token).Content.Metadata.Ttl =
      max 0 (token.CreationTimestamp + token.Content.Metadata.Ttl - now) := by
    simp only [patchTTL, h1, h2]
    split <;> omega
  refine ⟨?_, ?_, ?_⟩
  · simp only [patchTTL, h1, h2]
    congr 3
    split <;> omega
  · rw [hval]; omega
  · rw [hval]; omega

/-- C23 (witness): a token created at second 100 with a time to live of an hour has 3540
seconds left at second 160. -/
theorem patchTTL_remaining_witness :
    (-(2 ^ 63) ≤ (160 : Int) - hourTokenObject.CreationTimestamp ∧
      (160 : Int) - hourTokenObject.CreationTimestamp < 2 ^ 63) ∧
    (patchTTL 160 hourTokenObject).Content.Metadata.Ttl = 3540 ∧
    (patchTTL 160 hourTokenObject =
      { hourTokenObject with
        Content := { hourTokenObject.Content with
          Metadata := { hourTokenObject.Content.Metadata with
            Ttl := max 0 (hourTokenObject.CreationTimestamp +
              hourTokenObject.Content.Metadata.Ttl - 160) } } } ∧
    0 ≤ (patchTTL 160 hourTokenObject).Content.Metadata.Ttl ∧
    ((patchTTL 160 hourTokenObject).Content.Metadata.Ttl = 0 ↔
      hourTokenObject.Content.Metadata.Ttl ≤ 160 - hourTokenObject.CreationTimestamp)) :=
  ⟨by decide, by decide,
    patchTTL_remaining 160 hourTokenObject (by decide) (by decide)⟩

/-! ## Rule sender: whole batches -/

theorem wholeBatches_append (l1 l2 : List SenderAction) (p : PassState) :
    wholeBatches p (l1 ++ l2) = (wholeBatches p l1).bind fun q => wholeBatches q l2 := by
  induction l1 generalizing p with
  | nil => simp [wholeBatches]
  | cons a l1 ih =>
    simp only [List.cons_append, wholeBatches]
    cases wholeBatchStep p a with
    | none => simp
    | some q => simpa using ih q

theorem PassInv_retryLast (docs : Snapshot) (log : List SenderAction)
    (h : wholeBatches ⟨none, []⟩ log = some ⟨some docs, docs⟩) :
    PassInv (retryLast docs log) := by
  unfold retryLast
  split
  · rename_i hd
    subst hd
    refine ⟨⟨none, []⟩, ?_, ?_⟩
    · simp [wholeBatches_append, h, wholeBatches, wholeBatchStep]
    · intro q hq
      simp [passOf] at hq
      exact hq
  · refine ⟨_, h, ?_⟩
    intro q hq
    simp [passOf] at hq
    exact hq

theorem PassInv_outerSelect (buffer : Option Snapshot) (log : List SenderAction)
    (h : wholeBatches ⟨none, []⟩ log = some ⟨none, []⟩) :
    PassInv (outerSelect buffer log) := by
  unfold outerSelect
  cases buffer with
  | none =>
    refine ⟨_, h, ?_⟩
    intro q hq
    simp [passOf] at hq
    exact hq
  | some docs =>
    apply PassInv_retryLast
    simp [wholeBatches_append, h, wholeBatches, wholeBatchStep]

theorem PassInv_retry (docs : Snapshot) (buffer : Option Snapshot) (log : List SenderAction)
    (h : wholeBatches ⟨none, []⟩ log = some ⟨some docs, docs⟩) :
    PassInv (retry docs buffer log) := by
  unfold retry
  split
  · rename_i hd
    subst hd
    apply PassInv_outerSelect
    simp [wholeBatches_append, h, wholeBatches, wholeBatchStep]
  · refine ⟨_, h, ?_⟩
    intro q hq
    simp [passOf] at hq
    exact hq

theorem PassInv_step (st : SenderState) (e : SenderEvent) (h : PassInv st) :
    PassInv (senderStep st e) := by
  obtain ⟨phase, buffer, log⟩ := st
  obtain ⟨p, h1, h2⟩ := h
  simp only at h1 h2
  cases e with
  | send docs =>
    cases buffer with
    | some b => exact ⟨p, h1, h2⟩
    | none =>
      cases phase with
      | waiting =>
        apply PassInv_retry
        simp [wholeBatches_append, h1, wholeBatches, wholeBatchStep]
      | backoff d =>
        apply PassInv_retry
        simp [wholeBatches_append, h1, wholeBatches, wholeBatchStep]
      | posting d rest =>
        refine ⟨p, ?_, ?_⟩
        · simp [senderStep, wholeBatches_append, h1, wholeBatches, wholeBatchStep]
        · intro q hq
          exact h2 q (by simpa [senderStep, passOf] using hq)
      | stopped => exact ⟨p, h1, h2⟩
  | accepted =>
    cases phase with
    | posting d rest =>
      have hp := h2 _ (by simp [passOf] : passOf (.posting d rest) = some ⟨some d, rest⟩)
      subst hp
      cases rest with
      | nil => exact ⟨_, h1, h2⟩
      | cons doc rest =>
        simp only [senderStep]
        split
        · rename_i hrest
          subst hrest
          apply PassInv_outerSelect
          simp [wholeBatches_append, h1, wholeBatches, wholeBatchStep]
        · refine ⟨⟨some d, rest⟩, ?_, ?_⟩
          · simp [wholeBatches_append, h1, wholeBatches, wholeBatchStep]
          · intro q hq
            simp [passOf] at hq
            exact hq
    | _ => exact ⟨p, h1, h2⟩
  | rejected =>
    cases phase with
    | posting d rest =>
      have hp := h2 _ (by simp [passOf] : passOf (.posting d rest) = some ⟨some d, rest⟩)
      subst hp
      cases rest with
      | nil => exact ⟨_, h1, h2⟩
      | cons doc rest =>
        cases buffer with
        | some newer =>
          simp only [senderStep]
          apply PassInv_retry
          simp [wholeBatches_append, h1, wholeBatches, wholeBatchStep]
        | none =>
          refine ⟨⟨some d, d⟩, ?_, ?_⟩
          · simp [senderStep, wholeBatches_append, h1, wholeBatches, wholeBatchStep]
          · intro q hq
            simp [senderStep, passOf] at hq
            exact hq
    | _ => exact ⟨p, h1, h2⟩
  | timer =>
    cases phase with
    | backoff d =>
      have hp := h2 _ (by simp [passOf] : passOf (.backoff d) = some ⟨some d, d⟩)
      subst hp
      simp only [senderStep]
      exact PassInv_retry d buffer log h1
    | _ => exact ⟨p, h1, h2⟩
  | done =>
    cases phase <;> first
      | exact ⟨p, h1, h2⟩
      | exact ⟨p, h1, by intro q hq; simp [senderStep, passOf] at hq⟩

theorem PassInv_run (events : List SenderEvent) (st : SenderState) (h : PassInv st) :
    PassInv (runSender st events) := by
  induction events generalizing st with
  | nil => exact h
  | cons e events ih => exact ih _ (PassInv_step st e h)

/-- C24: over any sequence of events the log of the sender follows the rule of whole
batches: every POST is of the next document of the pass under way; after a failed POST
the pass starts again at the first document of the current batch, the newer one when
the sender received one and the same one otherwise; and a batch is reported as sent,
once, only when it is the current batch and every document of it was accepted in one
pass without a failure. For a batch of two whose second document is rejected the POSTs
are of the first, the second, the first and the second document. A log that resumes
after the failure at the second document, or that reports a batch after one of its two
documents, breaks the rule. -/
theorem sender_whole_batches (events : List SenderEvent) :
    (wholeBatches ⟨none, []⟩ (runSender senderStart events).log).isSome = true ∧
    (runSender senderStart retriedBatch).log =
      [.arrived snapshotAB, .took snapshotAB, .posted [1] true, .posted [2] false,
        .posted [1] true, .posted [2] true, .sent snapshotAB] ∧
    wholeBatches ⟨none, []⟩
      [.took snapshotAB, .posted [1] true, .posted [2] false, .posted [2] true] = none ∧
    wholeBatches ⟨none, []⟩ [.took snapshotAB, .posted [1] true, .sent snapshotAB] = none := by
  refine ⟨?_, by decide, by decide, by decide⟩
  obtain ⟨p, hp, _⟩ := PassInv_run events senderStart
    ⟨⟨none, []⟩, rfl, fun q hq => by simpa [senderStart, passOf] using hq⟩
  simp [hp]

/-! ## Generated credentials -/

theorem randInt_lt (max : Nat) (hmax : 0 < max) (r r1 : RandReader) (num : Nat)
    (h : randInt max r = (.ok num, r1)) : num < max := by
  unfold randInt at h
  split at h
  · simp at h
  · simp at h
  · simp only [Prod.mk.injEq, Except.ok.injEq] at h
    rw [← h.1]
    exact Nat.mod_lt _ hmax

/-- The loop of `generateRandomString` does not panic: it ends with an error of the
random source or with `n` characters of the alphabet. -/
theorem generateRandomChars_cases (n : Nat) (r : RandReader) :
    (∃ err r1, generateRandomChars n r = (.returned (.error err), r1)) ∨
    (∃ chars r1, generateRandomChars n r = (.returned (.ok chars), r1) ∧
      chars.length = n ∧ ∀ ch ∈ chars, ch ∈ letters.data) := by
  induction n generalizing r with
  | zero => exact Or.inr ⟨[], r, rfl, rfl, by simp⟩
  | succ n ih =>
    unfold generateRandomChars
    rcases hri : randInt letters.length r with ⟨_ | num, r1⟩
    · exact Or.inl ⟨_, _, rfl⟩
    · have hlt : num < letters.data.length :=
        randInt_lt letters.length (by decide) r r1 num hri
      have hget : letters.data[num]? = some (letters.data.get ⟨num, hlt⟩) := by
        simp [List.getElem?_eq_getElem hlt]
      simp only [hget]
      rcases ih r1 with ⟨err, r2, he⟩ | ⟨chars, r2, hc, hlen, hmem⟩
      · exact Or.inl ⟨err, r2, by rw [he]⟩
      · refine Or.inr ⟨_ :: chars, r2, by rw [hc], by simp [hlen], ?_⟩
        intro ch hch
        rcases List.mem_cons.1 hch with rfl | hch
        · exact List.get_mem _ _ _
        · exact hmem ch hch

theorem generateRandomString_ok (n : Nat) (r r1 : RandReader) (str : String)
    (h : generateRandomString n r = (.returned (.ok str), r1)) :
    str.length = n ∧ ∀ ch ∈ str.data, ch ∈ letters.data := by
  unfold generateRandomString at h
  rcases generateRandomChars_cases n r with ⟨err, r2, he⟩ | ⟨chars, r2, hc, hlen, hmem⟩
  · rw [he] at h
    simp at h
  · rw [hc] at h
    simp only [Prod.mk.injEq, Outcome.returned.injEq, Except.ok.injEq] at h
    rw [← h.1]
    exact ⟨by simpa using hlen, hmem⟩

theorem generateRandomString_no_panic (n : Nat) (r : RandReader) (msg : String) :
    (generateRandomString n r).1 ≠ .panicked msg := by
  unfold generateRandomString
  rcases generateRandomChars_cases n r with ⟨err, r2, he⟩ | ⟨chars, r2, hc, _, _⟩
  · rw [he]; simp
  · rw [hc]; simp

/-- With reads of the random source that do not fail, the loop ends with characters and
has consumed one read for each. -/
theorem generateRandomChars_of_reads (vals : List Nat) (rest : RandReader) :
    ∃ chars, generateRandomChars vals.length (vals.map some ++ rest)
      = (.returned (.ok chars), rest) := by
  induction vals with
  | nil => exact ⟨[], rfl⟩
  | cons v vals ih =>
    obtain ⟨chars, hc⟩ := ih
    have hlt : v % letters.length < letters.data.length := Nat.mod_lt _ (by decide)
    have hget : letters.data[v % letters.length]? =
        some (letters.data.get ⟨v % letters.length, hlt⟩) := by
      simp [List.getElem?_eq_getElem hlt]
    refine ⟨letters.data.get ⟨v % letters.length, hlt⟩ :: chars, ?_⟩
    simp only [List.length_cons, List.map_cons, List.cons_append, generateRandomChars, randInt,
      hget, hc]

/-- The user the logging handler stores and the credentials it answers with are the
strings generated first and next. -/
theorem handleBootstrapLogging_generated {σ : Type} (h : LoggingServerConfig σ)
    (rnd : RandReader) (c : Request) (s : σ) (u : OpensearchUser) (b : Bool)
    (hput : (LoggingCall.Put u, b) ∈ (handleBootstrapLogging h rnd c s).trace) :
    ∃ userSuffix rnd1 rnd2,
      generateRandomString 6 rnd = (.returned (.ok userSuffix), rnd1) ∧
      generateRandomString 20 rnd1 = (.returned (.ok u.Secret), rnd2) ∧
      u.Id = "index-" ++ userSuffix := by
  revert hput
  generalize hr : handleBootstrapLogging h rnd c s = r
  unfold handleBootstrapLogging at hr
  simp only [] at hr
  repeat' split at hr
  all_goals subst hr
  all_goals intro hput
  all_goals first
    | (exfalso
       revert hput
       simp
       done)
    | (simp at hput
       rw [hput.1]
       exact ⟨_, _, _, by assumption, by assumption, rfl⟩)

/-- C25: `generateRandomString` never panics, since the index is a number below the 50
characters of the alphabet of digits and consonants; with `n` reads of the random source
that do not fail it returns a string of exactly `n` characters of the alphabet; and the
user the logging handler stores has the name index- followed by exactly 6 such
characters and a password of exactly 20 such characters. -/
theorem generateRandomString_alphabet {σ : Type} (vals : List Nat) (rest : RandReader)
    (h : LoggingServerConfig σ) (rnd : RandReader) (c : Request) (s : σ)
    (u : OpensearchUser) (b : Bool)
    (hput : (LoggingCall.Put u, b) ∈ (handleBootstrapLogging h rnd c s).trace) :
    letters.length = 50 ∧
    (letters.data.all fun ch =>
      ch.isDigit || (ch.isAlpha && !"AEIOUaeiou".data.contains ch)) = true ∧
    (∀ n r msg, (generateRandomString n r).1 ≠ .panicked msg) ∧
    (∃ str, generateRandomString vals.length (vals.map some ++ rest)
        = (.returned (.ok str), rest) ∧
      str.length = vals.length ∧ ∀ ch ∈ str.data, ch ∈ letters.data) ∧
    (∃ userSuffix, u.Id = "index-" ++ userSuffix ∧ userSuffix.length = 6 ∧
      ∀ ch ∈ userSuffix.data, ch ∈ letters.data) ∧
    u.Secret.length = 20 ∧ ∀ ch ∈ u.Secret.data, ch ∈ letters.data := by
  obtain ⟨userSuffix, rnd1, rnd2, h6, h20, hid⟩ :=
    handleBootstrapLogging_generated h rnd c s u b hput
  obtain ⟨chars, hc⟩ := generateRandomChars_of_reads vals rest
  have hstr : generateRandomString vals.length (vals.map some ++ rest)
      = (.returned (.ok (String.mk chars)), rest) := by
    simp [generateRandomString, hc]
  refine ⟨by decide, by decide, generateRandomString_no_panic, ⟨_, hstr, ?_⟩, ⟨userSuffix, hid, ?_⟩,
    ?_⟩
  · exact generateRandomString_ok _ _ _ _ hstr
  · exact generateRandomString_ok _ _ _ _ h6
  · exact generateRandomString_ok _ _ _ _ h20

/-- C25 (witness): with reads yielding 0, 1, 2 and so on the handler stores the user
index-012345 with the password 6789BCDFGHJKLMNPQRST. -/
theorem generateRandomString_alphabet_witness :
    (LoggingCall.Put ⟨"index-012345", "6789BCDFGHJKLMNPQRST"⟩, true) ∈
      (handleBootstrapLogging
        (loggingServer sampleLibrary sampleLoggingBodyParser memLoggingStore)
        sampleRandReader sampleLoggingRequest (sampleStore, ⟨[], []⟩)).trace ∧
    ("6789BCDFGHJKLMNPQRST".length = 20 ∧
      ∀ ch ∈ "6789BCDFGHJKLMNPQRST".data, ch ∈ letters.data) :=
  ⟨by decide,
    (generateRandomString_alphabet [0, 1, 2] []
      (loggingServer sampleLibrary sampleLoggingBodyParser memLoggingStore)
      sampleRandReader sampleLoggingRequest (sampleStore, ⟨[], []⟩)
      ⟨"index-012345", "6789BCDFGHJKLMNPQRST"⟩ true (by decide)).2.2.2.2.2⟩

/-! ## Wait contexts -/

/-- C26 (failing input): on a fresh wait-context one task is registered with `AddOne`
and has not called `Done`, so the counter is 1. `Wait`, restrictive or permissive, with
or without a period for the warning, returns to its caller all the same: it has started
the goroutine that waits for the group, which is blocked and has not closed `done`, and
nothing in `Wait` waits for that goroutine. No call of `Wait` ever blocks. -/
theorem Wait_returns_before_done :
    oneTaskWorld.data = some 1 ∧
    restrictive.Wait oneTaskWorld [] = .returned { oneTaskWorld with waiterStarted := true } ∧
    permissive.Wait oneTaskWorld [5] =
      .returned { oneTaskWorld with waiterStarted := true, notifier := some 5 } ∧
    ((restrictive.Wait oneTaskWorld []).world oneTaskWorld).data = some 1 ∧
    waiterGoroutine ((restrictive.Wait oneTaskWorld []).world oneTaskWorld) = .blocked ∧
    ((restrictive.Wait oneTaskWorld []).world oneTaskWorld).doneClosed = false ∧
    (∀ w notifyAfter, restrictive.Wait w notifyAfter ≠ .blocked ∧
      permissive.Wait w notifyAfter ≠ .blocked) := by
  refine ⟨by decide, by decide, by decide, by decide, by decide, by decide, ?_⟩
  intro w notifyAfter
  unfold restrictive.Wait permissive.Wait
  cases w.data <;> simp

/-! ## Logging clusters without labels -/

/-- C27 (failing input): the cluster `handleBootstrapLogging` passes to `CreateCluster`
has no labels map. On it `KubernetesStore.CreateCluster` panics on every API server, and
`KubernetesStore.UpdateCluster` panics once it has found the cluster to update. -/
theorem CreateCluster_nil_labels_panics :
    (LoggingCall.CreateCluster registeredCluster, true) ∈
      (handleBootstrapLogging
        (loggingServer sampleLibrary sampleLoggingBodyParser memLoggingStore)
        sampleRandReader sampleLoggingRequest (sampleStore, ⟨[], []⟩)).trace ∧
    registeredCluster.Labels = none ∧
    (∀ (k : KubernetesStore) (now : Int) (suffix : String) (api : KubeApi),
      k.CreateCluster now suffix registeredCluster api
        = .panicked "assignment to entry in nil map") ∧
    sampleKubernetesStore.UpdateCluster registeredCluster oneClusterKubeApi
      = .panicked "assignment to entry in nil map" := by
  refine ⟨by decide, rfl, fun _ _ _ _ => rfl, rfl⟩

/-! ## Create, get and list of a logging cluster -/

/-- C28 (failing input): the sample logging cluster, named first, is created on an API
server without logging clusters, which names the object downstream-aaaaa. `GetCluster`
returns the id, the user and the labels of the cluster but, as its name, the name of
the object; `ListClusters` returns the friendly name first, so the two disagree on the
name. -/
theorem GetCluster_returns_object_name :
    createdApi emptyKubeApi
        (sampleKubernetesStore.CreateCluster 0 "aaaaa" sampleLoggingCluster emptyKubeApi)
      = (none, oneClusterKubeApi) ∧
    sampleKubernetesStore.GetCluster sampleLoggingCluster.Id oneClusterKubeApi
      = .ok { sampleLoggingCluster with Name := "downstream-aaaaa" } ∧
    sampleKubernetesStore.ListClusters sampleNewRequirement none 0 oneClusterKubeApi
      = .ok [sampleLoggingCluster] ∧
    ({ sampleLoggingCluster with Name := "downstream-aaaaa" } : LoggingCluster)
      ≠ sampleLoggingCluster := by
  refine ⟨by decide, rfl, rfl, by decide⟩

/-! ## Token conversion -/

/-- Go `hex.DecodeString` fails exactly on the strings that are not valid hex. -/
theorem hexDecode_error_iff : ∀ cs : List Char,
    (∃ e, hexDecode cs = .error e) ↔ validHex cs = false
  | [] => by simp [hexDecode, validHex]
  | [c] => by
    cases hc : fromHexChar c <;> simp [hexDecode, validHex, hc]
  | p :: q :: rest => by
    have ih := hexDecode_error_iff rest
    have hlen : (rest.length + 1 + 1) % 2 = rest.length % 2 := by omega
    cases hp : fromHexChar p with
    | none => simp [hexDecode, validHex, hp]
    | some a =>
      cases hq : fromHexChar q with
      | none => simp [hexDecode, validHex, hp, hq]
      | some b =>
        cases hr : hexDecode rest with
        | error e =>
          have hv : validHex rest = false := ih.1 ⟨e, hr⟩
          simp only [validHex, Bool.and_eq_false_iff] at hv
          simp only [hexDecode, hp, hq, hr, validHex, List.length_cons, hlen, List.all_cons,
            Option.isSome_some, Bool.true_and, Bool.and_eq_false_iff]
          exact ⟨fun _ => hv, fun _ => ⟨e, rfl⟩⟩
        | ok bs =>
          have hv : ¬ validHex rest = false := by
            intro h
            obtain ⟨e, he⟩ := ih.2 h
            rw [hr] at he
            cases he
          simp only [validHex, Bool.and_eq_false_iff] at hv
          simp only [hexDecode, hp, hq, hr, validHex, List.length_cons, hlen, List.all_cons,
            Option.isSome_some, Bool.true_and, Bool.and_eq_false_iff]
          constructor
          · rintro ⟨e, he⟩
            cases he
          · intro h
            exact absurd h hv

/-- C29: the conversion of a token to a bootstrap token and back succeeds and gives the
token, id and secret, back; and `FromBootstrapToken` fails exactly when the token id or
the secret is not a valid hex string. -/
theorem FromBootstrapToken_roundtrip (t : Token) (bt : Option BootstrapToken) :
    FromBootstrapToken (some t.ToBootstrapToken) = .ok t ∧
    ((∃ e, FromBootstrapToken bt = .error e) ↔
      (validHex (GetTokenID bt).data = false ∨ validHex (GetSecret bt).data = false)) := by
  refine ⟨?_, ?_⟩
  · simp [FromBootstrapToken, Token.ToBootstrapToken, GetTokenID, GetSecret, Token.HexID,
      Token.HexSecret, hexDecode_hexEncode]
  · have hid := hexDecode_error_iff (GetTokenID bt).data
    have hsec := hexDecode_error_iff (GetSecret bt).data
    unfold FromBootstrapToken
    simp only []
    cases h1 : hexDecode (GetTokenID bt).data with
    | error e =>
      have := hid.1 ⟨e, h1⟩
      simp [this]
    | ok decodedID =>
      have hv1 : ¬ validHex (GetTokenID bt).data = false := by
        intro h
        obtain ⟨e, he⟩ := hid.2 h
        rw [h1] at he
        cases he
      cases h2 : hexDecode (GetSecret bt).data with
      | error e =>
        have := hsec.1 ⟨e, h2⟩
        simp [this]
      | ok decodedSecret =>
        have hv2 : ¬ validHex (GetSecret bt).data = false := by
          intro h
          obtain ⟨e, he⟩ := hsec.2 h
          rw [h2] at he
          cases he
        constructor
        · rintro ⟨e, he⟩
          cases he
        · rintro (h | h)
          · exact absurd h hv1
          · exact absurd h hv2

/-! ## Defaults of the gateway configuration -/

/-- The configuration `SetDefaults` leaves, field by field. -/
theorem SetDefaults_some (s : GatewayConfigSpec) :
    GatewayConfigSpec.SetDefaults (some s) = some
      { s with
        ListenAddress := if s.ListenAddress = "" then ":8080" else s.ListenAddress
        Hostname := if s.Hostname = "" then "localhost" else s.Hostname
        MetricsPort := if s.MetricsPort = 0 then 8086 else s.MetricsPort
        Cortex :=
          { s.Cortex with
            Distributor :=
              if s.Cortex.Distributor.HTTPAddress = "" then
                ⟨"cortex-distributor:8080", "cortex-distributor-headless:9095"⟩
              else s.Cortex.Distributor
            Ingester :=
              if s.Cortex.Ingester.HTTPAddress = "" then
                ⟨"cortex-ingester:8080", "cortex-ingester-headless:9095"⟩
              else s.Cortex.Ingester
            Alertmanager :=
              if s.Cortex.Alertmanager.HTTPAddress = "" then ⟨"cortex-alertmanager:8080"⟩
              else s.Cortex.Alertmanager
            Ruler :=
              if s.Cortex.Ruler.HTTPAddress = "" then ⟨"cortex-ruler:8080"⟩ else s.Cortex.Ruler
            QueryFrontend :=
              if s.Cortex.QueryFrontend.HTTPAddress = "" then
                ⟨"cortex-query-frontend:8080", "cortex-query-frontend-headless:9095"⟩
              else s.Cortex.QueryFrontend } } := by
  obtain ⟨la, hn, mp, mg, em, tp, ⟨di, ing, al, ru, qf, ce⟩, ap, st, cs, pl⟩ := s
  simp only [GatewayConfigSpec.SetDefaults]
  by_cases h1 : la = "" <;> by_cases h2 : hn = "" <;> by_cases h3 : mp = 0 <;>
    by_cases h4 : di.HTTPAddress = "" <;> by_cases h5 : ing.HTTPAddress = "" <;>
    by_cases h6 : al.HTTPAddress = "" <;> by_cases h7 : ru.HTTPAddress = "" <;>
    by_cases h8 : qf.HTTPAddress = "" <;>
    simp only [h1, h2, h3, h4, h5, h6, h7, h8, if_true, if_false, ite_true, ite_false]

/-- C30 (as stated, refuted): with the HTTP address of the distributor empty,
`SetDefaults` replaces a GRPC address of the distributor that was set; and with the
HTTP address of the ingester set, it leaves the empty GRPC address of the ingester
empty. -/
theorem SetDefaults_overwrites_grpc :
    grpcOnlySpec.Cortex.Distributor.GRPCAddress = "distributor.example:9095" ∧
    (GatewayConfigSpec.SetDefaults (some grpcOnlySpec)).map
        (fun s => s.Cortex.Distributor.GRPCAddress)
      = some "cortex-distributor-headless:9095" ∧
    httpOnlySpec.Cortex.Ingester.GRPCAddress = "" ∧
    (GatewayConfigSpec.SetDefaults (some httpOnlySpec)).map
        (fun s => s.Cortex.Ingester.GRPCAddress) = some "" := by
  decide

/-- C30 (amended): `SetDefaults` does nothing on a nil receiver. On a configuration it
keeps a listen address, a host name, a metrics port and an HTTP address of a Cortex
component that was set and fills one that was empty, so all of them are set afterwards.
The GRPC address of the distributor, the ingester and the query frontend becomes the
default exactly when the HTTP address of the same component was empty, and is left as it
was otherwise. No other field changes. -/
theorem SetDefaults_fills (s : GatewayConfigSpec) :
    GatewayConfigSpec.SetDefaults none = none ∧
    ∃ r, GatewayConfigSpec.SetDefaults (some s) = some r ∧
      (r.ListenAddress = (if s.ListenAddress = "" then ":8080" else s.ListenAddress) ∧
        r.ListenAddress ≠ "") ∧
      (r.Hostname = (if s.Hostname = "" then "localhost" else s.Hostname) ∧ r.Hostname ≠ "") ∧
      (r.MetricsPort = (if s.MetricsPort = 0 then 8086 else s.MetricsPort) ∧
        r.MetricsPort ≠ 0) ∧
      (r.Cortex.Distributor.HTTPAddress =
          (if s.Cortex.Distributor.HTTPAddress = "" then "cortex-distributor:8080"
            else s.Cortex.Distributor.HTTPAddress) ∧
        r.Cortex.Distributor.HTTPAddress ≠ "") ∧
      (r.Cortex.Ingester.HTTPAddress =
          (if s.Cortex.Ingester.HTTPAddress = "" then "cortex-ingester:8080"
            else s.Cortex.Ingester.HTTPAddress) ∧
        r.Cortex.Ingester.HTTPAddress ≠ "") ∧
      (r.Cortex.Alertmanager.HTTPAddress =
          (if s.Cortex.Alertmanager.HTTPAddress = "" then "cortex-alertmanager:8080"
            else s.Cortex.Alertmanager.HTTPAddress) ∧
        r.Cortex.Alertmanager.HTTPAddress ≠ "") ∧
      (r.Cortex.Ruler.HTTPAddress =
          (if s.Cortex.Ruler.HTTPAddress = "" then "cortex-ruler:8080"
            else s.Cortex.Ruler.HTTPAddress) ∧
        r.Cortex.Ruler.HTTPAddress ≠ "") ∧
      (r.Cortex.QueryFrontend.HTTPAddress =
          (if s.Cortex.QueryFrontend.HTTPAddress = "" then "cortex-query-frontend:8080"
            else s.Cortex.QueryFrontend.HTTPAddress) ∧
        r.Cortex.QueryFrontend.HTTPAddress ≠ "") ∧
      r.Cortex.Distributor.GRPCAddress =
        (if s.Cortex.Distributor.HTTPAddress = "" then "cortex-distributor-headless:9095"
          else s.Cortex.Distributor.GRPCAddress) ∧
      r.Cortex.Ingester.GRPCAddress =
        (if s.Cortex.Ingester.HTTPAddress = "" then "cortex-ingester-headless:9095"
          else s.Cortex.Ingester.GRPCAddress) ∧
      r.Cortex.QueryFrontend.GRPCAddress =
        (if s.Cortex.QueryFrontend.HTTPAddress = "" then "cortex-query-frontend-headless:9095"
          else s.Cortex.QueryFrontend.GRPCAddress) ∧
      r.Management = s.Management ∧ r.EnableMonitor = s.EnableMonitor ∧
      r.TrustedProxies = s.TrustedProxies ∧ r.Cortex.Certs = s.Cortex.Certs ∧
      r.AuthProvider = s.AuthProvider ∧ r.Storage = s.Storage ∧ r.Certs = s.Certs ∧
      r.Plugins = s.Plugins := by
  refine ⟨rfl, _, SetDefaults_some s, ?_, ?_, ?_, ?_, ?_, ?_, ?_, ?_, ?_, ?_, ?_,
    rfl, rfl, rfl, rfl, rfl, rfl, rfl, rfl⟩
  · refine ⟨rfl, ?_⟩
    simp only []
    split
    · decide
    · assumption
  · refine ⟨rfl, ?_⟩
    simp only []
    split
    · decide
    · assumption
  · refine ⟨rfl, ?_⟩
    simp only []
    split
    · decide
    · assumption
  · simp only []
    split <;> [exact ⟨rfl, by decide⟩; exact ⟨rfl, by assumption⟩]
  · simp only []
    split <;> [exact ⟨rfl, by decide⟩; exact ⟨rfl, by assumption⟩]
  · simp only []
    split <;> [exact ⟨rfl, by decide⟩; exact ⟨rfl, by assumption⟩]
  · simp only []
    split <;> [exact ⟨rfl, by decide⟩; exact ⟨rfl, by assumption⟩]
  · simp only []
    split <;> [exact ⟨rfl, by decide⟩; exact ⟨rfl, by assumption⟩]
  · simp only []
    split <;> rfl
  · simp only []
    split <;> rfl
  · simp only []
    split <;> rfl

end Opni
